import Mathlib

/-!
Verification of the IWantIt step-pipeline engine against its specification.

The Python sources (`iwantit/pipeline.py`, `iwantit/util.py`,
`iwantit/steps/builtin.py`, `iwantit/step_metadata.py`) are shallowly embedded
below.  Python dictionaries are modelled as insertion-ordered association
lists, floats as rationals, exceptions as explicit `Option`/sum results, and
side effects (HTTP calls, sleeps) as explicit traces returned alongside the
data.  External collaborators (the regex engine, the HTTP transport, the
report writer, the random jitter source) are parameters of the definitions
that use them.
-/

namespace IWantIt

/-- A Python value as it occurs in the in-flight document: `None`, booleans,
ints, floats (modelled as `ℚ`), strings, lists and (insertion-ordered)
dicts. -/
inductive Val where
  | null : Val
  | bool (b : Bool) : Val
  | int (n : Int) : Val
  | num (q : ℚ) : Val
  | str (s : String) : Val
  | list (xs : List Val) : Val
  | dict (fields : List (String × Val)) : Val
deriving Repr

mutual

/-- Structural equality on values (Python `==` restricted to the shapes the
pipeline actually compares; cross-type numeric equality of `int`/`num`
mirrors Python's `2 == 2.0`). -/
def Val.beq : Val → Val → Bool
  | .null, .null => true
  | .bool a, .bool b => a == b
  | .int a, .int b => a == b
  | .num a, .num b => a == b
  | .int a, .num b => (a : ℚ) == b
  | .num a, .int b => a == (b : ℚ)
  | .str a, .str b => a == b
  | .list xs, .list ys => Val.beqList xs ys
  | .dict xs, .dict ys => Val.beqFields xs ys
  | _, _ => false

def Val.beqList : List Val → List Val → Bool
  | [], [] => true
  | x :: xs, y :: ys => Val.beq x y && Val.beqList xs ys
  | _, _ => false

def Val.beqFields : List (String × Val) → List (String × Val) → Bool
  | [], [] => true
  | (k, x) :: xs, (k', y) :: ys => k == k' && Val.beq x y && Val.beqFields xs ys
  | _, _ => false

end

/-- Python truthiness of a value. -/
def Val.truthy : Val → Bool
  | .null => false
  | .bool b => b
  | .int n => n != 0
  | .num q => q != 0
  | .str s => !s.isEmpty
  | .list xs => !xs.isEmpty
  | .dict fs => !fs.isEmpty

/-- Python `value is None`. -/
def Val.isNull : Val → Bool
  | .null => true
  | _ => false

/-- First binding of a key in an association list (Python dict lookup). -/
def dget (fs : List (String × Val)) (k : String) : Option Val :=
  match fs with
  | [] => none
  | (k', v) :: rest => if k' = k then some v else dget rest k

/-- Python `d[k] = v`: replace the existing binding in place, else append. -/
def dset (fs : List (String × Val)) (k : String) (v : Val) : List (String × Val) :=
  match fs with
  | [] => [(k, v)]
  | (k', v') :: rest => if k' = k then (k', v) :: rest else (k', v') :: dset rest k v

/-- Python `d.get(k, default)` on a value.  Looking up a key on a non-dict
raises in Python; the definitions below only apply it to dicts. -/
def Val.getD (v : Val) (k : String) (d : Val) : Val :=
  match v with
  | .dict fs => (dget fs k).getD d
  | _ => d

/-- Python `d.get(k)` (default `None`). -/
def Val.pyGet (v : Val) (k : String) : Val := v.getD k .null

/-- Python `d[k] = v` on a value (no-op on non-dicts, which would raise). -/
def Val.set (v : Val) (k : String) (x : Val) : Val :=
  match v with
  | .dict fs => .dict (dset fs k x)
  | _ => v

/-- Python `k in d`. -/
def Val.hasKey (v : Val) (k : String) : Bool :=
  match v with
  | .dict fs => (dget fs k).isSome
  | _ => false

/-- Python `d.setdefault(k, dflt)`: the resulting dict and the value now
present at `k`. -/
def Val.setdefault (v : Val) (k : String) (dflt : Val) : Val × Val :=
  match v with
  | .dict fs =>
    match dget fs k with
    | some x => (.dict fs, x)
    | none => (.dict (fs ++ [(k, dflt)]), dflt)
  | _ => (v, dflt)

/-- Python `a or b`. -/
def pyOr (a b : Val) : Val := if a.truthy then a else b

/-- Python `list(...)` view of a value: the elements of a list, else empty
(the pipeline only iterates values that are lists). -/
def Val.items : Val → List Val
  | .list xs => xs
  | _ => []

/-- Append an element to a list value (Python `xs.append`). -/
def Val.push (v : Val) (x : Val) : Val :=
  match v with
  | .list xs => .list (xs ++ [x])
  | _ => v

/-! ### Matching engine (`iwantit/steps/builtin.py`) -/

/-- A regex word character (`\w`), restricted to ASCII inputs. -/
def isWordChar (c : Char) : Bool := c.isAlphanum || c = '_'

/-- A regex whitespace character (`\s`), ASCII range. -/
def isPySpace (c : Char) : Bool :=
  c = ' ' || c = '\t' || c = '\n' || c = '\r' || c = '\x0b' || c = '\x0c'

/-- Collapse runs of whitespace to single spaces (`re.sub(r"\s+", " ", ·)`). -/
def collapseWs : List Char → List Char
  | [] => []
  | c :: rest =>
    if isPySpace c then
      match collapseWs rest with
      | [] => [' ']
      | d :: tail => if d = ' ' then ' ' :: tail else ' ' :: d :: tail
    else c :: collapseWs rest

/-- Python `str.strip()` on the whitespace the normaliser can leave behind. -/
def stripChars (cs : List Char) : List Char :=
  ((cs.dropWhile isPySpace).reverse.dropWhile isPySpace).reverse

/-- Python `str.lower()` (structural form of `String.toLower`). -/
def pyLower (s : String) : String := String.mk (s.data.map Char.toLower)

/-- Python `s.split(sep)` for a non-empty separator, structurally (fuel is
the input length): greedy left-to-right, keeping empty parts, as both
CPython and `String.splitOn` do. -/
def splitSeqFuel (sep : List Char) : ℕ → List Char → List (List Char)
  | _, [] => [[]]
  | 0, cs => [cs]
  | fuel + 1, c :: rest =>
    if sep.isPrefixOf (c :: rest) then
      [] :: splitSeqFuel sep fuel (rest.drop (sep.length - 1))
    else
      match splitSeqFuel sep fuel rest with
      | [] => [[c]]
      | g :: gs => (c :: g) :: gs

/-- Python `s.split(sep)` on strings. -/
def pySplit (s sep : String) : List String :=
  if sep.isEmpty then [s]
  else (splitSeqFuel sep.data s.data.length s.data).map fun g => String.mk g

/-- `_normalize_text`: lowercase, replace non-word non-space characters with
spaces, collapse whitespace, strip. -/
def normalizeText (s : String) : String :=
  let lowered := s.data.map Char.toLower
  let replaced := lowered.map fun c => if isWordChar c || isPySpace c then c else ' '
  String.mk (stripChars (collapseWs replaced))

/-- `_tokenize`: normalize, split on spaces, drop tokens of length ≤ 1. -/
def tokenize (s : String) : List String :=
  (pySplit (normalizeText s) " ").filter fun t => t.length > 1

/-- `_match_score`: `|C ∩ Q| / max(|C|, 1)`, `0` if either token set is
empty. -/
def matchScore (candidateTokens queryTokens : Finset String) : ℚ :=
  if candidateTokens = ∅ ∨ queryTokens = ∅ then 0
  else ((candidateTokens ∩ queryTokens).card : ℚ) / (max candidateTokens.card 1 : ℚ)

/-! ### Generic string helpers mirroring Python `str` operations -/

/-- Python `str(value)`.  The float, list and dict cases approximate Python's
textual form; the pipeline only applies `str` to strings, numbers and `None`
in the paths verified here. -/
def pyStr : Val → String
  | .null => "None"
  | .bool b => if b then "True" else "False"
  | .int n => toString n
  | .num q => toString q
  | .str s => s
  | .list _ => "[...]"
  | .dict _ => "\x7b...\x7d"

/-- Python `needle in haystack` for strings. -/
def strContains (haystack needle : String) : Bool :=
  decide (needle.data <:+: haystack.data)

/-- Python `str.strip()` (ASCII whitespace). -/
def pyStrip (s : String) : String := String.mk (stripChars s.data)

/-- Python `s.split(sep, 1)`: the text before the first occurrence of `sep`
and the remainder, when `sep` occurs in `s`. -/
def splitOnFirst (s sep : String) : Option (String × String) :=
  match pySplit s sep with
  | [] => none
  | [_] => none
  | x :: rest => some (x, String.intercalate sep rest)

/-- Index (in characters) of the first occurrence of `needle` in `haystack`
(Python `str.index`). -/
def strFindIdx (haystack needle : String) : Option Nat :=
  let rec go : List Char → Nat → Option Nat
    | [], i => if needle.data.isPrefixOf ([] : List Char) then some i else none
    | c :: rest, i =>
      if needle.data.isPrefixOf (c :: rest) then some i else go rest (i + 1)
  go haystack.data 0

/-! ### Consensus engine (`_consensus_fields_from_results` and helpers) -/

/-- The site/catalog suffix tokens of `_strip_suffix`. -/
def knownSuffixes : List String :=
  ["wikipedia", "discogs", "imdb", "tmdb", "tvdb", "goodreads", "open library",
   "spotify", "bandcamp", "youtube", "apple music", "rateyourmusic", "rym",
   "musicbrainz", "allmusic", "last.fm", "soundcloud", "amazon"]

/-- One separator pass of `_strip_suffix`: drop the final `sep`-separated part
when it looks like a domain or known site name. -/
def stripSuffixSep (cleaned sep : String) : String :=
  if strContains cleaned sep then
    let parts := pySplit cleaned sep
    let tail := pyLower (pyStrip (parts.getLastD ""))
    if strContains tail "." || knownSuffixes.any (fun tok => strContains tail tok) then
      pyStrip (String.intercalate sep (parts.dropLast))
    else cleaned
  else cleaned

/-- `_strip_suffix`: strip informational site-name tails after `" - "` or
`" | "`. -/
def stripSuffix (title : String) : String :=
  stripSuffixSep (stripSuffixSep (pyStrip title) " - ") " | "

/-- Scanner for `_extract_year`'s regex `\b(19|20)\d{2}\b`: the first
word-bounded four-digit year starting `19` or `20`.  `prev` is the character
just before the scan position. -/
def findYearAux : Option Char → List Char → Option Int
  | _, [] => none
  | prev, c1 :: rest =>
    match rest with
    | c2 :: c3 :: c4 :: rest2 =>
      if (match prev with | some p => !isWordChar p | none => true) &&
          ((c1 = '1' && c2 = '9') || (c1 = '2' && c2 = '0')) &&
          c3.isDigit && c4.isDigit &&
          (match rest2 with | [] => true | c5 :: _ => !isWordChar c5) then
        some ((c1.toNat - 48) * 1000 + (c2.toNat - 48) * 100 +
          (c3.toNat - 48) * 10 + (c4.toNat - 48) : Int)
      else findYearAux (some c1) rest
    | _ => none

/-- `_extract_year`: first `19xx`/`20xx` four-digit year in the text. -/
def extractYear (text : String) : Option Int :=
  findYearAux none text.data

/-- `_extract_fields_from_title`: split a cleaned result title into
artist/title (music), title/author (book) or plain title, with an optional
year.  The result models the Python dict in its insertion order. -/
def extractFieldsFromTitle (mediaType : Option String) (title : String) :
    List (String × Val) :=
  if title = "" then []
  else
    let yearPart : List (String × Val) :=
      match extractYear title with
      | some y => [("year", .int y)]
      | none => []
    if mediaType = some "music" then
      match splitOnFirst title " - " with
      | some (artist, release) =>
        if pyStrip artist ≠ "" && pyStrip release ≠ "" then
          yearPart ++ [("artist", .str (pyStrip artist)), ("title", .str (pyStrip release))]
        else yearPart ++ [("title", .str (pyStrip title))]
      | none => yearPart ++ [("title", .str (pyStrip title))]
    else if mediaType = some "book" then
      match strFindIdx (pyLower title) " by " with
      | some idx =>
        yearPart ++ [("title", .str (pyStrip (String.mk (title.data.take idx)))),
          ("author", .str (pyStrip (String.mk (title.data.drop (idx + 4)))))]
      | none =>
        match splitOnFirst title " - " with
        | some (bookTitle, author) =>
          if pyStrip bookTitle ≠ "" && pyStrip author ≠ "" then
            yearPart ++ [("title", .str (pyStrip bookTitle)), ("author", .str (pyStrip author))]
          else yearPart ++ [("title", .str (pyStrip title))]
        | none => yearPart ++ [("title", .str (pyStrip title))]
    else yearPart ++ [("title", .str (pyStrip title))]

/-- `fields.get(k) or ""` for the string-valued consensus fields. -/
def getStrField (fs : List (String × Val)) (k : String) : String :=
  match dget fs k with
  | some (.str s) => s
  | _ => ""

/-- `fields.get("year")` for the int-valued year field. -/
def getYearField (fs : List (String × Val)) : Option Int :=
  match dget fs "year" with
  | some (.int y) => some y
  | _ => none

/-- Bucket key `(artist-lower, title-lower, year-or-0)`. -/
abbrev ConsKey := String × String × Int

/-- One consensus bucket: the first surviving result's fields plus a count and
running score sum. -/
structure Bucket where
  fields : List (String × Val)
  count : ℕ
  scoreSum : ℚ
deriving Repr

/-- `scored.setdefault(key, …)` followed by the count/score accumulation:
update the bucket in place, else append a fresh one. -/
def addToBuckets (bs : List (ConsKey × Bucket)) (key : ConsKey)
    (fields : List (String × Val)) (score : ℚ) : List (ConsKey × Bucket) :=
  match bs with
  | [] => [(key, ⟨fields, 1, score⟩)]
  | (k, b) :: rest =>
    if k = key then (k, ⟨b.fields, b.count + 1, b.scoreSum + score⟩) :: rest
    else (k, b) :: addToBuckets rest key fields score

/-- Processing of one search result in `_consensus_fields_from_results`:
title cleaning, field extraction, year conflict and music completeness
rejection, dual-threshold scoring, bucketing. -/
def consensusStep (mediaType : Option String) (queryTokens : Finset String)
    (inputYear : Option Int) (minMatchRatio : ℚ) (minTokenMatches : ℕ)
    (bs : List (ConsKey × Bucket)) (item : Val) : List (ConsKey × Bucket) :=
  let title : Val :=
    match item with
    | .dict fs => (dget fs "title").getD .null
    | other => .str (pyStr other)
  if !title.truthy then bs
  else
    let cleaned := stripSuffix (pyStr title)
    let fields := extractFieldsFromTitle mediaType cleaned
    if fields.isEmpty then bs
    else
      let candidateYear := getYearField fields
      match inputYear, candidateYear with
      | some iy, some cy =>
        if cy ≠ iy then bs
        else consensusStepScored mediaType queryTokens minMatchRatio minTokenMatches bs fields candidateYear
      | _, _ => consensusStepScored mediaType queryTokens minMatchRatio minTokenMatches bs fields candidateYear
where
  /-- The scoring/bucketing tail of the loop body. -/
  consensusStepScored (mediaType : Option String) (queryTokens : Finset String)
      (minMatchRatio : ℚ) (minTokenMatches : ℕ) (bs : List (ConsKey × Bucket))
      (fields : List (String × Val)) (candidateYear : Option Int) :
      List (ConsKey × Bucket) :=
    let artist := getStrField fields "artist"
    let workTitle := getStrField fields "title"
    if mediaType = some "music" && !(artist ≠ "" && workTitle ≠ "") then bs
    else
      let candidateTokens := (tokenize (artist ++ " " ++ workTitle)).toFinset
      let score := matchScore candidateTokens queryTokens
      if score < minMatchRatio || (candidateTokens ∩ queryTokens).card < minTokenMatches then bs
      else
        let key : ConsKey := (pyLower artist, pyLower workTitle, candidateYear.getD 0)
        addToBuckets bs key fields score

/-- The surviving buckets of `_consensus_fields_from_results` (steps 1–6 of
the spec's consensus algorithm), in dict insertion order. -/
def consensusBuckets (results : List Val) (mediaType : Option String)
    (originalQuery : String) (limit : ℕ) (minMatchRatio : ℚ)
    (minTokenMatches : ℕ) : List (ConsKey × Bucket) :=
  let queryTokens := (tokenize originalQuery).toFinset
  let inputYear := extractYear originalQuery
  if queryTokens = ∅ then []
  else (results.take (max limit 1)).foldl
    (consensusStep mediaType queryTokens inputYear minMatchRatio minTokenMatches) []

/-- Python `max(..., key=λ b, (count, score_sum))` comparison: strictly
greater in the `(count, score-sum)` tie-break order. -/
def tupGtCount (a b : ℕ × ℚ) : Bool := a.1 > b.1 || (a.1 == b.1 && a.2 > b.2)

/-- Python `max` over the buckets: the first bucket whose `(count, score-sum)`
tuple is maximal. -/
def pickBest (bs : List (ConsKey × Bucket)) : Option (ConsKey × Bucket) :=
  match bs with
  | [] => none
  | x :: rest =>
    some (rest.foldl (fun best item =>
      if tupGtCount (item.2.count, item.2.scoreSum) (best.2.count, best.2.scoreSum)
      then item else best) x)

/-- `_consensus_fields_from_results`: the accepted field set (possibly empty)
and the acceptance metadata `{count, avg_score, accepted}`. -/
def consensusFieldsFromResults (results : List Val) (mediaType : Option String)
    (originalQuery : String) (limit : ℕ) (minMatchRatio : ℚ)
    (minTokenMatches : ℕ) (minConfirmations : ℕ) (singleMatchRatio : ℚ) :
    List (String × Val) × List (String × Val) :=
  let buckets := consensusBuckets results mediaType originalQuery limit minMatchRatio minTokenMatches
  match pickBest buckets with
  | none => ([], [])
  | some (_, best) =>
    let avgScore := best.scoreSum / (max best.count 1 : ℚ)
    let accepted : Bool :=
      decide (best.count ≥ minConfirmations) ||
        (best.count == 1 && decide (avgScore ≥ singleMatchRatio))
    ((if accepted then best.fields else []),
      [("count", .int best.count), ("avg_score", .num avgScore), ("accepted", .bool accepted)])

/-! ### Numeric coercions and dotted-path lookup -/

/-- Python `float(value)` as used with `try/except (TypeError, ValueError)`:
`some` on success.  String parsing covers plain decimal literals (the
exponent/infinity forms Python also accepts do not occur in the data the
pipeline feeds it). -/
def pyFloat : Val → Option ℚ
  | .int n => some (n : ℚ)
  | .num q => some q
  | .bool b => some (if b then 1 else 0)
  | .str s => parseDecimal s
  | _ => none
where
  parseDecimal (s : String) : Option ℚ :=
    let t := pyStrip s
    let (sign, rest) : ℚ × String :=
      if t.startsWith "-" then (-1, t.drop 1)
      else if t.startsWith "+" then (1, t.drop 1) else (1, t)
    match pySplit rest "." with
    | [intPart] =>
      if !intPart.isEmpty && intPart.data.all Char.isDigit then
        some (sign * ((intPart.toNat?).getD 0 : ℚ))
      else none
    | [intPart, fracPart] =>
      if (!intPart.isEmpty || !fracPart.isEmpty) && intPart.data.all Char.isDigit
          && fracPart.data.all Char.isDigit then
        some (sign * (((intPart.toNat?).getD 0 : ℚ) +
          ((fracPart.toNat?).getD 0 : ℚ) / (10 : ℚ) ^ fracPart.length))
      else none
    | _ => none

/-- Python `int(value)` under `try/except`: truncation toward zero for
floats, digit-string parsing for strings. -/
def pyInt : Val → Option Int
  | .int n => some n
  | .num q => some (if 0 ≤ q then ⌊q⌋ else -⌊-q⌋)
  | .bool b => some (if b then 1 else 0)
  | .str s =>
    let t := pyStrip s
    let (sign, rest) : Int × String :=
      if t.startsWith "-" then (-1, t.drop 1)
      else if t.startsWith "+" then (1, t.drop 1) else (1, t)
    if !rest.isEmpty && rest.data.all Char.isDigit then
      some (sign * ((rest.toNat?).getD 0 : Int))
    else none
  | _ => none

/-- `_get_path` on pre-split components: descend through dicts, `None` as
soon as a component is missing or the current value is not a dict. -/
def getPathParts : Val → List String → Val
  | v, [] => v
  | .dict fs, p :: rest =>
    match dget fs p with
    | some v => getPathParts v rest
    | none => .null
  | _, _ :: _ => .null

/-- `_get_path(obj, path)`: dotted-path lookup returning `None` on any
failure. -/
def getPath (v : Val) (path : String) : Val :=
  getPathParts v (pySplit path ".")

/-- Word-bounded occurrence search, the `re.search(r"\bw\b", text)` used by
`decide`'s audio-format detection (for `w` made of word characters). -/
def containsWordAux (w : List Char) : Option Char → List Char → Bool
  | prev, cs =>
    (((match prev with | some p => !isWordChar p | none => true) && w.isPrefixOf cs &&
        (match cs.drop w.length with | [] => true | c :: _ => !isWordChar c)) ||
      (match cs with | [] => false | c :: rest => containsWordAux w (some c) rest))

/-- `re.search(r"\b" + w + r"\b", text)` as a Bool, `w` a word-character
token. -/
def containsWord (text w : String) : Bool :=
  containsWordAux w.data none text.data

/-! ### Template resolver (`_render_value` / `render_template`,
`iwantit/pipeline.py`) -/

/-- One chunk of `string.Formatter().parse`: a literal prefix and an optional
`\x7bfield!conv:spec\x7d` placeholder.  `spec`/`conv` are `none` exactly when
`field` is (mirroring the `None`s of the Python tuples). -/
structure FmtSeg where
  literal : String
  field : Option String
  spec : Option String
  conv : Option String
deriving Repr, DecidableEq

/-- Scanner state for the format-string parser. -/
inductive FmtState where
  | lit (acc : List Char)
  | fld (lit : String) (facc : List Char)
  | convStart (lit field : String)
  | convDone (lit field conv : String)
  | spec (lit field : String) (conv : Option String) (sacc : List Char)

/-- The CPython `formatter_parser` scanner: splits a format string into
segments, `none` on a malformed string (`ValueError`).  `\x7b\x7b`/`\x7d\x7d`
escapes close the current literal chunk just as CPython does.  Nested braces
inside a format spec are not supported (unused by this code base). -/
def parseFmtAux : FmtState → List Char → Option (List FmtSeg)
  | .lit acc, [] =>
    if acc.isEmpty then some [] else some [⟨String.mk acc.reverse, none, none, none⟩]
  | .lit acc, '{' :: '{' :: rest =>
    (parseFmtAux (.lit []) rest).map
      (fun segs => ⟨String.mk (acc.reverse ++ ['{']), none, none, none⟩ :: segs)
  | .lit acc, '}' :: '}' :: rest =>
    (parseFmtAux (.lit []) rest).map
      (fun segs => ⟨String.mk (acc.reverse ++ ['}']), none, none, none⟩ :: segs)
  | .lit acc, '{' :: rest => parseFmtAux (.fld (String.mk acc.reverse) []) rest
  | .lit _, '}' :: _ => none
  | .lit acc, c :: rest => parseFmtAux (.lit (c :: acc)) rest
  | .fld _ _, [] => none
  | .fld l facc, '!' :: rest => parseFmtAux (.convStart l (String.mk facc.reverse)) rest
  | .fld l facc, ':' :: rest => parseFmtAux (.spec l (String.mk facc.reverse) none []) rest
  | .fld l facc, '}' :: rest =>
    (parseFmtAux (.lit []) rest).map
      (fun segs => ⟨l, some (String.mk facc.reverse), some "", none⟩ :: segs)
  | .fld l facc, c :: rest => parseFmtAux (.fld l (c :: facc)) rest
  | .convStart _ _, [] => none
  | .convStart l f, c :: rest => parseFmtAux (.convDone l f (String.mk [c])) rest
  | .convDone _ _ _, [] => none
  | .convDone l f cv, ':' :: rest => parseFmtAux (.spec l f (some cv) []) rest
  | .convDone l f cv, '}' :: rest =>
    (parseFmtAux (.lit []) rest).map
      (fun segs => ⟨l, some f, some "", some cv⟩ :: segs)
  | .convDone _ _ _, _ :: _ => none
  | .spec _ _ _ _, [] => none
  | .spec l f cv sacc, '}' :: rest =>
    (parseFmtAux (.lit []) rest).map
      (fun segs => ⟨l, some f, some (String.mk sacc.reverse), cv⟩ :: segs)
  | .spec _ _ _ _, '{' :: _ => none
  | .spec l f cv sacc, c :: rest => parseFmtAux (.spec l f cv (c :: sacc)) rest

/-- `list(_FORMATTER.parse(value))`, `none` for the `ValueError` cases. -/
def parseFmt (s : String) : Option (List FmtSeg) :=
  parseFmtAux (.lit []) s.data

/-- Attribute steps of `Formatter.get_field` over the dotified context:
`DotDict.__getattr__` turns missing keys into `None`; an attribute lookup on
any non-dict value raises (`none`).  (Real dict attribute names such as
`items` would shadow the lookup in Python; the templates in this code base do
not use them.) -/
def resolveAttrs : Val → List String → Option Val
  | v, [] => some v
  | .dict fs, p :: rest => resolveAttrs ((dget fs p).getD .null) rest
  | _, _ :: _ => none

/-- Whether a placeholder's root component would be treated as a positional
argument by the Formatter (auto-numbering or an integer index), which raises
`IndexError` here since no positional arguments are passed. -/
def fieldRootPositional (root : String) : Bool :=
  root.isEmpty || root.data.all Char.isDigit

/-- `Formatter.get_field(field, (), ctx)` on the raw context dict: `none`
models the `KeyError`/`IndexError`/`AttributeError` that the whole-field
branch swallows. -/
def getField (ctx : List (String × Val)) (field : String) : Option Val :=
  match pySplit field "." with
  | [] => none
  | root :: rest =>
    if fieldRootPositional root then none
    else
      match dget ctx root with
      | none => none
      | some v => resolveAttrs v rest

/-- The text one placeholder contributes under `value.format_map(SafeMap(ctx))`:
a missing root key becomes the literal `\x7broot\x7d` text via
`SafeMap.__missing__`; `none` models an exception escaping `format_map`.
Conversions and non-empty format specs are approximated by `str` (the
pipeline's templates use neither). -/
def segText (ctx : List (String × Val)) (seg : FmtSeg) : Option String :=
  match seg.field with
  | none => some ""
  | some f =>
    match pySplit f "." with
    | [] => none
    | root :: rest =>
      if fieldRootPositional root then none
      else
        let base : Val :=
          match dget ctx root with
          | some v => v
          | none => .str ("\x7b" ++ root ++ "\x7d")
        match resolveAttrs base rest with
        | none => none
        | some v => some (pyStr v)

/-- `value.format_map(SafeMap(ctx))`: concatenate literals and placeholder
texts; `none` when a placeholder raises. -/
def interpolateSegs (ctx : List (String × Val)) : List FmtSeg → Option String
  | [] => some ""
  | seg :: rest =>
    match segText ctx seg, interpolateSegs ctx rest with
    | some t, some r => some (seg.literal ++ t ++ r)
    | _, _ => none

/-- Whether `parsed` is exactly one whole-field placeholder
(`literal == "" and field and format_spec == "" and conv is None`). -/
def wholeField (segs : List FmtSeg) : Option String :=
  match segs with
  | [⟨lit, some f, some spc, none⟩] =>
    if lit = "" && f ≠ "" && spc = "" then some f else none
  | _ => none

/-- The string case of `_render_value`: whole-field references resolve with
their original type, otherwise interpolation; any exception inside the
guarded `try` blocks returns the string unchanged.  `.error` models the
unguarded `ValueError` of `_FORMATTER.parse` on a malformed string. -/
def renderString (ctx : List (String × Val)) (s : String) : Except Unit Val :=
  match parseFmt s with
  | none => .error ()
  | some segs =>
    let fallback : Val :=
      match interpolateSegs ctx segs with
      | some out => .str out
      | none => .str s
    match wholeField segs with
    | some f =>
      match getField ctx f with
      | some v => .ok v
      | none => .ok fallback
    | none => .ok fallback

mutual

/-- `_render_value`: recursive template resolution over dicts, lists and
strings (non-string scalars pass through). -/
def renderValue (ctx : List (String × Val)) : Val → Except Unit Val
  | .dict fs =>
    match renderFields ctx fs with
    | .ok fs' => .ok (.dict fs')
    | .error e => .error e
  | .list xs =>
    match renderList ctx xs with
    | .ok xs' => .ok (.list xs')
    | .error e => .error e
  | .str s => renderString ctx s
  | v => .ok v

def renderFields (ctx : List (String × Val)) :
    List (String × Val) → Except Unit (List (String × Val))
  | [] => .ok []
  | (k, v) :: rest =>
    match renderValue ctx v, renderFields ctx rest with
    | .ok v', .ok rest' => .ok ((k, v') :: rest')
    | .error e, _ => .error e
    | _, .error e => .error e

def renderList (ctx : List (String × Val)) : List Val → Except Unit (List Val)
  | [] => .ok []
  | v :: rest =>
    match renderValue ctx v, renderList ctx rest with
    | .ok v', .ok rest' => .ok (v' :: rest')
    | .error e, _ => .error e
    | _, .error e => .error e

end

/-- `render_template(obj, data, config)`: resolve against the five
dotted-path views.  `_dotify` only changes dict attribute behaviour, which
`resolveAttrs` models directly. -/
def renderTemplate (obj : Val) (data : Val) (config : Val) : Except Unit Val :=
  renderValue
    [("data", data),
     ("request", data.getD "request" (.dict [])),
     ("work", data.getD "work" (.dict [])),
     ("decision", data.getD "decision" (.dict [])),
     ("config", config)]
    obj

/-! ### Exceptions and the retry loop (`iwantit/util.py`) -/

/-- The Python exceptions the runner distinguishes: `StepError` (typed step
failure with code and hint), the `requests` transport exceptions, and
anything else by class name. -/
inductive PyExc where
  | stepError (msg code hint : String)
  | reqTimeout (msg : String)
  | reqConnectionError (msg : String)
  | httpError (msg : String) (status : Int)
  | runtimeError (clsName msg : String)
deriving Repr, DecidableEq

/-- `exc.__class__.__name__`. -/
def PyExc.clsName : PyExc → String
  | .stepError _ _ _ => "StepError"
  | .reqTimeout _ => "Timeout"
  | .reqConnectionError _ => "ConnectionError"
  | .httpError _ _ => "HTTPError"
  | .runtimeError cls _ => cls

/-- `str(exc)`. -/
def PyExc.message : PyExc → String
  | .stepError m _ _ => m
  | .reqTimeout m => m
  | .reqConnectionError m => m
  | .httpError m _ => m
  | .runtimeError _ m => m

/-- Whether the exception is a `requests.RequestException` (the class the
retry loop catches). -/
def PyExc.isRequestException : PyExc → Bool
  | .reqTimeout _ => true
  | .reqConnectionError _ => true
  | .httpError _ _ => true
  | _ => false

/-- One HTTP exchange as the abstract transport sees it. -/
structure HttpResponse where
  status : Int
  body : Val
deriving Repr

/-- Outcome of one `requests.request` call: a transport exception or a
response. -/
inductive TransportResult where
  | exc (e : PyExc)
  | resp (r : HttpResponse)
deriving Repr

/-- The loop of `request_with_retry`, in fuel form: `attempt` is the 0-based
index of the call about to be made and `remaining` the number of retries
still allowed (`retries - attempt`, so `remaining = 0` is the source's
`attempt >= retries` exit).  `jitterDraw k` models the `random.random()`
drawn before the `k`-th retry.  Returns the surfaced outcome, the total
number of transport calls made, and the backoff sleeps performed. -/
def requestWithRetryAux (transport : ℕ → TransportResult)
    (backoffSeconds maxBackoffSeconds jitter : ℚ) (jitterDraw : ℕ → ℚ)
    (retryStatuses : List Int) :
    ℕ → ℕ → List ℚ → Except PyExc HttpResponse × ℕ × List ℚ
  | attempt, 0, sleeps =>
    (match transport attempt with
      | .exc e => (.error e, attempt + 1, sleeps)
      | .resp r => (.ok r, attempt + 1, sleeps))
  | attempt, remaining + 1, sleeps =>
    (match transport attempt with
      | .exc _ =>
        let delay := min maxBackoffSeconds (backoffSeconds * 2 ^ attempt) +
          jitterDraw attempt * jitter
        requestWithRetryAux transport backoffSeconds maxBackoffSeconds jitter jitterDraw
          retryStatuses (attempt + 1) remaining (sleeps ++ [delay])
      | .resp r =>
        if r.status ∈ retryStatuses then
          let delay := min maxBackoffSeconds (backoffSeconds * 2 ^ attempt) +
            jitterDraw attempt * jitter
          requestWithRetryAux transport backoffSeconds maxBackoffSeconds jitter jitterDraw
            retryStatuses (attempt + 1) remaining (sleeps ++ [delay])
        else (.ok r, attempt + 1, sleeps))

/-- `request_with_retry`: 1 initial attempt plus up to `retries` retries with
exponential backoff capped at `max_backoff_seconds` plus jitter, retrying on
transport exceptions and on the configured retryable statuses (default
429, 502, 503, 504). -/
def requestWithRetry (transport : ℕ → TransportResult) (retries : ℕ)
    (backoffSeconds maxBackoffSeconds jitter : ℚ) (jitterDraw : ℕ → ℚ)
    (retryStatuses : Option (List Int)) :
    Except PyExc HttpResponse × ℕ × List ℚ :=
  requestWithRetryAux transport backoffSeconds maxBackoffSeconds jitter jitterDraw
    (retryStatuses.getD [429, 502, 503, 504]) 0 retries []

/-! ### Ranking engine (`rank_releases`, `iwantit/steps/builtin.py`)

The regex engine (`re.search` with `IGNORECASE`, `re.error` on a bad
pattern) and the audio-field extraction regexes of `_derive_audio_fields`
are external deterministic functions of their string arguments; they are
parameters `regexValid`/`regexSearch`/`deriveAudio` below.  The quality
rules arrive as the typed view of the rule dict: `""` plays the role of a
falsy/absent pattern, label or path exactly as Python's `or` chains do. -/

/-- A reject rule: `\x7bmatch|regex, label\x7d`. -/
structure RejectRule where
  pattern : String
  label : String
deriving Repr, DecidableEq

/-- A score rule: `\x7bmatch|regex, score, label\x7d`. -/
structure ScoreRule where
  pattern : String
  score : ℚ
  label : String
deriving Repr, DecidableEq

/-- A numeric-field contribution: `\x7bpath, scale, max, weight, label\x7d`
(`scale = 0` models a falsy/absent scale, `cap = none` an absent `max`). -/
structure NumericRule where
  path : String
  scale : ℚ
  cap : Option ℚ
  weight : ℚ
  label : String
deriving Repr, DecidableEq

/-- One explicit sort spec `\x7bpath, desc\x7d` (`desc` defaults to true). -/
structure SortSpec where
  path : String
  desc : Bool
deriving Repr, DecidableEq

/-- The resolved quality-rule set for one media type, after
`_apply_format_rules`: `base_score`, reject and score rules, numeric-field
contributions, optional explicit sort specs (empty list = falsy, use the
default ordering), composed title fields, and the release-priority table
(`releasePriorityWeight` carries `rules.get("release_priority_weight") or
50.0`). -/
structure QualityRules where
  baseScore : ℚ
  reject : List RejectRule
  score : List ScoreRule
  numericFields : List NumericRule
  sortFields : List SortSpec
  titleFields : List String
  releasePriority : List String
  releasePriorityWeight : ℚ
deriving Repr

/-- `_get_candidate_text`: join the non-container, non-`None` field values
addressed by `fields`. -/
def getCandidateText (candidate : Val) (fields : List String) : String :=
  pyStrip (String.intercalate " "
    ((fields.filterMap fun path =>
      match getPath candidate path with
      | .null => none
      | .list _ => none
      | .dict _ => none
      | v => let t := pyStrip (pyStr v); if t.isEmpty then none else some t)))

/-- `dict(existing)` + `for key, value in derived.items(): if key not in
merged: merged[key] = value`. -/
def mergeAbsent (existing derived : List (String × Val)) : List (String × Val) :=
  derived.foldl (fun acc kv => if (dget acc kv.1).isSome then acc else acc ++ [kv]) existing

/-- Python `%+g`-style rendering of a score delta (digits approximated by
`toString`; only used inside diagnostic reason strings). -/
def fmtSigned (q : ℚ) : String :=
  (if 0 ≤ q then "+" else "") ++ toString q

/-- `_release_category_for_candidate`: classify a candidate into
deluxe/anniversary/live/bootleg/studio from its title, remaster title and
mapped release type. -/
def releaseCategoryForCandidate (candidate : Val) (releaseTypeMap : List (Int × String)) :
    String :=
  let title := pyLower (pyStr (pyOr (candidate.pyGet "title") (.str "")))
  let red := pyOr (candidate.pyGet "redacted") (.dict [])
  let group := pyOr (red.pyGet "group") (.dict [])
  let torrent := pyOr (red.pyGet "torrent") (.dict [])
  let remasterTitle := pyLower (pyStr (pyOr (torrent.pyGet "remasterTitle") (.str "")))
  let releaseType := group.pyGet "releaseType"
  let releaseLabel :=
    if !releaseType.isNull then
      match pyInt releaseType with
      | some n => ((releaseTypeMap.lookup n).getD "")
      | none => ""
    else ""
  let releaseLabelLower := pyLower releaseLabel
  if strContains remasterTitle "deluxe" || strContains title "deluxe" then "deluxe"
  else if strContains remasterTitle "anniversary" || strContains title "anniversary" then
    "anniversary"
  else if strContains remasterTitle "live" || strContains title "live" ||
      strContains releaseLabelLower "live" then "live"
  else if strContains remasterTitle "bootleg" || strContains title "bootleg" ||
      strContains releaseLabelLower "bootleg" then "bootleg"
  else "studio"

/-- Index of the first occurrence of `x` in `l` (Python `list.index` over
strings). -/
def strIndexOf (l : List String) (x : String) : ℕ :=
  match l with
  | [] => 0
  | y :: rest => if y = x then 0 else strIndexOf rest x + 1

/-- The `derived` attachment block of `rank_releases`' loop body: merge the
audio fields extracted from the candidate text under `derived`, keeping
existing keys. -/
def attachDerived (candidate : Val) (derived : List (String × Val)) : Val :=
  if derived.isEmpty then candidate
  else
    match candidate.pyGet "derived" with
    | .dict existing => candidate.set "derived" (.dict (mergeAbsent existing derived))
    | _ => candidate.set "derived" (.dict derived)

/-- The scoring tail of `rank_releases`' loop body: reject rules, score
rules, numeric-field contributions, release-priority bump, recommendation
bump.  Returns `((score, reasons), rejected)`. -/
def computeScore (regexValid : String → Bool) (regexSearch : String → String → Bool)
    (rules : QualityRules) (releaseTypeMap : List (Int × String)) (text : String)
    (candidate : Val) : (ℚ × List String) × Bool :=
  let rejRes := rules.reject.foldl
    (fun (acc : Bool × List String) rule =>
      if rule.pattern.isEmpty then acc
      else if !regexValid rule.pattern then acc
      else if regexSearch rule.pattern text then
        (true, acc.2 ++ [if rule.label.isEmpty then "reject:" ++ rule.pattern else rule.label])
      else acc)
    (false, [])
  let rejectedMatch := rejRes.1
  let scoreRes := rules.score.foldl
    (fun (acc : ℚ × List String) rule =>
      if rule.pattern.isEmpty then acc
      else if !regexValid rule.pattern then acc
      else if regexSearch rule.pattern text then
        (acc.1 + rule.score,
          acc.2 ++ [if rule.label.isEmpty then rule.pattern ++ ":" ++ fmtSigned rule.score
            else rule.label])
      else acc)
    (rules.baseScore, rejRes.2)
  let numRes := rules.numericFields.foldl
    (fun (acc : ℚ × List String) entry =>
      if entry.path.isEmpty then acc
      else
        match pyFloat (getPath candidate entry.path) with
        | none => acc
        | some v0 =>
          let v1 := if entry.scale ≠ 0 then v0 / entry.scale else v0
          let v2 := match entry.cap with
            | some c => if v1 > c then c else v1
            | none => v1
          (acc.1 + v2 * entry.weight,
            acc.2 ++ [if entry.label.isEmpty then
              entry.path ++ ":" ++ toString v2 ++ "*" ++ toString entry.weight
              else entry.label]))
    scoreRes
  let relRes :=
    if rules.releasePriority.isEmpty then numRes
    else
      let category := releaseCategoryForCandidate candidate releaseTypeMap
      if rules.releasePriority.contains category then
        let bump := rules.releasePriorityWeight *
          ((rules.releasePriority.length : ℚ) - (strIndexOf rules.releasePriority category : ℚ))
        (numRes.1 + bump, numRes.2 ++ ["release:" ++ category])
      else numRes
  let rec0 := pyOr (candidate.pyGet "recommendation") (.dict [])
  let recScore := (pyFloat (pyOr (rec0.pyGet "score") (.num 0))).getD 0
  let finalRes := if recScore ≠ 0 then (relRes.1 + recScore, relRes.2 ++ ["recommendation"])
    else relRes
  (finalRes, rejectedMatch)

/-- The per-candidate body of `rank_releases`' loop: attach derived audio
fields, compute the score and reasons, attach the `rank` annotation; the
Bool is the rejected flag. -/
def scoreCandidate (regexValid : String → Bool) (regexSearch : String → String → Bool)
    (deriveAudio : String → List (String × Val)) (rules : QualityRules)
    (releaseTypeMap : List (Int × String)) (item : Val) : Val × Bool :=
  let candidate : Val :=
    match item with
    | .dict fs => .dict fs
    | other => .dict [("title", .str (pyStr other))]
  let text := getCandidateText candidate rules.titleFields
  let candidate := attachDerived candidate (deriveAudio text)
  let sc := computeScore regexValid regexSearch rules releaseTypeMap text candidate
  (candidate.set "rank" (.dict
    [("score", .num sc.1.1), ("rejected", .bool sc.2),
     ("reasons", .list (sc.1.2.map Val.str))]), sc.2)

/-- Stable insertion of `x` in front of the first element it is strictly
below. -/
def insertSorted (le : α → α → Bool) (x : α) : List α → List α
  | [] => [x]
  | y :: ys => if le x y then x :: y :: ys else y :: insertSorted le x ys

/-- Python's `list.sort` is the unique stable sort; with
`le a b = (key a ≤ key b)` this insertion sort computes it. -/
def pySort (le : α → α → Bool) : List α → List α
  | [] => []
  | x :: xs => insertSorted le x (pySort le xs)

/-- Lexicographic `≤` on equal-length rational tuples (Python tuple
comparison restricted to the sort keys built below). -/
def listLexLe : List ℚ → List ℚ → Bool
  | [], _ => true
  | _ :: _, [] => false
  | x :: xs, y :: ys => x < y || (x == y && listLexLe xs ys)

/-- The explicit `sort_fields` sort key: each addressed value coerced to a
float (0.0 on failure), negated when descending. -/
def sortFieldsKey (sortFields : List SortSpec) (item : Val) : List ℚ :=
  sortFields.filterMap fun entry =>
    if entry.path.isEmpty then none
    else
      let v := (pyFloat (getPath item entry.path)).getD 0
      some (if entry.desc then -v else v)

/-- The default sort key: `(-rank.score, -seeders, -size)`.  (The `float`
coercions cannot fail here: `rank.score` was just written as a float, and
`or 0.0` guards the other two.) -/
def defaultSortKey (item : Val) : List ℚ :=
  [-( (pyFloat ((item.getD "rank" (.dict [])).getD "score" (.num 0))).getD 0),
   -((pyFloat (pyOr (getPath item "seeders") (.num 0))).getD 0),
   -((pyFloat (pyOr (getPath item "size") (.num 0))).getD 0)]

/-- The candidate-list core of `rank_releases`: annotate and score every
candidate, split off rejected ones, sort the survivors. -/
def rankReleasesCore (regexValid : String → Bool) (regexSearch : String → String → Bool)
    (deriveAudio : String → List (String × Val)) (rules : QualityRules)
    (releaseTypeMap : List (Int × String)) (candidates : List Val) :
    List Val × List Val :=
  let annotated := candidates.map
    (scoreCandidate regexValid regexSearch deriveAudio rules releaseTypeMap)
  let ranked := (annotated.filter fun p => !p.2).map Prod.fst
  let rejected := (annotated.filter fun p => p.2).map Prod.fst
  let sorted :=
    if !rules.sortFields.isEmpty then
      pySort (fun a b => listLexLe (sortFieldsKey rules.sortFields a)
        (sortFieldsKey rules.sortFields b)) ranked
    else
      pySort (fun a b => listLexLe (defaultSortKey a) (defaultSortKey b)) ranked
  (sorted, rejected)

/-- `rank_releases` at document level.  The rule set is passed already
resolved: the `quality_rules[media_type]` lookup and `_apply_format_rules`
read only `request`/config fields that `rank_releases` never writes, so the
resolved rules are identical across repeated applications to the same
document. -/
def rankReleasesStep (regexValid : String → Bool) (regexSearch : String → String → Bool)
    (deriveAudio : String → List (String × Val)) (rules : QualityRules)
    (releaseTypeMap : List (Int × String)) (data : Val) : Val :=
  let work := data.getD "work" (.dict [])
  let candidates := pyOr (work.getD "candidates" (.list [])) (.list [])
  if !candidates.truthy then data
  else
    let res := rankReleasesCore regexValid regexSearch deriveAudio rules releaseTypeMap
      candidates.items
    let work := if res.2.isEmpty then work
      else work.set "rejected_candidates" (.list res.2)
    let work := work.set "candidates" (.list res.1)
    data.set "work" work

/-! ### Decision engine (`decide`, `iwantit/steps/builtin.py`) -/

/-- The runner context handed to every step (`pipeline.Context`). -/
structure Context where
  config : Val
  statePath : String
  choiceIndex : Option Int
  dryRun : Bool
  confirm : Bool

/-- Python `candidates.index(x)` (first position compared with `==`). -/
def indexOfBeq (l : List Val) (x : Val) : ℕ :=
  match l with
  | [] => 0
  | y :: rest => if Val.beq y x then 0 else indexOfBeq rest x + 1

/-- Python `x in candidates`. -/
def containsBeq (l : List Val) (x : Val) : Bool :=
  l.any fun y => Val.beq y x

/-- `decide`'s per-candidate audio-format detection
(`flac` > `v0` > `320`, word-bounded regexes over title text). -/
def detectFormat (candidate : Val) : Option String :=
  let text := pyLower (pyStr (pyOr (candidate.pyGet "title") (.str "")) ++ " " ++
    pyStr (pyOr (candidate.pyGet "sort_title") (.str "")))
  if containsWord text "flac" then some "flac"
  else if containsWord text "v0" then some "v0"
  else if containsWord text "320" &&
      (containsWord text "kbps" || containsWord text "320k" || containsWord text "mp3") then
    some "320"
  else none

/-- The numeric preference rank of a detected format (`\x7bflac: 0, v0: 1,
320: 2\x7d`). -/
def formatPreference : String → Option ℕ
  | "flac" => some 0
  | "v0" => some 1
  | "320" => some 2
  | _ => none

/-- `decide`'s candidate score accessor:
`float(candidate.get("rank", \x7b\x7d or …).get("score") or 0.0)` with failures
as `0.0`. -/
def decideScore (candidate : Val) : ℚ :=
  (pyFloat (pyOr ((pyOr (candidate.pyGet "rank") (.dict [])).pyGet "score") (.num 0))).getD 0

/-- Python `max(allowed_candidates, key=score)`: the first candidate whose
score is maximal. -/
def maxByScore (l : List Val) : Option Val :=
  match l with
  | [] => none
  | x :: rest => some (rest.foldl (fun best c => if decideScore c > decideScore best then c else best) x)

/-- The `decide` builtin: resolve the decision state from, in strict priority
order, a pre-existing selection, the caller's explicit choice index, the
explicit-version auto-selection, music auto-format selection, and the
single/multiple/zero candidate rules. -/
def decideStep (data : Val) (stepCfg : Val) (context : Context) : Val :=
  let request := pyOr (data.getD "request" (.dict [])) (.dict [])
  let work := data.getD "work" (.dict [])
  let preselected := work.pyGet "selected"
  if !preselected.isNull then
    let candidates := pyOr (work.getD "candidates" (.list [])) (.list [])
    let index : Val :=
      if candidates.truthy && containsBeq candidates.items preselected then
        .int (indexOfBeq candidates.items preselected)
      else .null
    let data := data.set "decision" (.dict
      [("status", .str "selected"), ("selected", preselected), ("index", index)])
    data.set "work" work
  else
    let candidates := pyOr (work.getD "candidates" (.list [])) (.list [])
    let explicitChoice : Option (Val × Int) :=
      match context.choiceIndex with
      | some idx =>
        if candidates.truthy && 0 ≤ idx && idx < (candidates.items.length : Int) then
          some (candidates.items.getD idx.toNat .null, idx)
        else none
      | none => none
    match explicitChoice with
    | some (selected, idx) =>
      let work := work.set "selected" selected
      let data := data.set "work" work
      data.set "decision" (.dict
        [("status", .str "selected"), ("selected", selected), ("index", .int idx)])
    | none =>
      if (request.pyGet "explicit_version").truthy &&
          (stepCfg.getD "auto_select_explicit" (.bool true)).truthy && candidates.truthy then
        let selected := candidates.items.getD 0 .null
        let work := work.set "selected" selected
        let data := data.set "work" work
        data.set "decision" (.dict
          [("status", .str "selected"), ("selected", selected), ("index", .int 0),
           ("reason", .str "explicit_version")])
      else
        let mediaType := pyOr (work.pyGet "media_type")
          ((data.getD "request" (.dict [])).pyGet "media_type")
        let autoFormats :=
          let v := stepCfg.pyGet "auto_select_formats"
          if v.isNull then Val.bool true else v
        let autoPick : Option (Val × ℕ) :=
          if autoFormats.truthy && Val.beq mediaType (.str "music") &&
              candidates.items.length > 1 then
            let detected : List (Option String) := candidates.items.map fun c =>
              match c with
              | .dict _ => detectFormat c
              | _ => none
            let avail := detected.filterMap fun f => f.bind formatPreference
            match avail.min? with
            | some bestPref =>
              let allowed := (candidates.items.zip detected).filterMap fun p =>
                match p.2.bind formatPreference with
                | some pref => if pref = bestPref then some p.1 else none
                | none => none
              match maxByScore allowed with
              | some selected => some (selected, indexOfBeq candidates.items selected)
              | none => none
            | none => none
          else none
        match autoPick with
        | some (selected, idx) =>
          let work := work.set "selected" selected
          let data := data.set "work" work
          data.set "decision" (.dict
            [("status", .str "selected"), ("selected", selected), ("index", .int (idx : Int)),
             ("reason", .str "auto_format")])
        | none =>
          if candidates.items.length = 1 then
            let selected := candidates.items.getD 0 .null
            let work := work.set "selected" selected
            let decision := Val.dict
              [("status", .str "selected"), ("selected", selected), ("index", .int 0)]
            (data.set "work" work).set "decision" decision
          else if candidates.items.length > 1 then
            let decision := Val.dict
              [("status", .str "needs_choice"), ("reason", .str "multiple_candidates"),
               ("options", candidates)]
            (data.set "work" work).set "decision" decision
          else
            let decision := Val.dict
              [("status", .str "needs_choice"), ("reason", .str "no_candidates"),
               ("options", candidates)]
            (data.set "work" work).set "decision" decision

/-! ### `filter_by_version` (`iwantit/steps/builtin.py`) -/

/-- The `match_any` closure: some preference value, normalised, occurs as a
substring of the normalised haystack. -/
def matchAnyPref (values : List String) (haystack : String) : Bool :=
  values.any fun value =>
    let token := normalizeText value
    !token.isEmpty && strContains haystack token

/-- The `matches` closure of `filter_by_version`: a candidate passes every
requested preference axis (editions, media, formats, catalogue numbers,
labels, years). -/
def candidateMatchesVersion (prefs : Val) (candidate : Val) : Bool :=
  let text := pyStr (candidate.getD "title" (.str "")) ++ " " ++
    pyStr (candidate.getD "sort_title" (.str ""))
  let textNorm := normalizeText text
  let red := pyOr (candidate.pyGet "redacted") (.dict [])
  let group := pyOr (red.pyGet "group") (.dict [])
  let torrent := pyOr (red.pyGet "torrent") (.dict [])
  let editions := (pyOr (prefs.pyGet "editions") (.list [])).items.map pyStr
  let editionsOk :=
    editions.isEmpty ||
      (matchAnyPref editions textNorm ||
        matchAnyPref editions (normalizeText (pyStr (pyOr (torrent.pyGet "remasterTitle") (.str "")))))
  let media := (pyOr (prefs.pyGet "media") (.list [])).items.map fun v => pyLower (pyStr v)
  let mediaOk :=
    media.isEmpty ||
      (let mediaValue := pyLower (pyStr (pyOr (torrent.pyGet "media") (.str "")))
       !(¬mediaValue.isEmpty && !media.contains mediaValue && !matchAnyPref media textNorm))
  let formats := (pyOr (prefs.pyGet "formats") (.list [])).items.map fun v => pyLower (pyStr v)
  let formatsOk :=
    formats.isEmpty ||
      (let formatValue := pyLower (pyStr (pyOr (torrent.pyGet "format") (.str "")))
       let encodingValue := pyLower (pyStr (pyOr (torrent.pyGet "encoding") (.str "")))
       !(¬formatValue.isEmpty && !formats.contains formatValue &&
         !formats.contains encodingValue && !matchAnyPref formats textNorm))
  let catalogs := (pyOr (prefs.pyGet "catalog_numbers") (.list [])).items
  let catalogsOk :=
    catalogs.isEmpty ||
      (let catValue := pyStr (pyOr (torrent.pyGet "remasterCatalogueNumber")
        (pyOr (group.pyGet "catalogueNumber") (.str "")))
       !(¬catValue.isEmpty && !containsBeq catalogs (.str catValue) &&
         !matchAnyPref (catalogs.map pyStr) textNorm))
  let labels := (pyOr (prefs.pyGet "labels") (.list [])).items
  let labelsOk :=
    labels.isEmpty ||
      (let labelValue := pyStr (pyOr (torrent.pyGet "remasterRecordLabel")
        (pyOr (group.pyGet "recordLabel") (.str "")))
       !(¬labelValue.isEmpty &&
         !(labels.map fun l => pyLower (pyStr l)).contains (pyLower labelValue) &&
         !matchAnyPref (labels.map pyStr) textNorm))
  let years := (pyOr (prefs.pyGet "year") (.list [])).items
  let yearsOk :=
    years.isEmpty ||
      (let yearValue := pyOr (torrent.pyGet "remasterYear") (group.pyGet "year")
       !(yearValue.truthy && !containsBeq years yearValue))
  editionsOk && mediaOk && formatsOk && catalogsOk && labelsOk && yearsOk

/-- The `filter_by_version` builtin: with an explicit version request,
restrict the candidate list to those matching the extracted release
preferences; always record the `filter.version` statistics, and replace the
candidate list only when at least one candidate matched. -/
def filterByVersion (data : Val) (_stepCfg : Val) (_context : Context) : Val :=
  let request := data.getD "request" (.dict [])
  let work := data.getD "work" (.dict [])
  let candidates := pyOr (work.getD "candidates" (.list [])) (.list [])
  if !candidates.truthy then data
  else if !(request.pyGet "explicit_version").truthy then data
  else
    let prefs := pyOr (request.pyGet "release_preferences") (.dict [])
    if !prefs.truthy then data
    else
      let matched := candidates.items.filter fun c =>
        match c with
        | .dict _ => candidateMatchesVersion prefs c
        | _ => false
      let sd := data.setdefault "filter" (.dict [])
      let stats := Val.dict
        [("requested", prefs), ("matched", .int matched.length),
         ("total", .int candidates.items.length)]
      let data := sd.1.set "filter" (sd.2.set "version" stats)
      if !matched.isEmpty then
        data.set "work" (work.set "candidates" (.list matched))
      else data

/-! ### `prowlarr_grab` and its helpers (`iwantit/steps/builtin.py`) -/

/-- One HTTP request as handed to the transport (the observable effect of a
step; retries repeat the same descriptor). -/
structure HttpCall where
  method : String
  url : String
  headers : Val
  params : Val
  jsonBody : Val
  formBody : Val
deriving Repr

/-- Outcome of running one step function: the document state afterwards
(mutations are visible to the caller even when an exception is raised), the
raised exception if any, and the transport calls made. -/
structure StepOutcome where
  data : Val
  exc : Option PyExc
  calls : List HttpCall
deriving Repr

/-- A step function `(document, step-config, context) -> document`. -/
def StepFn := Val → Val → Context → StepOutcome

/-- `_extract_category_ids`: every int coercible category id, including
subcategory ids. -/
def extractCategoryIds (candidate : Val) : List Int :=
  (candidate.pyGet "categories").items.flatMap fun cat =>
    match cat with
    | .dict _ =>
      (match pyInt (cat.pyGet "id") with
        | some n => [n]
        | none => []) ++
      ((pyOr (cat.pyGet "subCategories") (cat.pyGet "subcategories")).items.filterMap fun sub =>
        match sub with
        | .dict _ => pyInt (sub.pyGet "id")
        | _ => none)
    | other => match pyInt other with | some n => [n] | none => []

/-- `_match_category_prefix`: compare the thousands (or hundreds) prefix of a
category id. -/
def matchCategoryPrefix (catId prefix' : Int) (mode : String) : Bool :=
  let m := pyLower (if mode.isEmpty then "thousands" else mode)
  if m = "hundreds" then catId.fdiv 100 = prefix'
  else catId.fdiv 1000 = prefix'

/-- `_resolve_download_client_id`: first rule whose category list or prefix
list covers one of the candidate's category ids. -/
def resolveDownloadClientId (candidate : Val) (rules : Option (List Val)) : Option Int :=
  match rules with
  | none => none
  | some rs =>
    if rs.isEmpty then none
    else match candidate with
    | .dict _ =>
      let catIds := extractCategoryIds candidate
      if catIds.isEmpty then none
      else
        rs.findSome? fun rule =>
          match rule with
          | .dict _ =>
            let clientId := pyOr (rule.pyGet "client_id") (rule.pyGet "id")
            if clientId.isNull then none
            else
              let categories := (pyOr (rule.pyGet "categories") (.list [])).items
              let prefixes := (pyOr (rule.pyGet "category_prefixes") (.list [])).items
              let prefixMode := pyStr (pyOr (rule.pyGet "prefix_mode") (.str "thousands"))
              if categories.any (fun cat =>
                  match pyInt cat with
                  | some n => catIds.contains n
                  | none => false) then
                pyInt clientId
              else if prefixes.any (fun pre =>
                  match pyInt pre with
                  | some p => catIds.any fun cid => matchCategoryPrefix cid p prefixMode
                  | none => false) then
                pyInt clientId
              else none
          | _ => none
    | _ => none

/-- `_select_media_mapping`: pick the per-media-type (or default) entry of a
config mapping, treating empty lists as absent. -/
def selectMediaMapping (mapping : Val) (mediaType : Val) : Val :=
  match mapping with
  | .null => .null
  | .dict _ =>
    let value :=
      if mediaType.truthy &&
          (match mediaType with | .str s => mapping.hasKey s | _ => false) then
        match mediaType with
        | .str s => mapping.pyGet s
        | _ => .null
      else mapping.pyGet "default"
    match value with
    | .list xs => if xs.isEmpty then .null else value
    | _ => value
  | .list xs => if xs.isEmpty then .null else mapping
  | _ => mapping

/-- Drop every trailing `/` (Python `str.rstrip("/")`). -/
def rstripSlash (s : String) : String :=
  String.mk (s.data.reverse.dropWhile (· = '/')).reverse

/-- Drop every leading `/` (Python `str.lstrip("/")`). -/
def lstripSlash (s : String) : String :=
  String.mk (s.data.dropWhile (· = '/'))

/-- `urllib.parse.parse_qsl(query, keep_blank_values=True)`: split on `&`,
drop empty chunks, split each at the first `=` (missing value becomes
`""`).  Percent-decoding is not modelled (the pipeline's keys are plain). -/
def parseQsl (query : String) : List (String × String) :=
  (pySplit query "&").filterMap fun chunk =>
    if chunk.isEmpty then none
    else match splitOnFirst chunk "=" with
      | some (k, v) => some (k, v)
      | none => some (chunk, "")

/-- `_redact_apikey`: drop `apikey`/`api_key`/`api-key` query parameters,
returning the URL unchanged when none are present.  `urlparse` is modelled by
splitting at the first `#` (fragment) and then the first `?` (query);
`urlencode`'s percent-encoding is not modelled (the redacted URLs only carry
plain parameters here). -/
def redactApikey (url : String) : String :=
  if url.isEmpty then url
  else
    let (beforeFrag, fragPart) :=
      match splitOnFirst url "#" with
      | some (b, f) => (b, "#" ++ f)
      | none => (url, "")
    match splitOnFirst beforeFrag "?" with
    | none => url
    | some (beforeQ, query) =>
      if query.isEmpty then url
      else
        let params := parseQsl query
        let apikeyNames : List String := ["apikey", "api_key", "api-key"]
        let filtered := params.filter fun kv => !(apikeyNames.contains (pyLower kv.1))
        if filtered.length = params.length then url
        else
          let newQuery := String.intercalate "&"
            (filtered.map fun kv => kv.1 ++ "=" ++ kv.2)
          if newQuery.isEmpty then beforeQ ++ fragPart
          else beforeQ ++ "?" ++ newQuery ++ fragPart

/-- `_redact_headers`: mask any header whose name mentions authorization, api
or token. -/
def redactHeaders (headers : Val) : Val :=
  match headers with
  | .dict fs =>
    .dict (fs.map fun kv =>
      let lowered := pyLower kv.1
      if strContains lowered "authorization" || strContains lowered "api" ||
          strContains lowered "token" then (kv.1, .str "***")
      else kv)
  | _ => headers

/-- The retryable status codes passed through to `request_with_retry`:
Python `in` compares ints to list entries with `==`. -/
def statusListOf (v : Val) : Option (List Int) :=
  match v with
  | .null => none
  | _ => some (v.items.filterMap fun e =>
      match e with
      | .int n => some n
      | .num q => if q.den = 1 then some q.num else none
      | _ => none)

/-- The json-body cleaning loop of `prowlarr_grab`: drop `None`/empty values,
collect keys whose value still looks like an unresolved `\x7b…\x7d` template. -/
def cleanJsonBody (fields : List (String × Val)) :
    List (String × Val) × List String :=
  fields.foldl
    (fun acc kv =>
      if kv.2.isNull || Val.beq kv.2 (.str "") then acc
      else
        match kv.2 with
        | .str s =>
          if (pyStrip s).startsWith "\x7b" && (pyStrip s).endsWith "\x7d" then
            (acc.1, acc.2 ++ [kv.1])
          else (acc.1 ++ [kv], acc.2)
        | _ => (acc.1 ++ [kv], acc.2))
    ([], [])

/-- The dispatch tail of `prowlarr_grab` (from the `if context.dry_run`
check): record the `dry_run` preview, or send the request via
`request_with_retry` and record the `ok`/error outcome. -/
def prowlarrGrabDispatch (transport : ℕ → TransportResult) (jitterDraw : ℕ → ℚ)
    (context : Context) (data work4 stepCfg : Val) (urlStr method : String)
    (headers params jsonBody form : Val) : StepOutcome :=
  if context.dryRun then
    let sd := data.setdefault "dispatch" (.dict [])
    let d1 := sd.1.set "dispatch" (sd.2.set "prowlarr" (.dict
      [("status", .str "dry_run"),
       ("request", .dict
         [("method", .str method), ("url", .str (redactApikey urlStr)),
          ("headers", redactHeaders headers), ("params", params),
          ("json", jsonBody), ("form", form)])]))
    ⟨d1.set "work" work4, none, []⟩
  else
    let retries := ((pyInt (pyOr (stepCfg.pyGet "retries") (.int 0))).getD 0).toNat
    let backoff := (pyFloat (pyOr (stepCfg.pyGet "retry_backoff_seconds")
      (.num (1/2)))).getD (1/2)
    let maxBackoff := (pyFloat (pyOr (stepCfg.pyGet "max_backoff_seconds")
      (.num 8))).getD 8
    let retryStatuses := statusListOf (stepCfg.pyGet "retry_statuses")
    let res := requestWithRetry transport retries backoff maxBackoff (1/10)
      jitterDraw retryStatuses
    let call : HttpCall :=
      ⟨method, urlStr, headers, params, jsonBody, form⟩
    let calls := List.replicate res.2.1 call
    match res.1 with
    | .error e => ⟨data, some e, calls⟩
    | .ok r =>
      if r.status ≥ 400 then
        ⟨data, some (.httpError ("HTTP error " ++ toString r.status) r.status), calls⟩
      else
        let payload := r.body
        let sd := data.setdefault "dispatch" (.dict [])
        let d1 := sd.1.set "dispatch" (sd.2.set "prowlarr" (.dict
          [("status", .str "ok"), ("response", payload),
           ("url", .str (redactApikey urlStr))]))
        ⟨d1.set "work" work4, none, calls⟩

/-- The request-rendering section of `prowlarr_grab` (from the
`render_template` call): resolve the url, methods, headers and json body,
raising on unresolved json template values. -/
def prowlarrGrabRender (transport : ℕ → TransportResult) (jitterDraw : ℕ → ℚ)
    (context : Context) (data work4 stepCfg grabCfg prowCfg requestCfg : Val) :
    StepOutcome :=
  match renderTemplate requestCfg data context.config with
  | .error _ =>
    ⟨data, some (.runtimeError "ValueError" "Single brace encountered in format string"), []⟩
  | .ok rendered =>
    let url0 := rendered.pyGet "url"
    let url1 :=
      if !url0.truthy then
        let baseUrl := prowCfg.pyGet "url"
        let path := pyOr (rendered.pyGet "path") (grabCfg.pyGet "path")
        if baseUrl.truthy && path.truthy then
          Val.str (rstripSlash (pyStr baseUrl) ++ "/" ++ lstripSlash (pyStr path))
        else url0
      else url0
    if !url1.truthy then ⟨data, none, []⟩
    else
      let urlStr := pyStr url1
      let method := (pyStr (pyOr (rendered.pyGet "method") (.str "POST"))).toUpper
      let headers := rendered.pyGet "headers"
      let params := rendered.pyGet "params"
      let jsonBody0 := rendered.pyGet "json"
      let form := rendered.pyGet "form"
      let jsonStep : Except PyExc Val :=
        match jsonBody0 with
        | .dict fs =>
          let cu := cleanJsonBody fs
          if !cu.2.isEmpty then
            .error (.runtimeError "RuntimeError"
              ("prowlarr grab missing template values for: " ++
                String.intercalate ", " cu.2))
          else .ok (.dict cu.1)
        | v => .ok v
      match jsonStep with
      | .error e => ⟨data, some e, []⟩
      | .ok jsonBody =>
        prowlarrGrabDispatch transport jitterDraw context data work4 stepCfg urlStr method
          headers params jsonBody form

/-- The download-client/selected-field resolution section of `prowlarr_grab`
(everything before the grab request is considered): normalise `work.selected`,
copy `guid`/`indexer_id` from the raw payload, resolve the download client id,
and write the mutated `work` back into the document when it is aliased there.
Returns the updated document and `work`. -/
def prowlarrGrabResolve (data : Val) (config : Val) : Val × Val :=
  let work0 := data.getD "work" (.dict [])
  let workAliased := data.hasKey "work"
  let selected0 := work0.pyGet "selected"
  let sw :=
    match selected0 with
    | .dict _ => (selected0, work0)
    | other =>
      let s := Val.dict [("title", .str (pyStr other))]
      (s, work0.set "selected" s)
  let selected1 := sw.1
  let work1 := sw.2
  let raw := selected1.pyGet "_raw"
  let selected2 :=
    match raw with
    | .dict _ =>
      let s := if !(selected1.pyGet "guid").truthy && (raw.pyGet "guid").truthy then
          selected1.set "guid" (raw.pyGet "guid")
        else selected1
      if !(s.pyGet "indexer_id").truthy then
        let idx := pyOr (raw.pyGet "indexerId") (raw.pyGet "indexer_id")
        if !idx.isNull then s.set "indexer_id" idx else s
      else s
    | _ => selected1
  let work2 := work1.set "selected" selected2
  let mediaType := pyOr (work2.pyGet "media_type")
    ((data.getD "request" (.dict [])).pyGet "media_type")
  let prowCfg := config.getD "prowlarr" (.dict [])
  let downloadClients := prowCfg.getD "download_clients" (.dict [])
  let work3 :=
    if mediaType.truthy && !(work2.pyGet "download_client_id").truthy then
      work2.set "download_client_id"
        (match mediaType with
          | .str s => downloadClients.pyGet s
          | _ => .null)
    else work2
  let work4 :=
    if !(work3.pyGet "download_client_id").truthy then
      let rulesCfg := prowCfg.pyGet "download_client_rules"
      let rules :=
        match rulesCfg with
        | .dict _ => selectMediaMapping rulesCfg mediaType
        | _ => rulesCfg
      let resolved := resolveDownloadClientId selected2
        (match rules with | .list xs => some xs | _ => none)
      match resolved with
      | some n => work3.set "download_client_id" (.int n)
      | none => work3
    else work3
  (if workAliased then data.set "work" work4 else data, work4)

/-- `prowlarr_grab`: resolve the download client, render the grab request
from config templates, and either record a `dry_run` dispatch preview
(`--dry-run`) or send the request via `request_with_retry` and record the
`ok` dispatch.  Mutations of `work` through the shared alias are written back
into `data` whenever `data` holds a `work` key, as Python's aliasing makes
them visible there. -/
def prowlarrGrab (transport : ℕ → TransportResult) (jitterDraw : ℕ → ℚ)
    (data : Val) (stepCfg : Val) (context : Context) : StepOutcome :=
  let work0 := data.getD "work" (.dict [])
  let selected0 := work0.pyGet "selected"
  if !selected0.truthy then ⟨data, none, []⟩
  else
    let resolved := prowlarrGrabResolve data context.config
    let prowCfg := context.config.getD "prowlarr" (.dict [])
    let grabCfg := prowCfg.getD "grab" (.dict [])
    let requestCfg := pyOr (stepCfg.pyGet "request") (grabCfg.getD "request" (.dict []))
    if !requestCfg.truthy then ⟨resolved.1, none, []⟩
    else
      prowlarrGrabRender transport jitterDraw context resolved.1 resolved.2 stepCfg grabCfg
        prowCfg requestCfg

/-! ### Step metadata (`iwantit/step_metadata.py`) -/

/-- The fields of a `STEP_METADATA` entry that `run_step` consumes. -/
structure StepMeta where
  sideEffect : Bool
  dispatchKey : Option String
  dispatchKeyFromCfg : Option String
deriving Repr, DecidableEq

/-- `STEP_METADATA`, restricted to the fields `run_step` reads. -/
def stepMetadataTable : List (String × StepMeta) :=
  [("ocr", ⟨false, none, none⟩),
   ("fetch_url", ⟨false, none, none⟩),
   ("identify", ⟨false, none, none⟩),
   ("identify_web_search", ⟨false, none, none⟩),
   ("extract_release_preferences", ⟨false, none, none⟩),
   ("determine_media_type", ⟨false, none, none⟩),
   ("resolve_track_release", ⟨false, none, none⟩),
   ("prowlarr_search", ⟨false, none, none⟩),
   ("filter_candidates", ⟨false, none, none⟩),
   ("filter_match", ⟨false, none, none⟩),
   ("dedupe_candidates", ⟨false, none, none⟩),
   ("redacted_enrich", ⟨false, none, none⟩),
   ("redacted_comments", ⟨false, none, none⟩),
   ("apply_recommendations", ⟨false, none, none⟩),
   ("filter_by_version", ⟨false, none, none⟩),
   ("book_decide", ⟨false, none, none⟩),
   ("rank_releases", ⟨false, none, none⟩),
   ("decide", ⟨false, none, none⟩),
   ("prowlarr_grab", ⟨true, some "prowlarr", none⟩),
   ("http_dispatch", ⟨true, none, some "_step"⟩),
   ("arr_dispatch", ⟨true, none, some "arr"⟩),
   ("store_tags", ⟨false, some "tags", none⟩)]

/-- `get_step_metadata`: table lookup with `\x7b\x7d` (all-absent) default. -/
def getStepMetadata (stepName : String) : StepMeta :=
  (stepMetadataTable.lookup stepName).getD ⟨false, none, none⟩

/-! ### Pipeline runner (`iwantit/pipeline.py`)

`time.time()`/`time.monotonic()` are modelled as the constant 0 (the log
timestamps and durations carry no claim content), the log-file side channel
of `_append_log` is not modelled (its `OSError`s are swallowed and it never
changes the document), and the `progress` observer callbacks are omitted. -/

/-- `_append_log`: append a log entry to `data["logs"]`. -/
def appendLog (data : Val) (entry : Val) : Val :=
  let sd := data.setdefault "logs" (.list [])
  sd.1.set "logs" (sd.2.push entry)

/-- Modelled from the spec: `classify_exception` is imported from
`iwantit.util` but absent from the provided sources.  Following §7's error
taxonomy, it maps an exception to a machine-readable error kind and a
remediation hint: timeouts to `Timeout`, transport failures to
`NetworkError`, typed step errors to their own code, and anything else to
`GenericStepError`. -/
def classifyException : PyExc → String × String
  | .stepError _ code hint => (code, hint)
  | .reqTimeout _ => ("Timeout", "Increase the timeout or reduce load on the remote service.")
  | .reqConnectionError _ => ("NetworkError", "Check connectivity to the remote service.")
  | .httpError _ _ => ("NetworkError", "Check the remote service response.")
  | .runtimeError _ _ => ("GenericStepError", "Check the step configuration and inputs.")

/-- Modelled from the spec: `redact_payload` is imported from `iwantit.util`
but absent from the provided sources.  The spec treats error messages as
opaque redacted text; modelled as the identity on the message string. -/
def redactPayload (msg : String) : String := msg

/-- `_safe_error_message(exc)`. -/
def safeErrorMessage (e : PyExc) : String := redactPayload e.message

/-- The effective side-effect flag `run_step` computes: the config override
when present, else the metadata flag of the resolved builtin name. -/
def effectiveSideEffect (stepName : String) (stepCfg : Val) : Bool :=
  if stepCfg.hasKey "side_effect" then (stepCfg.pyGet "side_effect").truthy
  else (match pyOr (stepCfg.getD "builtin" (.str stepName)) (.str stepName) with
    | .str s => getStepMetadata s
    | _ => (⟨false, none, none⟩ : StepMeta)).sideEffect

/-- The dispatch key `run_step`'s skip branch records under: the metadata
key, else the config value named by `dispatch_key_from_cfg`, else the step
name. -/
def dispatchKeyFor (stepName : String) (stepCfg : Val) : String :=
  let meta := match pyOr (stepCfg.getD "builtin" (.str stepName)) (.str stepName) with
    | .str s => getStepMetadata s
    | _ => (⟨false, none, none⟩ : StepMeta)
  let dk0 : Val := match meta.dispatchKey with | some s => .str s | none => .null
  let dk1 := if !dk0.truthy then
      (match meta.dispatchKeyFromCfg with | some kc => stepCfg.pyGet kc | none => .null)
    else dk0
  pyStr (if !dk1.truthy then Val.str stepName else dk1)

/-- `run_step`: metadata lookup, side-effect gating, dry-run skip, external
dispatch (the collaborator `runExt`), and builtin dispatch with the merged
step configuration. -/
def runStep (builtins : List (String × StepFn)) (runExt : Val → Val → StepOutcome)
    (stepName : String) (stepCfg : Val) (data : Val) (context : Context) : StepOutcome :=
  let runId := data.pyGet "run_id"
  let data := appendLog data (.dict
    [("run_id", runId), ("step", .str stepName), ("phase", .str "start"), ("ts", .num 0)])
  if effectiveSideEffect stepName stepCfg && !context.confirm && !context.dryRun then
    let key := dispatchKeyFor stepName stepCfg
    let sd := data.setdefault "dispatch" (.dict [])
    let data := sd.1.set "dispatch" (sd.2.set key (.dict
      [("status", .str "skipped"), ("reason", .str "needs_confirm")]))
    let sw := data.setdefault "warnings" (.list [])
    let data := sw.1.set "warnings" (sw.2.push (.dict
      [("type", .str "needs_confirm"), ("step", .str stepName),
       ("message", .str "Side-effect step skipped; rerun with --confirm.")]))
    let data := appendLog data (.dict
      [("run_id", runId), ("step", .str stepName), ("phase", .str "end"),
       ("status", .str "skipped"), ("duration_s", .num 0), ("ts", .num 0)])
    ⟨data, none, []⟩
  else if context.dryRun && (stepCfg.pyGet "skip_on_dry_run").truthy then
    let sd := data.setdefault "dry_run" (.dict [])
    let data := sd.1.set "dry_run" (sd.2.set stepName (.dict
      [("skipped", .bool true), ("reason", .str "dry_run")]))
    let data := appendLog data (.dict
      [("run_id", runId), ("step", .str stepName), ("phase", .str "end"),
       ("status", .str "dry_run"), ("duration_s", .num 0), ("ts", .num 0)])
    ⟨data, none, []⟩
  else if stepCfg.hasKey "command" then
    -- `run_external` and its timeout resolution are an external collaborator;
    -- the end log of this branch targets the pre-call object, which external
    -- results do not alias, so it is dropped with them.
    runExt data stepCfg
  else
    let builtinName := stepCfg.getD "builtin" (.str stepName)
    let builtin :=
      match builtinName with
      | .str s => builtins.lookup s
      | _ => none
    match builtin with
    | none =>
      ⟨data, some (.stepError ("unknown builtin step: " ++ pyStr builtinName) "STEP_ERROR" ""), []⟩
    | some f =>
      let timeouts := pyOr (context.config.getD "timeouts" (.dict [])) (.dict [])
      let merged :=
        if !stepCfg.hasKey "timeout" && timeouts.hasKey stepName then
          stepCfg.set "timeout" (timeouts.pyGet stepName)
        else stepCfg
      let retriesCfg := pyOr (context.config.getD "retries" (.dict [])) (.dict [])
      let merged := ["retries", "retry_backoff_seconds", "max_backoff_seconds",
          "retry_statuses"].foldl
        (fun (m : Val) key =>
          if !m.hasKey key && retriesCfg.hasKey key then m.set key (retriesCfg.pyGet key)
          else m)
        merged
      let merged := (merged.setdefault "_step" (.str stepName)).1
      let out := f data merged context
      match out.exc with
      | some e => ⟨out.data, some e, out.calls⟩
      | none =>
        -- the source appends the end log to the pre-call object, which every
        -- builtin returns (mutated in place); modelled on the returned value.
        let d := appendLog out.data (.dict
          [("run_id", runId), ("step", .str stepName), ("phase", .str "end"),
           ("status", .str "ok"), ("duration_s", .num 0), ("ts", .num 0)])
        ⟨d, none, out.calls⟩

/-- The error capture shared by both `run_workflow` loops: record
`error.message/step/type/code/hint`, append the error log entry, and force
`decision.status = "error"`. -/
def recordStepError (stepName : String) (e : PyExc) (d : Val) : Val :=
  let ch := classifyException e
  let code := match e with | .stepError _ c _ => c | _ => ch.1
  let hint := match e with | .stepError _ _ h => h | _ => ch.2
  let msg := safeErrorMessage e
  let sd := d.setdefault "error" (.dict [])
  let err := ((((sd.2.set "message" (.str msg)).set "step" (.str stepName)).set
    "type" (.str e.clsName)).set "code" (.str code)).set "hint" (.str hint)
  let d := sd.1.set "error" err
  let d := appendLog d (.dict
    [("run_id", d.pyGet "run_id"), ("step", .str stepName), ("phase", .str "end"),
     ("status", .str "error"), ("ts", .num 0),
     ("error", .dict [("code", .str code), ("message", .str msg)])])
  let sdec := d.setdefault "decision" (.dict [])
  sdec.1.set "decision" (sdec.2.set "status" (.str "error"))

/-- `select_workflow`: by explicit name, else by matching
`request.media_type` against each workflow's match criteria. -/
def selectWorkflow (config : Val) (data : Val) (name : Option String) :
    Except PyExc Val :=
  let workflows := (config.getD "workflows" (.list [])).items
  match name with
  | some n =>
    match workflows.find? (fun wf => Val.beq (wf.pyGet "name") (.str n)) with
    | some wf => .ok wf
    | none => .error (.stepError ("workflow not found: " ++ n) "STEP_ERROR" "")
  | none =>
    let mediaType := (data.getD "request" (.dict [])).pyGet "media_type"
    match
      (if mediaType.truthy then
        workflows.find? fun wf =>
          Val.beq ((wf.getD "match" (.dict [])).pyGet "media_type") mediaType
      else none) with
    | some wf => .ok wf
    | none =>
      .error (.stepError "media type not determined; rerun with --media-type or --workflow"
        "STEP_ERROR" "")

/-- Exit of one runner loop: an immediate `return data`, or falling through
to the code after the loop with the slicing flags. -/
inductive LoopExit where
  | ret (d : Val)
  | fell (d : Val) (started sawStart : Bool)

/-- The pre-steps loop of `run_workflow`: start-step slicing, error capture
(which returns at once), and an `end_step` match that returns without
writing a report.  No decision-status check happens here. -/
def preLoop (builtins : List (String × StepFn)) (runExt : Val → Val → StepOutcome)
    (config : Val) (context : Context) (startStep endStep : Option String) :
    List String → Val → Bool → Bool → LoopExit
  | [], data, started, sawStart => .fell data started sawStart
  | name :: rest, data, started, sawStart =>
    let (started, sawStart) :=
      if !started && startStep = some name then (true, true) else (started, sawStart)
    if !started then
      preLoop builtins runExt config context startStep endStep rest data started sawStart
    else
      let stepCfg := (config.getD "steps" (.dict [])).getD name
        (.dict [("builtin", .str name)])
      let out := runStep builtins runExt name stepCfg data context
      match out.exc with
      | some e => .ret (recordStepError name e out.data)
      | none =>
        if endStep = some name then .ret out.data
        else preLoop builtins runExt config context startStep endStep rest out.data
          started sawStart

/-- The workflow-steps loop of `run_workflow`: as the pre-steps loop, plus
the `needs_choice` early break and an `end_step` break, both of which fall
through to the report epilogue. -/
def wfLoop (builtins : List (String × StepFn)) (runExt : Val → Val → StepOutcome)
    (config : Val) (context : Context) (startStep endStep : Option String) :
    List String → Val → Bool → Bool → LoopExit
  | [], data, started, sawStart => .fell data started sawStart
  | name :: rest, data, started, sawStart =>
    let (started, sawStart) :=
      if !started && startStep = some name then (true, true) else (started, sawStart)
    if !started then
      wfLoop builtins runExt config context startStep endStep rest data started sawStart
    else
      let stepCfg := (config.getD "steps" (.dict [])).getD name
        (.dict [("builtin", .str name)])
      let out := runStep builtins runExt name stepCfg data context
      match out.exc with
      | some e => .ret (recordStepError name e out.data)
      | none =>
        let decision := out.data.getD "decision" (.dict [])
        if Val.beq (decision.pyGet "status") (.str "needs_choice") then
          .fell out.data started sawStart
        else if endStep = some name then .fell out.data started sawStart
        else wfLoop builtins runExt config context startStep endStep rest out.data
          started sawStart

/-- `run_workflow`: run-id stamping, pre-steps, workflow selection, workflow
steps, the missing-start-step error, and the report epilogue.  `runId`
stands for `uuid.uuid4().hex` and `reportPath` for the `write_report`
collaborator. -/
def runWorkflow (builtins : List (String × StepFn)) (runExt : Val → Val → StepOutcome)
    (reportPath : Val → Option String) (runId : String) (config : Val) (data : Val)
    (workflowName : Option String) (choiceIndex : Option Int)
    (startStep endStep : Option String) (dryRun confirm : Bool) : Val :=
  let context : Context := ⟨config, "", choiceIndex, dryRun, confirm⟩
  let data :=
    if !data.hasKey "run_id" then
      let d := data.set "run_id" (.str runId)
      let sm := d.setdefault "_meta" (.dict [])
      sm.1.set "_meta" (sm.2.set "run_id" (.str runId))
    else data
  let started := startStep.isNone
  let preNames := (pyOr (config.getD "pre_steps" (.list [])) (.list [])).items.filterMap
    fun v => match v with | .str s => some s | _ => none
  match preLoop builtins runExt config context startStep endStep preNames data started false with
  | .ret d => d
  | .fell d started sawStart =>
    match selectWorkflow config d workflowName with
    | .error e =>
      let ch := classifyException e
      let sd := d.setdefault "error" (.dict [])
      let err := ((((sd.2.set "message" (.str (safeErrorMessage e))).set
        "step" (.str "select_workflow")).set "type" (.str e.clsName)).set
        "code" (.str ch.1)).set "hint" (.str ch.2)
      let d := sd.1.set "error" err
      let sdec := d.setdefault "decision" (.dict [])
      sdec.1.set "decision" (sdec.2.set "status" (.str "error"))
    | .ok wf =>
      let wfNames := (wf.getD "steps" (.list [])).items.filterMap
        fun v => match v with | .str s => some s | _ => none
      match wfLoop builtins runExt config context startStep endStep wfNames d started sawStart with
      | .ret d => d
      | .fell d _ sawStart =>
        let d :=
          match startStep with
          | some s =>
            if !sawStart then
              let sd := d.setdefault "error" (.dict [])
              let err := ((sd.2.set "message" (.str ("start step not found: " ++ s))).set
                "step" (.str s)).set "type" (.str "StepNotFound")
              let d := sd.1.set "error" err
              let sdec := d.setdefault "decision" (.dict [])
              sdec.1.set "decision" (sdec.2.set "status" (.str "error"))
            else d
          | none => d
        match reportPath d with
        | some p =>
          let sr := d.setdefault "report" (.dict [])
          sr.1.set "report" (sr.2.set "path" (.str p))
        | none => d

/-! ## Verification-side predicates used by the theorem statements -/

/-- The first component of a dotted path. -/
def pathRoot (p : String) : String := ((pySplit p ".").headD "")

/-- A quality-rule set that never reads the engine-attached `rank` and
`derived` annotations while scoring (sort specs may read them: they are
recomputed before sorting in every application). -/
def rulesAnnotationFree (rules : QualityRules) : Bool :=
  rules.titleFields.all (fun f => pathRoot f ≠ "rank" && pathRoot f ≠ "derived") &&
    rules.numericFields.all (fun e => pathRoot e.path ≠ "rank" && pathRoot e.path ≠ "derived")

/-- Every placeholder of a parsed template is a plain undotted name that is
not a context key, with no conversion and an empty format spec. -/
def plainUnknownPlaceholders (ctx : List (String × Val)) (segs : List FmtSeg) : Bool :=
  segs.all fun seg =>
    match seg.field with
    | none => true
    | some f =>
      match pySplit f "." with
      | [root] =>
        !fieldRootPositional root && (dget ctx root).isNone && root == f &&
          seg.spec == some "" && seg.conv == none
      | _ => false

/-- The text the spec expects interpolation to produce: literals unchanged
and every placeholder kept as its literal `\x7bpath\x7d` form. -/
def keepPlaceholdersText : List FmtSeg → String
  | [] => ""
  | seg :: rest =>
    seg.literal ++
      (match seg.field with
        | some f => "\x7b" ++ f ++ "\x7d"
        | none => "") ++
      keepPlaceholdersText rest

/-- A transport attempt that the retry loop treats as a failure: a transport
exception, or a response whose status is in the retryable set. -/
def failedAttempt (t : TransportResult) (retryStatuses : List Int) : Prop :=
  match t with
  | .exc _ => True
  | .resp r => r.status ∈ retryStatuses

/-- A transport that times out on every attempt (Scenario E). -/
def timeoutTransport : ℕ → TransportResult := fun _ => .exc (.reqTimeout "request timed out")

/-- The surfaced outcome of the final transport attempt. -/
def surfaced (t : TransportResult) : Except PyExc HttpResponse :=
  match t with
  | .exc e => .error e
  | .resp r => .ok r

/-- The skip branch of `run_step` written out as a standalone outcome (the
exact term the gate produces): start log, `skipped`/`needs_confirm` dispatch
record under the step's dispatch key, a `needs_confirm` warning, and the
`skipped` end log — no exception and no transport call. -/
def skipOutcome (stepName : String) (stepCfg : Val) (data : Val) : StepOutcome :=
  let runId := data.pyGet "run_id"
  let data := appendLog data (.dict
    [("run_id", runId), ("step", .str stepName), ("phase", .str "start"), ("ts", .num 0)])
  let key := dispatchKeyFor stepName stepCfg
  let sd := data.setdefault "dispatch" (.dict [])
  let data := sd.1.set "dispatch" (sd.2.set key (.dict
    [("status", .str "skipped"), ("reason", .str "needs_confirm")]))
  let sw := data.setdefault "warnings" (.list [])
  let data := sw.1.set "warnings" (sw.2.push (.dict
    [("type", .str "needs_confirm"), ("step", .str stepName),
     ("message", .str "Side-effect step skipped; rerun with --confirm.")]))
  let data := appendLog data (.dict
    [("run_id", runId), ("step", .str stepName), ("phase", .str "end"),
     ("status", .str "skipped"), ("duration_s", .num 0), ("ts", .num 0)])
  ⟨data, none, []⟩

/-! ## Theorems

Shared helper lemmas first, then one theorem (plus witness or
counterexample) per claim. -/

theorem dget_dset_self (fs : List (String × Val)) (k : String) (v : Val) :
    dget (dset fs k v) k = some v := by
  induction fs with
  | nil => simp [dget, dset]
  | cons hd tl ih =>
    by_cases h : hd.1 = k
    · simp [dget, dset, h]
    · simp [dget, dset, h, ih]

theorem dget_dset_ne (fs : List (String × Val)) (k k' : String) (v : Val) (h : k' ≠ k) :
    dget (dset fs k v) k' = dget fs k' := by
  have hne : k ≠ k' := fun hh => h hh.symm
  induction fs with
  | nil => simp [dget, dset, hne]
  | cons hd tl ih =>
    by_cases hk : hd.1 = k
    · simp only [dset, hk, if_pos rfl, dget]
      rw [if_neg (hk ▸ hne), if_neg (hk ▸ hne)]
    · simp only [dset, if_neg hk, dget]
      by_cases hk' : hd.1 = k'
      · simp [hk']
      · simp [hk', ih]

theorem dset_dset_same (fs : List (String × Val)) (k : String) (v w : Val) :
    dset (dset fs k v) k w = dset fs k w := by
  induction fs with
  | nil => simp [dset]
  | cons hd tl ih =>
    by_cases h : hd.1 = k
    · simp [dset, h]
    · simp [dset, h, ih]

theorem dset_of_dget_eq (fs : List (String × Val)) (k : String) (v : Val)
    (h : dget fs k = some v) : dset fs k v = fs := by
  induction fs with
  | nil => simp [dget] at h
  | cons hd tl ih =>
    obtain ⟨k0, v0⟩ := hd
    by_cases hk : k0 = k
    · simp [dget, hk] at h
      simp [dset, hk, h]
    · simp only [dget, hk, if_neg hk] at h
      simp [dset, hk, ih h]

theorem valSet_pyGet_ne (v : Val) (k k' : String) (x : Val) (h : k' ≠ k) :
    (v.set k x).pyGet k' = v.pyGet k' := by
  cases v <;> simp [Val.set, Val.pyGet, Val.getD, dget_dset_ne _ _ _ _ h]

theorem valSet_getD_ne (v : Val) (k k' : String) (x d : Val) (h : k' ≠ k) :
    (v.set k x).getD k' d = v.getD k' d := by
  cases v <;> simp [Val.set, Val.getD, dget_dset_ne _ _ _ _ h]

/-- Claim C7: the match score is `|C ∩ Q| / max(|C|, 1)` for non-empty token
sets, `0` whenever either set is empty, and the function is not symmetric in
its arguments. -/
theorem C7_match_score_spec :
    (∀ c q : Finset String, c.Nonempty → q.Nonempty →
      matchScore c q = ((c ∩ q).card : ℚ) / (max c.card 1 : ℚ)) ∧
    (∀ q : Finset String, matchScore ∅ q = 0) ∧
    (∀ c : Finset String, matchScore c ∅ = 0) ∧
    matchScore {"ab", "cd"} {"ab"} ≠ matchScore {"ab"} {"ab", "cd"} := by
  refine ⟨?_, ?_, ?_, ?_⟩
  · intro c q hc hq
    rw [matchScore, if_neg]
    push_neg
    exact ⟨Finset.nonempty_iff_ne_empty.mp hc, Finset.nonempty_iff_ne_empty.mp hq⟩
  · intro q; simp [matchScore]
  · intro c; simp [matchScore]
  · have h1 : (({"ab", "cd"} : Finset String) ∩ {"ab"}).card = 1 := by decide
    have h2 : ({"ab", "cd"} : Finset String).card = 2 := by decide
    have h3 : (({"ab"} : Finset String) ∩ {"ab", "cd"}).card = 1 := by decide
    have h4 : ({"ab"} : Finset String).card = 1 := by decide
    rw [matchScore, matchScore, if_neg (by decide), if_neg (by decide), h1, h2, h3, h4]
    norm_num

/-- Witness for C7 at a concrete input: `matchScore \x7bab, cd\x7d \x7bab\x7d = 1/2`. -/
theorem C7_match_score_spec_witness :
    matchScore {"ab", "cd"} {"ab"} = 1 / 2 := by
  have h := C7_match_score_spec.1 {"ab", "cd"} {"ab"}
    ⟨"ab", by decide⟩ ⟨"ab", by decide⟩
  have h1 : (({"ab", "cd"} : Finset String) ∩ {"ab"}).card = 1 := by decide
  have h2 : ({"ab", "cd"} : Finset String).card = 2 := by decide
  rw [h, h1, h2]
  norm_num

theorem pyGet_list_getD (v : Val) (k : String) (d : Val) (l : List Val)
    (h : v.pyGet k = .list l) : v.getD k d = .list l := by
  cases v with
  | dict fs =>
    simp only [Val.pyGet, Val.getD] at h ⊢
    cases hd : dget fs k with
    | none => rw [hd] at h; exact absurd h (by simp)
    | some x =>
      rw [hd] at h
      simpa using h
  | null => exact absurd h (by simp [Val.pyGet, Val.getD])
  | bool b => exact absurd h (by simp [Val.pyGet, Val.getD])
  | int n => exact absurd h (by simp [Val.pyGet, Val.getD])
  | num q => exact absurd h (by simp [Val.pyGet, Val.getD])
  | str s => exact absurd h (by simp [Val.pyGet, Val.getD])
  | list xs => exact absurd h (by simp [Val.pyGet, Val.getD])

/-- Claim C4 counterexample: with no pre-existing selection, two candidates
and explicit choice index 1 (alongside an explicit version request), `decide`
returns `\x7bstatus: selected, selected, index\x7d` with NO `reason` field — the
spec's `reason 'explicit_choice'` is never emitted. -/
theorem C4_explicit_choice_counterexample :
    (decideStep
        (.dict [("request", .dict [("explicit_version", .bool true)]),
                ("work", .dict [("candidates",
                  .list [.dict [("title", .str "A")], .dict [("title", .str "B")]])])])
        (.dict []) ⟨.dict [], "", some 1, false, false⟩).pyGet "decision" =
      .dict [("status", .str "selected"), ("selected", .dict [("title", .str "B")]),
        ("index", .int 1)] ∧
    ((decideStep
        (.dict [("request", .dict [("explicit_version", .bool true)]),
                ("work", .dict [("candidates",
                  .list [.dict [("title", .str "A")], .dict [("title", .str "B")]])])])
        (.dict []) ⟨.dict [], "", some 1, false, false⟩).pyGet "decision").hasKey
      "reason" = false :=
  ⟨rfl, rfl⟩

/-- Claim C4 (amended): with no pre-existing selection, a non-empty candidate
list and an in-range explicit choice index `i`, `decide` selects candidate
`i` with status `selected` and index `i` (and no `reason` field), regardless
of the step configuration — so the explicit choice takes priority over the
explicit-version, auto-format and count-based selection modes. -/
theorem C4_explicit_choice_amended
    (data stepCfg config : Val) (statePath : String) (dryRun confirm : Bool)
    (i : Int) (l : List Val)
    (hsel : ((data.getD "work" (.dict [])).pyGet "selected").isNull = true)
    (hcand : (data.getD "work" (.dict [])).pyGet "candidates" = .list l)
    (hne : l ≠ []) (h0 : 0 ≤ i) (hlen : i < (l.length : Int)) :
    decideStep data stepCfg ⟨config, statePath, some i, dryRun, confirm⟩ =
      ((data.set "work"
          ((data.getD "work" (.dict [])).set "selected" (l.getD i.toNat .null))).set
        "decision" (.dict [("status", .str "selected"),
          ("selected", l.getD i.toNat .null), ("index", .int i)])) ∧
    ((decideStep data stepCfg ⟨config, statePath, some i, dryRun, confirm⟩).pyGet
        "decision").hasKey "reason" = false := by
  have hgetD : (data.getD "work" (.dict [])).getD "candidates" (.list []) = .list l :=
    pyGet_list_getD _ _ _ _ hcand
  have htruthy : (Val.list l).truthy = true := by
    simp [Val.truthy, List.isEmpty_iff, hne]
  have hor : pyOr ((data.getD "work" (.dict [])).getD "candidates" (.list [])) (.list []) =
      .list l := by
    rw [hgetD, pyOr, if_pos htruthy]
  have hcondition : ((Val.list l).truthy && decide (0 ≤ i) &&
      decide (i < (l.length : Int))) = true := by
    simp [htruthy, h0, hlen]
  have heq : decideStep data stepCfg ⟨config, statePath, some i, dryRun, confirm⟩ =
      ((data.set "work"
          ((data.getD "work" (.dict [])).set "selected" (l.getD i.toNat .null))).set
        "decision" (.dict [("status", .str "selected"),
          ("selected", l.getD i.toNat .null), ("index", .int i)])) := by
    simp only [decideStep, hsel, Bool.not_true, Bool.false_eq_true, if_false, hor, Val.items,
      hcondition, if_true, List.getD_eq_getElem?_getD]
  refine ⟨heq, ?_⟩
  rw [heq]
  cases data with
  | dict fs =>
    simp [Val.set, Val.pyGet, Val.getD, Val.hasKey, dget_dset_self, dget]
  | null => simp [Val.set, Val.pyGet, Val.getD, Val.hasKey]
  | bool b => simp [Val.set, Val.pyGet, Val.getD, Val.hasKey]
  | int n => simp [Val.set, Val.pyGet, Val.getD, Val.hasKey]
  | num q => simp [Val.set, Val.pyGet, Val.getD, Val.hasKey]
  | str s => simp [Val.set, Val.pyGet, Val.getD, Val.hasKey]
  | list xs => simp [Val.set, Val.pyGet, Val.getD, Val.hasKey]

/-- Witness for the amended C4 at a concrete document. -/
theorem C4_explicit_choice_amended_witness :
    (decideStep (.dict [("work", .dict [("candidates", .list [.str "x", .str "y"])])])
        (.dict []) ⟨.dict [], "", some 0, false, false⟩ =
      ((Val.dict [("work", Val.dict [("candidates", Val.list [Val.str "x", Val.str "y"])])]).set
          "work"
          (((Val.dict
              [("work", Val.dict [("candidates",
                Val.list [Val.str "x", Val.str "y"])])]).getD "work" (.dict [])).set
            "selected" (List.getD [Val.str "x", Val.str "y"] (Int.toNat 0) Val.null))).set
        "decision" (.dict [("status", .str "selected"),
          ("selected", List.getD [Val.str "x", Val.str "y"] (Int.toNat 0) Val.null),
          ("index", .int 0)])) ∧
    ((decideStep (.dict [("work", .dict [("candidates", .list [.str "x", .str "y"])])])
        (.dict []) ⟨.dict [], "", some 0, false, false⟩).pyGet "decision").hasKey
      "reason" = false :=
  C4_explicit_choice_amended
    (.dict [("work", .dict [("candidates", .list [.str "x", .str "y"])])])
    (.dict []) (.dict []) "" false false 0 [.str "x", .str "y"]
    rfl rfl (by simp) (by norm_num) (by norm_num)

theorem dget_append_single_ne (fs : List (String × Val)) (k k' : String) (d : Val)
    (h : k' ≠ k) : dget (fs ++ [(k, d)]) k' = dget fs k' := by
  have hne : k ≠ k' := fun hh => h hh.symm
  induction fs with
  | nil => simp [dget, hne]
  | cons hd tl ih =>
    by_cases hk : hd.1 = k'
    · simp [dget, hk]
    · simp [dget, hk, ih]

theorem setdefault_fst_pyGet_ne (v : Val) (k k' : String) (d : Val) (h : k' ≠ k) :
    (v.setdefault k d).1.pyGet k' = v.pyGet k' := by
  cases v with
  | dict fs =>
    simp only [Val.setdefault]
    cases hd : dget fs k with
    | some x => rfl
    | none => simp [Val.pyGet, Val.getD, dget_append_single_ne _ _ _ _ h]
  | null => rfl
  | bool b => rfl
  | int n => rfl
  | num q => rfl
  | str s => rfl
  | list xs => rfl

theorem setdefault_fst_getD_ne (v : Val) (k k' : String) (d d' : Val) (h : k' ≠ k) :
    (v.setdefault k d).1.getD k' d' = v.getD k' d' := by
  cases v with
  | dict fs =>
    simp only [Val.setdefault]
    cases hd : dget fs k with
    | some x => rfl
    | none => simp [Val.getD, dget_append_single_ne _ _ _ _ h]
  | null => rfl
  | bool b => rfl
  | int n => rfl
  | num q => rfl
  | str s => rfl
  | list xs => rfl

/-- Claim C10: with an explicit version request and a non-empty candidate
list, `filter_by_version` never reduces the list to empty: the
`filter.version` statistics are always recorded, the candidate list is left
unchanged when nothing matches the release preferences (with `matched = 0`),
and it is replaced exactly when at least one candidate matches. -/
theorem C10_filter_by_version_preserves_nonempty
    (data stepCfg : Val) (context : Context) (l : List Val) (gs : List (String × Val))
    (hcand : (data.getD "work" (.dict [])).pyGet "candidates" = .list l)
    (hne : l ≠ [])
    (hev : ((data.getD "request" (.dict [])).pyGet "explicit_version").truthy = true)
    (hprefs : ((data.getD "request" (.dict [])).pyGet "release_preferences").truthy = true)
    (hfd : (data.setdefault "filter" (.dict [])).2 = .dict gs) :
    (((filterByVersion data stepCfg context).getD "work" (.dict [])).getD
        "candidates" (.list [])).items ≠ [] ∧
    (((filterByVersion data stepCfg context).pyGet "filter").pyGet "version" =
      .dict [("requested", (data.getD "request" (.dict [])).pyGet "release_preferences"),
        ("matched", .int (l.filter (fun c => match c with
          | .dict _ => candidateMatchesVersion
              ((data.getD "request" (.dict [])).pyGet "release_preferences") c
          | _ => false)).length),
        ("total", .int l.length)]) ∧
    ((l.filter (fun c => match c with
        | .dict _ => candidateMatchesVersion
            ((data.getD "request" (.dict [])).pyGet "release_preferences") c
        | _ => false)) = [] →
      (filterByVersion data stepCfg context).pyGet "work" = data.pyGet "work") ∧
    ((l.filter (fun c => match c with
        | .dict _ => candidateMatchesVersion
            ((data.getD "request" (.dict [])).pyGet "release_preferences") c
        | _ => false)) ≠ [] →
      ((filterByVersion data stepCfg context).getD "work" (.dict [])).pyGet "candidates" =
        .list (l.filter (fun c => match c with
          | .dict _ => candidateMatchesVersion
              ((data.getD "request" (.dict [])).pyGet "release_preferences") c
          | _ => false))) := by
  have hgetD : (data.getD "work" (.dict [])).getD "candidates" (.list []) = .list l :=
    pyGet_list_getD _ _ _ _ hcand
  have htruthy : (Val.list l).truthy = true := by
    simp [Val.truthy, List.isEmpty_iff, hne]
  have hor : pyOr ((data.getD "work" (.dict [])).getD "candidates" (.list [])) (.list []) =
      .list l := by
    rw [hgetD, pyOr, if_pos htruthy]
  have hprefsOr : pyOr ((data.getD "request" (.dict [])).pyGet "release_preferences")
      (.dict []) = (data.getD "request" (.dict [])).pyGet "release_preferences" := by
    rw [pyOr, if_pos hprefs]
  -- `data` must be a dict: its `work` member holds the candidate list.
  have hdict : ∃ fs, data = Val.dict fs := by
    cases data with
    | dict fs => exact ⟨fs, rfl⟩
    | null => simp [Val.getD, Val.pyGet, dget] at hcand
    | bool b => simp [Val.getD, Val.pyGet, dget] at hcand
    | int n => simp [Val.getD, Val.pyGet, dget] at hcand
    | num q => simp [Val.getD, Val.pyGet, dget] at hcand
    | str s => simp [Val.getD, Val.pyGet, dget] at hcand
    | list xs => simp [Val.getD, Val.pyGet, dget] at hcand
  have hwdict : ∃ ws, (data.getD "work" (.dict [])) = Val.dict ws := by
    cases hw : data.getD "work" (.dict []) with
    | dict ws => exact ⟨ws, rfl⟩
    | null => rw [hw] at hcand; simp [Val.pyGet, Val.getD] at hcand
    | bool b => rw [hw] at hcand; simp [Val.pyGet, Val.getD] at hcand
    | int n => rw [hw] at hcand; simp [Val.pyGet, Val.getD] at hcand
    | num q => rw [hw] at hcand; simp [Val.pyGet, Val.getD] at hcand
    | str s => rw [hw] at hcand; simp [Val.pyGet, Val.getD] at hcand
    | list xs => rw [hw] at hcand; simp [Val.pyGet, Val.getD] at hcand
  obtain ⟨fs, rfl⟩ := hdict
  obtain ⟨ws, hws⟩ := hwdict
  set prefs := (Val.getD (Val.dict fs) "request" (.dict [])).pyGet "release_preferences"
    with hprefsDef
  set matched := l.filter (fun c => match c with
    | .dict _ => candidateMatchesVersion prefs c
    | _ => false) with hmatchedDef
  have hout : filterByVersion (Val.dict fs) stepCfg context =
      (if !matched.isEmpty then
        (((Val.dict fs).setdefault "filter" (.dict [])).1.set "filter"
          ((Val.dict gs).set "version" (.dict [("requested", prefs),
            ("matched", .int matched.length), ("total", .int l.length)]))).set "work"
          ((Val.getD (Val.dict fs) "work" (.dict [])).set "candidates" (.list matched))
      else
        (((Val.dict fs).setdefault "filter" (.dict [])).1.set "filter"
          ((Val.dict gs).set "version" (.dict [("requested", prefs),
            ("matched", .int matched.length), ("total", .int l.length)])))) := by
    simp only [filterByVersion, hor, htruthy, hev, hprefsOr, hfd, Val.items,
      Bool.not_true, Bool.false_eq_true, if_false, if_true, ← hprefsDef, ← hmatchedDef,
      hprefs]
  obtain ⟨fs', hfs'⟩ : ∃ fs', ((Val.dict fs).setdefault "filter" (.dict [])).1 = Val.dict fs' := by
    simp only [Val.setdefault]
    cases dget fs "filter" with
    | some x => exact ⟨fs, rfl⟩
    | none => exact ⟨fs ++ [("filter", .dict [])], rfl⟩
  by_cases hm : matched.isEmpty
  · have hmnil : matched = [] := by simpa [List.isEmpty_iff] using hm
    rw [hout, hm]
    simp only [Bool.not_true, Bool.false_eq_true, if_false]
    refine ⟨?_, ?_, ?_, ?_⟩
    · rw [valSet_getD_ne _ _ _ _ _ (by decide),
        setdefault_fst_getD_ne _ _ _ _ _ (by decide), hgetD]
      simpa [Val.items] using hne
    · rw [hfs']
      simp [Val.set, Val.pyGet, Val.getD, dget_dset_self]
    · intro _
      rw [valSet_pyGet_ne _ _ _ _ (by decide),
        setdefault_fst_pyGet_ne _ _ _ _ (by decide)]
    · intro hcontra; exact absurd hmnil hcontra
  · have hmne : matched ≠ [] := by
      intro hc; rw [hc] at hm; simp at hm
    rw [hout]
    simp only [hm, Bool.not_false, if_true]
    refine ⟨?_, ?_, ?_, ?_⟩
    · rw [hws, hfs']
      simp only [Val.set, Val.getD, dget_dset_self, Option.getD_some, Val.items]
      simpa [List.isEmpty_iff] using hmne
    · rw [valSet_pyGet_ne _ _ _ _ (by decide), hfs']
      simp [Val.set, Val.pyGet, Val.getD, dget_dset_self]
    · intro hcontra; exact absurd hcontra hmne
    · intro _
      rw [hws, hfs']
      simp [Val.set, Val.getD, dget_dset_self, Val.pyGet]

/-- Witness for C10: a vinyl preference that no candidate matches leaves the
one-element candidate list non-empty. -/
theorem C10_filter_by_version_preserves_nonempty_witness :
    (((filterByVersion
        (.dict [("request", .dict [("explicit_version", .bool true),
            ("release_preferences", .dict [("media", .list [.str "vinyl"])])]),
          ("work", .dict [("candidates", .list [.dict [("title", .str "Album CD"),
            ("redacted", .dict [("torrent", .dict [("media", .str "CD")])])]])])])
        (.dict []) ⟨.dict [], "", none, false, false⟩).getD "work" (.dict [])).getD
      "candidates" (.list [])).items ≠ [] :=
  (C10_filter_by_version_preserves_nonempty
    (.dict [("request", .dict [("explicit_version", .bool true),
        ("release_preferences", .dict [("media", .list [.str "vinyl"])])]),
      ("work", .dict [("candidates", .list [.dict [("title", .str "Album CD"),
        ("redacted", .dict [("torrent", .dict [("media", .str "CD")])])]])])])
    (.dict []) ⟨.dict [], "", none, false, false⟩
    [.dict [("title", .str "Album CD"),
      ("redacted", .dict [("torrent", .dict [("media", .str "CD")])])]]
    [] rfl (List.cons_ne_nil _ _) rfl rfl rfl).1

theorem requestWithRetryAux_fail (transport : ℕ → TransportResult)
    (b mB j : ℚ) (jd : ℕ → ℚ) (rs : List Int)
    (hfail : ∀ n, failedAttempt (transport n) rs) :
    ∀ fuel attempt sleeps0,
      requestWithRetryAux transport b mB j jd rs attempt fuel sleeps0 =
        (surfaced (transport (attempt + fuel)), attempt + fuel + 1,
          sleeps0 ++ (List.range fuel).map
            (fun k => min mB (b * 2 ^ (attempt + k)) + jd (attempt + k) * j)) := by
  intro fuel
  induction fuel with
  | zero =>
    intro attempt sleeps0
    cases ht : transport attempt with
    | exc e => simp [requestWithRetryAux, ht, surfaced]
    | resp r => simp [requestWithRetryAux, ht, surfaced]
  | succ fuel ih =>
    intro attempt sleeps0
    have hmap : (List.range (fuel + 1)).map
        (fun k => min mB (b * 2 ^ (attempt + k)) + jd (attempt + k) * j) =
        (min mB (b * 2 ^ attempt) + jd attempt * j) ::
          (List.range fuel).map
            (fun k => min mB (b * 2 ^ (attempt + 1 + k)) + jd (attempt + 1 + k) * j) := by
      rw [List.range_succ_eq_map, List.map_cons, List.map_map, Nat.add_zero]
      congr 1
      apply List.map_congr_left
      intro k _
      have hk : attempt + Nat.succ k = attempt + 1 + k := by omega
      simp only [Function.comp_apply, hk]
    have harith : attempt + (fuel + 1) = attempt + 1 + fuel := by omega
    cases ht : transport attempt with
    | exc e =>
      rw [requestWithRetryAux]
      simp only [ht]
      rw [ih (attempt + 1), hmap, harith]
      simp
    | resp r =>
      have hmem : r.status ∈ rs := by
        have := hfail attempt
        rw [ht] at this
        exact this
      rw [requestWithRetryAux]
      simp only [ht, if_pos hmem]
      rw [ih (attempt + 1), hmap, harith]
      simp

/-- Claim C8: against a transport failing on every attempt (exception or
retryable status), `request_with_retry` with `retries = N` makes exactly
`N + 1` attempts, sleeping `min(maxBackoff, base·2^attempt) + jitter` before
each retry, and surfaces the final attempt's failure.  Scenario E: a
`prowlarr_grab` step with `retries = 2` against an always-timing-out
transport makes exactly 3 attempts, and the run aborts with error code
`Timeout` and decision status `error`. -/
theorem C8_retry_policy :
    (∀ (transport : ℕ → TransportResult) (retries : ℕ) (b mB j : ℚ) (jd : ℕ → ℚ)
        (rs : Option (List Int)),
      (∀ n, failedAttempt (transport n) (rs.getD [429, 502, 503, 504])) →
      requestWithRetry transport retries b mB j jd rs =
        (surfaced (transport retries), retries + 1,
          (List.range retries).map (fun k => min mB (b * 2 ^ k) + jd k * j))) ∧
    (runStep [("prowlarr_grab", prowlarrGrab timeoutTransport (fun _ => 0))]
        (fun d _ => ⟨d, none, []⟩) "prowlarr_grab" (.dict [("retries", .int 2)])
        (.dict [("run_id", .str "r"),
          ("work", .dict [("selected", .dict [("title", .str "X")])])])
        ⟨.dict [("prowlarr", .dict [("grab", .dict [("request",
            .dict [("url", .str "http://prowlarr/api/v1/search")])])])],
          "", none, false, true⟩).calls.length = 3 ∧
    (((runWorkflow [("prowlarr_grab", prowlarrGrab timeoutTransport (fun _ => 0))]
        (fun d _ => ⟨d, none, []⟩) (fun _ => none) "rid"
        (.dict [("workflows", .list [.dict [("name", .str "music"),
            ("steps", .list [.str "prowlarr_grab"])]]),
          ("steps", .dict [("prowlarr_grab", .dict [("retries", .int 2)])]),
          ("prowlarr", .dict [("grab", .dict [("request",
            .dict [("url", .str "http://prowlarr/api/v1/search")])])])])
        (.dict [("run_id", .str "r"),
          ("work", .dict [("selected", .dict [("title", .str "X")])])])
        (some "music") none none none false true).pyGet "error").pyGet "code" =
      .str "Timeout" ∧
     ((runWorkflow [("prowlarr_grab", prowlarrGrab timeoutTransport (fun _ => 0))]
        (fun d _ => ⟨d, none, []⟩) (fun _ => none) "rid"
        (.dict [("workflows", .list [.dict [("name", .str "music"),
            ("steps", .list [.str "prowlarr_grab"])]]),
          ("steps", .dict [("prowlarr_grab", .dict [("retries", .int 2)])]),
          ("prowlarr", .dict [("grab", .dict [("request",
            .dict [("url", .str "http://prowlarr/api/v1/search")])])])])
        (.dict [("run_id", .str "r"),
          ("work", .dict [("selected", .dict [("title", .str "X")])])])
        (some "music") none none none false true).pyGet "decision").pyGet "status" =
      .str "error") := by
  refine ⟨?_, ?_, ?_, ?_⟩
  · intro transport retries b mB j jd rs hfail
    rw [requestWithRetry,
      requestWithRetryAux_fail transport b mB j jd _ hfail retries 0]
    simp
  · rfl
  · rfl
  · rfl

/-- Witness for C8 at a concrete always-failing transport with `retries = 2`:
3 attempts, two backoff sleeps, the timeout surfaced. -/
theorem C8_retry_policy_witness :
    requestWithRetry timeoutTransport 2 (1/2) 8 (1/10) (fun _ => 0) none =
      (surfaced (timeoutTransport 2), 2 + 1,
        (List.range 2).map (fun k => min 8 ((1/2) * 2 ^ k) + 0 * (1/10))) :=
  C8_retry_policy.1 timeoutTransport 2 (1/2) 8 (1/10) (fun _ => 0) none
    (fun _ => trivial)

theorem filterMap_str_names (l : List String) :
    (l.map Val.str).filterMap
      (fun v => match v with | .str s => some s | _ => none) = l := by
  induction l with
  | nil => rfl
  | cons hd tl ih => simp [List.filterMap, ih]

theorem preLoop_exc (builtins : List (String × StepFn)) (runExt : Val → Val → StepOutcome)
    (config : Val) (context : Context) (startStep endStep : Option String)
    (name : String) (rest : List String) (data : Val) (sawStart : Bool) (e : PyExc)
    (hexc : (runStep builtins runExt name
        ((config.getD "steps" (.dict [])).getD name (.dict [("builtin", .str name)]))
        data context).exc = some e) :
    preLoop builtins runExt config context startStep endStep (name :: rest) data true
        sawStart =
      .ret (recordStepError name e
        (runStep builtins runExt name
          ((config.getD "steps" (.dict [])).getD name (.dict [("builtin", .str name)]))
          data context).data) := by
  rw [preLoop]
  simp only [Bool.not_true, Bool.false_and, Bool.false_eq_true, if_false, hexc]

theorem wfLoop_exc (builtins : List (String × StepFn)) (runExt : Val → Val → StepOutcome)
    (config : Val) (context : Context) (startStep endStep : Option String)
    (name : String) (rest : List String) (data : Val) (sawStart : Bool) (e : PyExc)
    (hexc : (runStep builtins runExt name
        ((config.getD "steps" (.dict [])).getD name (.dict [("builtin", .str name)]))
        data context).exc = some e) :
    wfLoop builtins runExt config context startStep endStep (name :: rest) data true
        sawStart =
      .ret (recordStepError name e
        (runStep builtins runExt name
          ((config.getD "steps" (.dict [])).getD name (.dict [("builtin", .str name)]))
          data context).data) := by
  rw [wfLoop]
  simp only [Bool.not_true, Bool.false_and, Bool.false_eq_true, if_false, hexc]

/-- Claim C2: a step that raises aborts the run at once — in both runner
loops and at `run_workflow` top level, the raising step's name and the
classified code/hint are recorded as `error.message/step/type/code/hint`,
`decision.status` is forced to `error`, and the partially-mutated document is
returned; the remaining steps (`rest`) never run. -/
theorem C2_step_failure_aborts :
    (∀ (builtins : List (String × StepFn)) (runExt : Val → Val → StepOutcome)
        (config : Val) (context : Context) (startStep endStep : Option String)
        (name : String) (rest : List String) (data : Val) (sawStart : Bool) (e : PyExc),
      (runStep builtins runExt name
          ((config.getD "steps" (.dict [])).getD name (.dict [("builtin", .str name)]))
          data context).exc = some e →
      preLoop builtins runExt config context startStep endStep (name :: rest) data true
          sawStart =
        .ret (recordStepError name e
          (runStep builtins runExt name
            ((config.getD "steps" (.dict [])).getD name (.dict [("builtin", .str name)]))
            data context).data)) ∧
    (∀ (builtins : List (String × StepFn)) (runExt : Val → Val → StepOutcome)
        (config : Val) (context : Context) (startStep endStep : Option String)
        (name : String) (rest : List String) (data : Val) (sawStart : Bool) (e : PyExc),
      (runStep builtins runExt name
          ((config.getD "steps" (.dict [])).getD name (.dict [("builtin", .str name)]))
          data context).exc = some e →
      wfLoop builtins runExt config context startStep endStep (name :: rest) data true
          sawStart =
        .ret (recordStepError name e
          (runStep builtins runExt name
            ((config.getD "steps" (.dict [])).getD name (.dict [("builtin", .str name)]))
            data context).data)) ∧
    (∀ (builtins : List (String × StepFn)) (runExt : Val → Val → StepOutcome)
        (reportPath : Val → Option String) (runId : String) (config data : Val)
        (workflowName : Option String) (choiceIndex : Option Int)
        (endStep : Option String) (dryRun confirm : Bool) (wf : Val)
        (name : String) (rest : List String) (e : PyExc),
      data.hasKey "run_id" = true →
      config.getD "pre_steps" (.list []) = .list [] →
      selectWorkflow config data workflowName = .ok wf →
      wf.getD "steps" (.list []) = .list ((name :: rest).map Val.str) →
      (runStep builtins runExt name
          ((config.getD "steps" (.dict [])).getD name (.dict [("builtin", .str name)]))
          data ⟨config, "", choiceIndex, dryRun, confirm⟩).exc = some e →
      runWorkflow builtins runExt reportPath runId config data workflowName choiceIndex
          none endStep dryRun confirm =
        recordStepError name e
          (runStep builtins runExt name
            ((config.getD "steps" (.dict [])).getD name (.dict [("builtin", .str name)]))
            data ⟨config, "", choiceIndex, dryRun, confirm⟩).data) := by
  refine ⟨?_, ?_, ?_⟩
  · intro builtins runExt config context startStep endStep name rest data sawStart e hexc
    exact preLoop_exc builtins runExt config context startStep endStep name rest data
      sawStart e hexc
  · intro builtins runExt config context startStep endStep name rest data sawStart e hexc
    exact wfLoop_exc builtins runExt config context startStep endStep name rest data
      sawStart e hexc
  · intro builtins runExt reportPath runId config data workflowName choiceIndex endStep
      dryRun confirm wf name rest e hrun hpre hwfsel hsteps hexc
    rw [runWorkflow]
    simp only [hrun, Bool.not_true, Bool.false_eq_true, if_false, Option.isNone_none,
      hpre, pyOr, Val.truthy, Val.items, List.filterMap_nil, List.isEmpty_nil, preLoop,
      hwfsel, hsteps, filterMap_str_names]
    rw [wfLoop_exc builtins runExt config _ none endStep name rest data false e hexc]

/-- Witness for C2: a builtin that raises `ValueError` after a partial
mutation makes the run return the mutated document with the recorded error
and `decision.status = "error"`. -/
theorem C2_step_failure_aborts_witness :
    runWorkflow
        [("boom", fun d _ _ => ⟨d.set "partial" (.bool true),
          some (.runtimeError "ValueError" "boom"), []⟩)]
        (fun d _ => ⟨d, none, []⟩) (fun _ => none) "rid"
        (.dict [("workflows", .list [.dict [("name", .str "wf"),
          ("steps", .list [.str "boom", .str "never"])]])])
        (.dict [("run_id", .str "r"), ("partial", .bool false)])
        (some "wf") none none none false false =
      recordStepError "boom" (.runtimeError "ValueError" "boom")
        (runStep
          [("boom", fun d _ _ => ⟨d.set "partial" (.bool true),
            some (.runtimeError "ValueError" "boom"), []⟩)]
          (fun d _ => ⟨d, none, []⟩) "boom"
          (((Val.dict [("workflows", .list [.dict [("name", .str "wf"),
            ("steps", .list [.str "boom", .str "never"])]])]).getD "steps"
              (.dict [])).getD "boom" (.dict [("builtin", .str "boom")]))
          (.dict [("run_id", .str "r"), ("partial", .bool false)])
          ⟨.dict [("workflows", .list [.dict [("name", .str "wf"),
            ("steps", .list [.str "boom", .str "never"])]])], "", none, false, false⟩).data :=
  C2_step_failure_aborts.2.2
    [("boom", fun d _ _ => ⟨d.set "partial" (.bool true),
      some (.runtimeError "ValueError" "boom"), []⟩)]
    (fun d _ => ⟨d, none, []⟩) (fun _ => none) "rid"
    (.dict [("workflows", .list [.dict [("name", .str "wf"),
      ("steps", .list [.str "boom", .str "never"])]])])
    (.dict [("run_id", .str "r"), ("partial", .bool false)])
    (some "wf") none none false false
    (.dict [("name", .str "wf"), ("steps", .list [.str "boom", .str "never"])])
    "boom" ["never"] (.runtimeError "ValueError" "boom")
    rfl rfl rfl rfl rfl

/-- Claim C9 counterexample: a pre-step that sets
`decision.status = "needs_choice"` does not stop the run — the next pre-step
(`probe`) still executes, because the pre-steps loop has no decision-status
check. -/
theorem C9_terminal_status_counterexample :
    ((runWorkflow
        [("mark", fun d _ _ => ⟨d.set "decision" (.dict [("status", .str "needs_choice")]),
          none, []⟩),
         ("probe", fun d _ _ => ⟨d.set "probe_ran" (.bool true), none, []⟩)]
        (fun d _ => ⟨d, none, []⟩) (fun _ => none) "rid"
        (.dict [("pre_steps", .list [.str "mark", .str "probe"]),
          ("workflows", .list [.dict [("name", .str "wf"), ("steps", .list [])]])])
        (.dict [("run_id", .str "r")]) (some "wf") none none none false false).pyGet
      "decision").pyGet "status" = .str "needs_choice" ∧
    (runWorkflow
        [("mark", fun d _ _ => ⟨d.set "decision" (.dict [("status", .str "needs_choice")]),
          none, []⟩),
         ("probe", fun d _ _ => ⟨d.set "probe_ran" (.bool true), none, []⟩)]
        (fun d _ => ⟨d, none, []⟩) (fun _ => none) "rid"
        (.dict [("pre_steps", .list [.str "mark", .str "probe"]),
          ("workflows", .list [.dict [("name", .str "wf"), ("steps", .list [])]])])
        (.dict [("run_id", .str "r")]) (some "wf") none none none false false).pyGet
      "probe_ran" = .bool true :=
  ⟨rfl, rfl⟩

/-- Claim C9 (amended): once a workflow step's returned document carries
`decision.status = "needs_choice"`, the workflow loop stops advancing — the
remaining workflow steps are never invoked (the loop result is independent of
`rest`).  `error` is reached only through the exception handlers, which
return immediately (see the C2 theorem); pre-steps are not subject to this
check. -/
theorem C9_needs_choice_stops_workflow
    (builtins : List (String × StepFn)) (runExt : Val → Val → StepOutcome)
    (config : Val) (context : Context) (startStep endStep : Option String)
    (name : String) (rest : List String) (data : Val) (sawStart : Bool)
    (hexc : (runStep builtins runExt name
        ((config.getD "steps" (.dict [])).getD name (.dict [("builtin", .str name)]))
        data context).exc = none)
    (hstatus : Val.beq (((runStep builtins runExt name
        ((config.getD "steps" (.dict [])).getD name (.dict [("builtin", .str name)]))
        data context).data.getD "decision" (.dict [])).pyGet "status")
        (.str "needs_choice") = true) :
    wfLoop builtins runExt config context startStep endStep (name :: rest) data true
        sawStart =
      .fell (runStep builtins runExt name
        ((config.getD "steps" (.dict [])).getD name (.dict [("builtin", .str name)]))
        data context).data true sawStart := by
  rw [wfLoop]
  simp only [Bool.not_true, Bool.false_and, Bool.false_eq_true, if_false, hexc, hstatus,
    if_true]

/-- Witness for the amended C9: a workflow step returning `needs_choice`
makes the loop fall through with that document. -/
theorem C9_needs_choice_stops_workflow_witness :
    wfLoop
        [("choose", fun d _ _ => ⟨d.set "decision" (.dict [("status", .str "needs_choice")]),
          none, []⟩)]
        (fun d _ => ⟨d, none, []⟩) (.dict []) ⟨.dict [], "", none, false, false⟩ none none
        ["choose", "never"] (.dict [("run_id", .str "r")]) true false =
      .fell (runStep
        [("choose", fun d _ _ => ⟨d.set "decision" (.dict [("status", .str "needs_choice")]),
          none, []⟩)]
        (fun d _ => ⟨d, none, []⟩) "choose"
        (((Val.dict []).getD "steps" (.dict [])).getD "choose"
          (.dict [("builtin", .str "choose")]))
        (.dict [("run_id", .str "r")]) ⟨.dict [], "", none, false, false⟩).data true false :=
  C9_needs_choice_stops_workflow
    [("choose", fun d _ _ => ⟨d.set "decision" (.dict [("status", .str "needs_choice")]),
      none, []⟩)]
    (fun d _ => ⟨d, none, []⟩) (.dict []) ⟨.dict [], "", none, false, false⟩ none none
    "choose" ["never"] (.dict [("run_id", .str "r")]) false rfl rfl

theorem getD_of_hasKey_false (v : Val) (k : String) (d : Val)
    (h : v.hasKey k = false) : v.getD k d = d := by
  cases v with
  | dict fs =>
    simp only [Val.hasKey] at h
    have hn : dget fs k = none := by
      cases hd : dget fs k with
      | none => rfl
      | some x => rw [hd] at h; simp at h
    rw [Val.getD, hn]
    rfl
  | null => rfl
  | bool b => rfl
  | int n => rfl
  | num q => rfl
  | str s => rfl
  | list xs => rfl

theorem valSet_hasKey_ne (v : Val) (k k' : String) (x : Val) (h : k' ≠ k) :
    (v.set k x).hasKey k' = v.hasKey k' := by
  cases v <;> simp [Val.set, Val.hasKey, dget_dset_ne _ _ _ _ h]

theorem setdefault_fst_hasKey_ne (v : Val) (k k' : String) (d : Val) (h : k' ≠ k) :
    (v.setdefault k d).1.hasKey k' = v.hasKey k' := by
  cases v with
  | dict fs =>
    simp only [Val.setdefault]
    cases hd : dget fs k with
    | some x => rfl
    | none => simp [Val.hasKey, dget_append_single_ne _ _ _ _ h]
  | null => rfl
  | bool b => rfl
  | int n => rfl
  | num q => rfl
  | str s => rfl
  | list xs => rfl

theorem appendLog_pyGet_ne (d e : Val) (k : String) (h : k ≠ "logs") :
    (appendLog d e).pyGet k = d.pyGet k := by
  rw [appendLog, valSet_pyGet_ne _ _ _ _ h, setdefault_fst_pyGet_ne _ _ _ _ h]

theorem appendLog_hasKey_ne (d e : Val) (k : String) (h : k ≠ "logs") :
    (appendLog d e).hasKey k = d.hasKey k := by
  rw [appendLog, valSet_hasKey_ne _ _ _ _ h, setdefault_fst_hasKey_ne _ _ _ _ h]

/-- The second component of `setdefault` is a dict whenever the key is
missing or currently holds a dict. -/
theorem setdefault_snd_dict (v : Val) (k : String)
    (h : v.hasKey k = false ∨ ∃ gs, v.pyGet k = .dict gs) :
    ∃ gs', (v.setdefault k (.dict [])).2 = .dict gs' := by
  cases v with
  | dict fs =>
    simp only [Val.setdefault]
    cases hd : dget fs k with
    | none => exact ⟨[], rfl⟩
    | some x =>
      rcases h with h | ⟨gs, hgs⟩
      · simp [Val.hasKey, hd] at h
      · simp only [Val.pyGet, Val.getD, hd, Option.getD_some] at hgs
        exact ⟨gs, by simp [hgs]⟩
  | null => exact ⟨[], rfl⟩
  | bool b => exact ⟨[], rfl⟩
  | int n => exact ⟨[], rfl⟩
  | num q => exact ⟨[], rfl⟩
  | str s => exact ⟨[], rfl⟩
  | list xs => exact ⟨[], rfl⟩

theorem valSet_pyGet_self (fs : List (String × Val)) (k : String) (x : Val) :
    ((Val.dict fs).set k x).pyGet k = x := by
  simp [Val.set, Val.pyGet, Val.getD, dget_dset_self]

theorem setdefault_fst_dict (fs : List (String × Val)) (k : String) (d : Val) :
    ∃ gs, ((Val.dict fs).setdefault k d).1 = .dict gs := by
  simp only [Val.setdefault]
  cases hd : dget fs k with
  | some x => exact ⟨fs, rfl⟩
  | none => exact ⟨fs ++ [(k, d)], rfl⟩

theorem appendLog_dict (fs : List (String × Val)) (e : Val) :
    ∃ gs, appendLog (.dict fs) e = .dict gs := by
  rw [appendLog]
  obtain ⟨gs, hg⟩ := setdefault_fst_dict fs "logs" (.list [])
  rw [hg]
  exact ⟨dset gs "logs" ((((Val.dict fs).setdefault "logs" (.list [])).2).push e), rfl⟩

/-- In dry-run mode the dispatch stage of `prowlarr_grab` records the
`dry_run` dispatch entry and returns before touching the transport. -/
theorem prowlarrGrabDispatch_dry (transport : ℕ → TransportResult) (jd : ℕ → ℚ)
    (context : Context) (data work4 stepCfg : Val) (urlStr method : String)
    (headers params jsonBody form : Val) (hdry : context.dryRun = true) :
    (prowlarrGrabDispatch transport jd context data work4 stepCfg urlStr method headers
      params jsonBody form).calls = [] := by
  unfold prowlarrGrabDispatch
  simp only [hdry, if_true]

/-- In dry-run mode the render stage of `prowlarr_grab` makes no transport
call on any of its exits. -/
theorem prowlarrGrabRender_dry (transport : ℕ → TransportResult) (jd : ℕ → ℚ)
    (context : Context) (data work4 stepCfg grabCfg prowCfg requestCfg : Val)
    (hdry : context.dryRun = true) :
    (prowlarrGrabRender transport jd context data work4 stepCfg grabCfg prowCfg
      requestCfg).calls = [] := by
  unfold prowlarrGrabRender
  split
  · rfl
  · dsimp only
    repeat' split
    all_goals first
      | rfl
      | exact prowlarrGrabDispatch_dry _ _ _ _ _ _ _ _ _ _ _ _ hdry

/-- In dry-run mode `prowlarr_grab` never invokes the transport. -/
theorem prowlarrGrab_dry (transport : ℕ → TransportResult) (jd : ℕ → ℚ)
    (data stepCfg : Val) (context : Context) (hdry : context.dryRun = true) :
    (prowlarrGrab transport jd data stepCfg context).calls = [] := by
  unfold prowlarrGrab
  dsimp only
  split
  · rfl
  · split
    · rfl
    · exact prowlarrGrabRender_dry _ _ _ _ _ _ _ _ _ hdry

/-- Under `side_effect = true`, `confirm = false`, `dry_run = false`,
`run_step` takes the skip branch: the result is `skipOutcome`, independent
of the builtin table and the external runner. -/
theorem runStep_skip_eq (builtins : List (String × StepFn))
    (runExt : Val → Val → StepOutcome) (stepName : String) (stepCfg data : Val)
    (context : Context) (hse : effectiveSideEffect stepName stepCfg = true)
    (hcf : context.confirm = false) (hdr : context.dryRun = false) :
    runStep builtins runExt stepName stepCfg data context =
      skipOutcome stepName stepCfg data := by
  unfold runStep skipOutcome
  simp only [hse, hcf, hdr, Bool.not_false, Bool.and_self, Bool.true_and, Bool.and_true,
    if_true]

/-- The `skipped`/`needs_confirm` dispatch record `skipOutcome` writes is
readable back under the step's dispatch key whenever the incoming document
is a dict whose `dispatch` entry is absent or a dict. -/
theorem skipOutcome_dispatch (stepName : String) (stepCfg : Val)
    (fs : List (String × Val))
    (hdisp : (Val.dict fs).hasKey "dispatch" = false ∨
      ∃ gs, (Val.dict fs).pyGet "dispatch" = .dict gs) :
    ((skipOutcome stepName stepCfg (.dict fs)).data.pyGet "dispatch").pyGet
        (dispatchKeyFor stepName stepCfg) =
      .dict [("status", .str "skipped"), ("reason", .str "needs_confirm")] := by
  unfold skipOutcome
  dsimp only
  obtain ⟨fs1, h1⟩ := appendLog_dict fs (.dict
    [("run_id", (Val.dict fs).pyGet "run_id"), ("step", .str stepName),
     ("phase", .str "start"), ("ts", .num 0)])
  rw [h1]
  rw [appendLog_pyGet_ne _ _ _ (by decide)]
  rw [valSet_pyGet_ne _ _ _ _ (by decide)]
  rw [setdefault_fst_pyGet_ne _ _ _ _ (by decide)]
  obtain ⟨gs1, hg1⟩ := setdefault_fst_dict fs1 "dispatch" (.dict [])
  rw [hg1, valSet_pyGet_self]
  have hdisp1 : (Val.dict fs1).hasKey "dispatch" = false ∨
      ∃ gs, (Val.dict fs1).pyGet "dispatch" = .dict gs := by
    rcases hdisp with h | ⟨gs, hg⟩
    · left
      rw [← h1, appendLog_hasKey_ne _ _ _ (by decide)]
      exact h
    · right
      exact ⟨gs, by rw [← h1, appendLog_pyGet_ne _ _ _ (by decide)]; exact hg⟩
  obtain ⟨gs2, hg2⟩ := setdefault_snd_dict (.dict fs1) "dispatch" hdisp1
  rw [hg2, valSet_pyGet_self]

/-- A step config with no `side_effect` and no `builtin` key resolving the
builtin `prowlarr_grab` is side-effecting by metadata. -/
theorem effectiveSideEffect_prowlarr (stepCfg : Val)
    (hbi : stepCfg.hasKey "builtin" = false)
    (hsec : stepCfg.hasKey "side_effect" = false) :
    effectiveSideEffect "prowlarr_grab" stepCfg = true := by
  unfold effectiveSideEffect
  rw [getD_of_hasKey_false _ _ _ hbi]
  simp only [hsec, Bool.false_eq_true, if_false]
  decide

/-- C1: counterexample.  The claim says `dry_run = true` (with
`confirm = false`) yields a dispatch record with status `skipped`; in fact
with `dry_run = true` the `run_step` gate (which requires
`not dry_run`) does not fire, `prowlarr_grab` itself runs and records a
dispatch entry with status `dry_run`, not `skipped` (builtin.py:2179).  The
transport is still never invoked. -/
theorem C1_side_effect_gating_counterexample :
    ((((runStep
        [("prowlarr_grab", prowlarrGrab (fun _ => .exc (.reqTimeout "timed out")) (fun _ => 0))]
        (fun d _ => (⟨d, none, []⟩ : StepOutcome)) "prowlarr_grab" (.dict [])
        (.dict [("work", .dict [("selected", .dict [("title", .str "A")])])])
        ⟨.dict [("prowlarr", .dict [("grab", .dict [("request", .dict
            [("url", .str "http://h/api?apikey=k&x=1")])])])], "", none, true,
          false⟩).data.pyGet "dispatch").pyGet "prowlarr").pyGet "status" = .str "dry_run") ∧
    Val.str "dry_run" ≠ .str "skipped" ∧
    (runStep
        [("prowlarr_grab", prowlarrGrab (fun _ => .exc (.reqTimeout "timed out")) (fun _ => 0))]
        (fun d _ => (⟨d, none, []⟩ : StepOutcome)) "prowlarr_grab" (.dict [])
        (.dict [("work", .dict [("selected", .dict [("title", .str "A")])])])
        ⟨.dict [("prowlarr", .dict [("grab", .dict [("request", .dict
            [("url", .str "http://h/api?apikey=k&x=1")])])])], "", none, true,
          false⟩).calls = [] := by
  refine ⟨rfl, ?_, rfl⟩
  intro h
  exact absurd (Val.str.inj h) (by decide)

/-- C1 (amended): (1) for every side-effect step with `confirm = false` and
`dry_run = false`, `run_step` takes the skip branch: the outcome is exactly
`skipOutcome` — independent of the builtin table and the external runner —
with no exception and no transport call; (2) that outcome records a
`skipped`/`needs_confirm` dispatch record under the step's dispatch key;
(3) with `dry_run = true` the skip branch is not taken, `prowlarr_grab`
itself runs but still never invokes the transport; (4) hence a
`prowlarr_grab` step makes no transport call whenever `confirm = false` or
`dry_run = true`: the transport is reachable only with `confirm = true` and
`dry_run = false`. -/
theorem C1_side_effect_gating_amended :
    (∀ builtins runExt stepName stepCfg data context,
      effectiveSideEffect stepName stepCfg = true →
      context.confirm = false → context.dryRun = false →
      runStep builtins runExt stepName stepCfg data context =
        skipOutcome stepName stepCfg data ∧
      (runStep builtins runExt stepName stepCfg data context).calls = [] ∧
      (runStep builtins runExt stepName stepCfg data context).exc = none) ∧
    (∀ stepName stepCfg fs,
      ((Val.dict fs).hasKey "dispatch" = false ∨
        ∃ gs, (Val.dict fs).pyGet "dispatch" = .dict gs) →
      ((skipOutcome stepName stepCfg (.dict fs)).data.pyGet "dispatch").pyGet
          (dispatchKeyFor stepName stepCfg) =
        .dict [("status", .str "skipped"), ("reason", .str "needs_confirm")]) ∧
    (∀ transport jitterDraw data stepCfg context, context.dryRun = true →
      (prowlarrGrab transport jitterDraw data stepCfg context).calls = []) ∧
    (∀ transport jitterDraw runExt stepCfg data context,
      stepCfg.hasKey "command" = false → stepCfg.hasKey "builtin" = false →
      stepCfg.hasKey "side_effect" = false →
      (context.confirm = false ∨ context.dryRun = true) →
      (runStep [("prowlarr_grab", prowlarrGrab transport jitterDraw)]
        runExt "prowlarr_grab" stepCfg data context).calls = []) := by
  refine ⟨?_, ?_, ?_, ?_⟩
  · intro b r n c d ctx hse hcf hdr
    have he := runStep_skip_eq b r n c d ctx hse hcf hdr
    exact ⟨he, by rw [he]; rfl, by rw [he]; rfl⟩
  · intro n c fs hdisp
    exact skipOutcome_dispatch n c fs hdisp
  · intro t j d c ctx hdry
    exact prowlarrGrab_dry t j d c ctx hdry
  · intro t j r c d ctx hcmd hbi hsec hgate
    cases hdr : ctx.dryRun with
    | false =>
      rcases hgate with hcf | hdr'
      · rw [runStep_skip_eq _ _ _ _ _ _ (effectiveSideEffect_prowlarr c hbi hsec) hcf hdr]
        rfl
      · exact absurd (hdr.symm.trans hdr') Bool.false_ne_true
    | true =>
      unfold runStep
      dsimp only
      rw [if_neg (by simp [hdr])]
      split
      · rfl
      · rw [if_neg (by simp [hcmd])]
        rw [getD_of_hasKey_false _ _ _ hbi]
        have hl : List.lookup "prowlarr_grab" [("prowlarr_grab", prowlarrGrab t j)] =
            some (prowlarrGrab t j) := rfl
        dsimp only
        rw [hl]
        dsimp only
        split
        · dsimp only
          exact prowlarrGrab_dry _ _ _ _ _ hdr
        · dsimp only
          exact prowlarrGrab_dry _ _ _ _ _ hdr

/-- C1 witness: concrete runs of the amended statement's four parts. -/
theorem C1_side_effect_gating_amended_witness :
    (runStep [] (fun d _ => (⟨d, none, []⟩ : StepOutcome)) "prowlarr_grab" (.dict [])
        (.dict [("run_id", .str "r")]) ⟨.dict [], "", none, false, false⟩ =
      skipOutcome "prowlarr_grab" (.dict []) (.dict [("run_id", .str "r")])) ∧
    (((skipOutcome "prowlarr_grab" (.dict []) (.dict [("run_id", .str "r")])).data.pyGet
        "dispatch").pyGet (dispatchKeyFor "prowlarr_grab" (.dict [])) =
      .dict [("status", .str "skipped"), ("reason", .str "needs_confirm")]) ∧
    ((prowlarrGrab (fun _ => .exc (.reqTimeout "t")) (fun _ => 0) (.dict []) (.dict [])
        ⟨.dict [], "", none, true, false⟩).calls = []) ∧
    ((runStep [("prowlarr_grab", prowlarrGrab (fun _ => .exc (.reqTimeout "t")) (fun _ => 0))]
        (fun d _ => (⟨d, none, []⟩ : StepOutcome)) "prowlarr_grab" (.dict []) (.dict [])
        ⟨.dict [], "", none, true, false⟩).calls = []) :=
  ⟨(C1_side_effect_gating_amended.1 _ _ _ _ _ _ (by decide) rfl rfl).1,
    C1_side_effect_gating_amended.2.1 _ _ _ (Or.inl rfl),
    C1_side_effect_gating_amended.2.2.1 _ _ _ _ _ rfl,
    C1_side_effect_gating_amended.2.2.2 _ _ _ _ _ _ rfl rfl rfl (Or.inr rfl)⟩

/-- A plain unknown placeholder interpolates to its own literal
`\x7bname\x7d` text via `SafeMap.__missing__`. -/
theorem interpolateSegs_keep (ctx : List (String × Val)) (segs : List FmtSeg)
    (h : plainUnknownPlaceholders ctx segs = true) :
    interpolateSegs ctx segs = some (keepPlaceholdersText segs) := by
  induction segs with
  | nil => rfl
  | cons seg rest ih =>
    simp only [plainUnknownPlaceholders, List.all_cons, Bool.and_eq_true] at h
    obtain ⟨h1, h2⟩ := h
    have hrest := ih h2
    unfold interpolateSegs keepPlaceholdersText
    rw [hrest]
    cases hf : seg.field with
    | none =>
      simp [segText, hf]
    | some f =>
      rw [hf] at h1
      dsimp only at h1
      cases hsp : pySplit f "." with
      | nil => rw [hsp] at h1; simp at h1
      | cons root tail =>
        cases tail with
        | cons x xs => rw [hsp] at h1; simp at h1
        | nil =>
          rw [hsp] at h1
          simp only [Bool.and_eq_true, Bool.not_eq_true', beq_iff_eq,
            Option.isNone_iff_eq_none] at h1
          obtain ⟨⟨⟨⟨hpos, hdg⟩, hrf⟩, _⟩, _⟩ := h1
          subst hrf
          simp [segText, hf, hsp, hpos, hdg, resolveAttrs, pyStr]

/-- A string the formatter parser accepts always renders without raising. -/
theorem renderString_ok (ctx : List (String × Val)) (s : String) (segs : List FmtSeg)
    (hp : parseFmt s = some segs) : ∃ v, renderString ctx s = .ok v := by
  unfold renderString
  rw [hp]
  dsimp only
  cases hw : wholeField segs with
  | none => exact ⟨_, rfl⟩
  | some f =>
    dsimp only
    cases hg : getField ctx f with
    | none => exact ⟨_, rfl⟩
    | some v => exact ⟨v, rfl⟩

/-- C6: counterexample.  A placeholder with an unresolvable DOTTED path is
not left literal: `\x7bwork.year\x7d` against an empty document renders as
"None" (the `DotDict.__getattr__` of pipeline.py:41-52 returns `None` for
the missing attribute, which `format_map` stringifies), and a malformed
template raises out of `_FORMATTER.parse` (pipeline.py:89 is outside every
`try`), so resolution is not exception-free either. -/
theorem C6_template_interpolation_counterexample :
    (renderTemplate (.str "y=\x7bwork.year\x7d") (.dict []) (.dict []) =
      .ok (.str "y=None")) ∧
    Val.str "y=None" ≠ .str "y=\x7bwork.year\x7d" ∧
    (renderTemplate (.str "\x7b") (.dict []) (.dict []) = .error ()) := by
  refine ⟨rfl, ?_, rfl⟩
  intro h
  exact absurd (Val.str.inj h) (by decide)

/-- C6 (amended): (1) in string interpolation, a placeholder is left as its
literal `\x7bname\x7d` text when its path is a plain UNDOTTED name absent
from the context (via `SafeMap.__missing__`): a parsed template all of whose
placeholders are such names (and which is not one whole-field reference)
renders to exactly the input with every placeholder kept literally;
(2) rendering a string raises if and only if the formatter parser rejects
it (a malformed template), and (3) hence on every parseable string template
`render_template` returns a value instead of raising. -/
theorem C6_template_interpolation_amended :
    (∀ ctx s segs, parseFmt s = some segs → wholeField segs = none →
      plainUnknownPlaceholders ctx segs = true →
      renderString ctx s = .ok (.str (keepPlaceholdersText segs))) ∧
    (∀ ctx s, renderString ctx s = .error () ↔ parseFmt s = none) ∧
    (∀ data config s segs, parseFmt s = some segs →
      ∃ v, renderTemplate (.str s) data config = .ok v) := by
  refine ⟨?_, ?_, ?_⟩
  · intro ctx s segs hp hw hplain
    unfold renderString
    rw [hp]
    dsimp only
    rw [interpolateSegs_keep ctx segs hplain, hw]
  · intro ctx s
    constructor
    · intro h
      cases hp : parseFmt s with
      | none => rfl
      | some segs =>
        obtain ⟨v, hv⟩ := renderString_ok ctx s segs hp
        rw [hv] at h
        exact Except.noConfusion h
    · intro h
      unfold renderString
      rw [h]
  · intro data config s segs hp
    obtain ⟨v, hv⟩ := renderString_ok
      [("data", data), ("request", data.getD "request" (.dict [])),
       ("work", data.getD "work" (.dict [])),
       ("decision", data.getD "decision" (.dict [])),
       ("config", config)] s segs hp
    exact ⟨v, hv⟩

/-- C6 witness: the amended statement at concrete templates. -/
theorem C6_template_interpolation_amended_witness :
    (renderString [("data", .dict [])] "x \x7bmissing\x7d y" =
      .ok (.str (keepPlaceholdersText [⟨"x ", some "missing", some "", none⟩,
        ⟨" y", none, none, none⟩]))) ∧
    (renderString [] "ok" = .error () ↔ parseFmt "ok" = none) ∧
    (∃ v, renderTemplate (.str "t \x7bdata.x\x7d") (.dict []) (.dict []) = .ok v) :=
  ⟨C6_template_interpolation_amended.1 _ _ _ rfl rfl (by decide),
    C6_template_interpolation_amended.2.1 _ _,
    C6_template_interpolation_amended.2.2 _ _ _
      [⟨"t ", some "data.x", some "", none⟩] rfl⟩

theorem tupGtCount_eq_true_iff (a b : ℕ × ℚ) :
    tupGtCount a b = true ↔ (b.1 < a.1 ∨ (a.1 = b.1 ∧ b.2 < a.2)) := by
  simp [tupGtCount, Bool.or_eq_true, Bool.and_eq_true, decide_eq_true_eq, beq_iff_eq]

theorem tupGtCount_eq_false_iff (a b : ℕ × ℚ) :
    tupGtCount a b = false ↔ (a.1 ≤ b.1 ∧ (a.1 = b.1 → a.2 ≤ b.2)) := by
  rw [← Bool.not_eq_true, tupGtCount_eq_true_iff]
  push_neg
  constructor
  · rintro ⟨h1, h2⟩
    exact ⟨h1, fun he => h2 he⟩
  · rintro ⟨h1, h2⟩
    exact ⟨h1, fun he => h2 he⟩

theorem tupGtCount_trans {a b c : ℕ × ℚ} (h1 : tupGtCount a b = true)
    (h2 : tupGtCount b c = true) : tupGtCount a c = true := by
  rw [tupGtCount_eq_true_iff] at h1 h2 ⊢
  rcases h1 with h1 | ⟨e1, l1⟩ <;> rcases h2 with h2 | ⟨e2, l2⟩
  · exact Or.inl (lt_trans h2 h1)
  · exact Or.inl (by omega)
  · exact Or.inl (by omega)
  · exact Or.inr ⟨e1.trans e2, lt_trans l2 l1⟩

theorem tupGtCount_trans_false {a b c : ℕ × ℚ} (h1 : tupGtCount a b = false)
    (h2 : tupGtCount b c = false) : tupGtCount a c = false := by
  rw [tupGtCount_eq_false_iff] at h1 h2 ⊢
  obtain ⟨h1, h1e⟩ := h1
  obtain ⟨h2, h2e⟩ := h2
  refine ⟨le_trans h1 h2, fun he => ?_⟩
  have e1 : a.1 = b.1 := by omega
  have e2 : b.1 = c.1 := by omega
  exact le_trans (h1e e1) (h2e e2)

theorem tupGtCount_irrefl (a : ℕ × ℚ) : tupGtCount a a = false := by
  rw [tupGtCount_eq_false_iff]
  exact ⟨le_refl _, fun _ => le_refl _⟩

/-- The `max(..., key=...)` fold of `pick_best`: the result is the seed or a
list element, and no element (nor the seed) is strictly greater than it in
the `(count, score-sum)` order. -/
theorem pickFold_spec (rest : List (ConsKey × Bucket)) :
    ∀ acc : ConsKey × Bucket,
      (rest.foldl (fun best item =>
          if tupGtCount (item.2.count, item.2.scoreSum) (best.2.count, best.2.scoreSum)
          then item else best) acc = acc ∨
        rest.foldl (fun best item =>
          if tupGtCount (item.2.count, item.2.scoreSum) (best.2.count, best.2.scoreSum)
          then item else best) acc ∈ rest) ∧
      tupGtCount (acc.2.count, acc.2.scoreSum)
        ((rest.foldl (fun best item =>
          if tupGtCount (item.2.count, item.2.scoreSum) (best.2.count, best.2.scoreSum)
          then item else best) acc).2.count,
         (rest.foldl (fun best item =>
          if tupGtCount (item.2.count, item.2.scoreSum) (best.2.count, best.2.scoreSum)
          then item else best) acc).2.scoreSum) = false ∧
      ∀ x ∈ rest, tupGtCount (x.2.count, x.2.scoreSum)
        ((rest.foldl (fun best item =>
          if tupGtCount (item.2.count, item.2.scoreSum) (best.2.count, best.2.scoreSum)
          then item else best) acc).2.count,
         (rest.foldl (fun best item =>
          if tupGtCount (item.2.count, item.2.scoreSum) (best.2.count, best.2.scoreSum)
          then item else best) acc).2.scoreSum) = false := by
  induction rest with
  | nil =>
    intro acc
    exact ⟨Or.inl rfl, tupGtCount_irrefl _, fun x hx => absurd hx (List.not_mem_nil x)⟩
  | cons y ys ih =>
    intro acc
    simp only [List.foldl_cons]
    cases hc : tupGtCount (y.2.count, y.2.scoreSum) (acc.2.count, acc.2.scoreSum) with
    | true =>
      simp only [hc, if_true]
      obtain ⟨hmem, hacc, hall⟩ := ih y
      refine ⟨?_, ?_, ?_⟩
      · rcases hmem with h | h
        · exact Or.inr (by rw [h]; exact List.mem_cons_self y ys)
        · exact Or.inr (List.mem_cons_of_mem y h)
      · cases hr : tupGtCount (acc.2.count, acc.2.scoreSum) _ with
        | false => rfl
        | true =>
          have h2 := tupGtCount_trans hc hr
          rw [h2] at hacc
          exact absurd hacc (by decide)
      · intro x hx
        rcases List.mem_cons.mp hx with h | h
        · exact h ▸ hacc
        · exact hall x h
    | false =>
      simp only [hc, Bool.false_eq_true, if_false]
      obtain ⟨hmem, hacc, hall⟩ := ih acc
      refine ⟨?_, hacc, ?_⟩
      · rcases hmem with h | h
        · exact Or.inl h
        · exact Or.inr (List.mem_cons_of_mem y h)
      · intro x hx
        rcases List.mem_cons.mp hx with h | h
        · exact h ▸ tupGtCount_trans_false hc hacc
        · exact hall x h

/-- `pick_best` returns a member of the bucket list that no bucket strictly
beats in the `(count, score-sum)` order. -/
theorem pickBest_mem_max (bs : List (ConsKey × Bucket)) (kb : ConsKey × Bucket)
    (h : pickBest bs = some kb) :
    kb ∈ bs ∧ ∀ x ∈ bs,
      tupGtCount (x.2.count, x.2.scoreSum) (kb.2.count, kb.2.scoreSum) = false := by
  cases bs with
  | nil => exact absurd h (by simp [pickBest])
  | cons x rest =>
    simp only [pickBest, Option.some_inj] at h
    obtain ⟨hmem, hacc, hall⟩ := pickFold_spec rest x
    subst h
    refine ⟨?_, ?_⟩
    · rcases hmem with h | h
      · exact (by rw [h]; exact List.mem_cons_self x rest)
      · exact List.mem_cons_of_mem x h
    · intro z hz
      rcases List.mem_cons.mp hz with h | h
      · exact h ▸ hacc
      · exact hall z h

/-- `addToBuckets` preserves non-empty fields and positive counts when the
inserted fields are non-empty. -/
theorem addToBuckets_inv (bs : List (ConsKey × Bucket)) (key : ConsKey)
    (fields : List (String × Val)) (score : ℚ) (hf : fields ≠ [])
    (h : ∀ kb ∈ bs, kb.2.fields ≠ [] ∧ 1 ≤ kb.2.count) :
    ∀ kb ∈ addToBuckets bs key fields score, kb.2.fields ≠ [] ∧ 1 ≤ kb.2.count := by
  induction bs with
  | nil =>
    intro kb hkb
    simp only [addToBuckets, List.mem_singleton] at hkb
    subst hkb
    exact ⟨hf, le_refl 1⟩
  | cons p rest ih =>
    obtain ⟨k, b⟩ := p
    intro kb hkb
    simp only [addToBuckets] at hkb
    by_cases hk : k = key
    · rw [if_pos hk] at hkb
      rcases List.mem_cons.mp hkb with h1 | h1
      · subst h1
        have hb := h (k, b) (List.mem_cons_self _ _)
        dsimp only at hb ⊢
        exact ⟨hb.1, by omega⟩
      · exact h kb (List.mem_cons_of_mem _ h1)
    · rw [if_neg hk] at hkb
      rcases List.mem_cons.mp hkb with h1 | h1
      · exact h kb (h1 ▸ List.mem_cons_self _ _)
      · exact ih (fun q hq => h q (List.mem_cons_of_mem _ hq)) kb h1

/-- One loop iteration of the consensus scan preserves the bucket
invariant. -/
theorem consensusStep_inv (mediaType : Option String) (queryTokens : Finset String)
    (inputYear : Option Int) (minMatchRatio : ℚ) (minTokenMatches : ℕ)
    (bs : List (ConsKey × Bucket)) (item : Val)
    (h : ∀ kb ∈ bs, kb.2.fields ≠ [] ∧ 1 ≤ kb.2.count) :
    ∀ kb ∈ consensusStep mediaType queryTokens inputYear minMatchRatio minTokenMatches
      bs item, kb.2.fields ≠ [] ∧ 1 ≤ kb.2.count := by
  have hscored : ∀ (fields : List (String × Val)) (candidateYear : Option Int),
      fields ≠ [] →
      ∀ kb ∈ consensusStep.consensusStepScored mediaType queryTokens minMatchRatio
        minTokenMatches bs fields candidateYear, kb.2.fields ≠ [] ∧ 1 ≤ kb.2.count := by
    intro fields candidateYear hf
    unfold consensusStep.consensusStepScored
    dsimp only
    split
    · exact h
    · split
      · exact h
      · exact addToBuckets_inv bs _ fields _ hf h
  unfold consensusStep
  dsimp only
  split
  · exact h
  · split
    · exact h
    · rename_i htr hfe
      simp only [List.isEmpty_iff] at hfe
      split
      · split
        · exact h
        · exact hscored _ _ hfe
      · exact hscored _ _ hfe

/-- The per-item consensus fold preserves the bucket invariant along any
prefix of the result list. -/
theorem foldl_consensus_inv (mediaType : Option String) (queryTokens : Finset String)
    (inputYear : Option Int) (minMatchRatio : ℚ) (minTokenMatches : ℕ) :
    ∀ (l : List Val) (bs : List (ConsKey × Bucket)),
      (∀ kb ∈ bs, kb.2.fields ≠ [] ∧ 1 ≤ kb.2.count) →
      ∀ kb ∈ l.foldl (consensusStep mediaType queryTokens inputYear minMatchRatio
        minTokenMatches) bs, kb.2.fields ≠ [] ∧ 1 ≤ kb.2.count := by
  intro l
  induction l with
  | nil => intro bs h; simpa using h
  | cons r rs ih =>
    intro bs h
    simp only [List.foldl_cons]
    exact ih _ (consensusStep_inv _ _ _ _ _ _ _ h)

/-- Every surviving consensus bucket carries the non-empty field set of its
first member and a count of at least one. -/
theorem consensusBuckets_inv (results : List Val) (mediaType : Option String)
    (originalQuery : String) (limit : ℕ) (minMatchRatio : ℚ) (minTokenMatches : ℕ) :
    ∀ kb ∈ consensusBuckets results mediaType originalQuery limit minMatchRatio
      minTokenMatches, kb.2.fields ≠ [] ∧ 1 ≤ kb.2.count := by
  unfold consensusBuckets
  dsimp only
  split
  · intro kb hkb
    exact absurd hkb (List.not_mem_nil kb)
  · exact foldl_consensus_inv _ _ _ _ _ _ _
      (fun kb hkb => absurd hkb (List.not_mem_nil kb))

theorem acceptedBool_eq (c m : ℕ) (r avg : ℚ) :
    (decide (c ≥ m) || (c == 1 && decide (avg ≥ r))) =
      decide (m ≤ c ∨ (c = 1 ∧ r ≤ avg)) := by
  rw [Bool.eq_iff_iff]
  simp [ge_iff_le, Bool.or_eq_true, Bool.and_eq_true, decide_eq_true_eq, beq_iff_eq]

/-- C3: the consensus winner maximises `(count, score-sum)` in that
tie-break order (no bucket strictly beats it; Python's `max` takes the first
maximal bucket), and acceptance is exactly `count ≥ minConfirmations` or
`count == 1` with average score at least `singleMatchRatio`: accepted fields
are the winner's (non-empty) fields, otherwise the empty set, while the
metadata always reports count, average score and the acceptance flag. -/
theorem C3_consensus_winner_acceptance :
    (∀ bs kb, pickBest bs = some kb →
      kb ∈ bs ∧ ∀ x ∈ bs,
        tupGtCount (x.2.count, x.2.scoreSum) (kb.2.count, kb.2.scoreSum) = false) ∧
    (∀ results mediaType originalQuery limit minMatchRatio minTokenMatches
        minConfirmations singleMatchRatio k best,
      pickBest (consensusBuckets results mediaType originalQuery limit minMatchRatio
        minTokenMatches) = some (k, best) →
      (consensusFieldsFromResults results mediaType originalQuery limit minMatchRatio
          minTokenMatches minConfirmations singleMatchRatio).2 =
        [("count", .int best.count),
         ("avg_score", .num (best.scoreSum / (max best.count 1 : ℚ))),
         ("accepted", .bool (decide (minConfirmations ≤ best.count ∨
           (best.count = 1 ∧
             singleMatchRatio ≤ best.scoreSum / (max best.count 1 : ℚ)))))] ∧
      ((consensusFieldsFromResults results mediaType originalQuery limit minMatchRatio
          minTokenMatches minConfirmations singleMatchRatio).1 ≠ [] ↔
        (minConfirmations ≤ best.count ∨
          (best.count = 1 ∧
            singleMatchRatio ≤ best.scoreSum / (max best.count 1 : ℚ)))) ∧
      ((consensusFieldsFromResults results mediaType originalQuery limit minMatchRatio
          minTokenMatches minConfirmations singleMatchRatio).1 = best.fields ∨
        (consensusFieldsFromResults results mediaType originalQuery limit minMatchRatio
          minTokenMatches minConfirmations singleMatchRatio).1 = [])) := by
  refine ⟨pickBest_mem_max, ?_⟩
  intro results mt q lim mmr mtm mc smr k best hpick
  have hmem := (pickBest_mem_max _ _ hpick).1
  have hinv := consensusBuckets_inv results mt q lim mmr mtm _ hmem
  have hC : consensusFieldsFromResults results mt q lim mmr mtm mc smr =
      ((if decide (mc ≤ best.count ∨
          (best.count = 1 ∧ smr ≤ best.scoreSum / (max best.count 1 : ℚ)))
        then best.fields else []),
       [("count", .int best.count),
        ("avg_score", .num (best.scoreSum / (max best.count 1 : ℚ))),
        ("accepted", .bool (decide (mc ≤ best.count ∨
          (best.count = 1 ∧ smr ≤ best.scoreSum / (max best.count 1 : ℚ)))))]) := by
    unfold consensusFieldsFromResults
    dsimp only
    rw [hpick]
    dsimp only
    rw [acceptedBool_eq]
  rw [hC]
  dsimp only at hinv ⊢
  refine ⟨rfl, ?_, ?_⟩
  · cases hd : decide (mc ≤ best.count ∨
        (best.count = 1 ∧ smr ≤ best.scoreSum / (max best.count 1 : ℚ))) with
    | true =>
      simp only [hd, if_true]
      exact ⟨fun _ => of_decide_eq_true hd, fun _ => hinv.1⟩
    | false =>
      simp only [hd, Bool.false_eq_true, if_false]
      exact ⟨fun hne => absurd rfl hne, fun hp => absurd hp (of_decide_eq_false hd)⟩
  · cases hd : decide (mc ≤ best.count ∨
        (best.count = 1 ∧ smr ≤ best.scoreSum / (max best.count 1 : ℚ))) with
    | true => exact Or.inl (by simp only [hd, if_true])
    | false => exact Or.inr (by simp only [hd, Bool.false_eq_true, if_false])

/-- C3 witness: Python's `max` picks the higher-count bucket in a concrete
two-bucket list, and a concrete single-result consensus run accepts via the
`count == 1` arm. -/
theorem C3_consensus_winner_acceptance_witness :
    (((("c", "d", (0 : Int)) : ConsKey), (⟨[("title", Val.str "y")], 2, 0⟩ : Bucket)) ∈
      [((("a", "b", (0 : Int)) : ConsKey), (⟨[("title", Val.str "x")], 1, 0⟩ : Bucket)),
       ((("c", "d", (0 : Int)) : ConsKey), (⟨[("title", Val.str "y")], 2, 0⟩ : Bucket))]) ∧
    ((consensusFieldsFromResults [.str "a b"] none "alpha beta" 5 0 0 1 0).1 ≠ [] ↔
      ((1 : ℕ) ≤ (⟨[("title", Val.str "a b")], 1, 0⟩ : Bucket).count ∨
        ((⟨[("title", Val.str "a b")], 1, 0⟩ : Bucket).count = 1 ∧
          (0 : ℚ) ≤ (⟨[("title", Val.str "a b")], 1, 0⟩ : Bucket).scoreSum /
            (max (⟨[("title", Val.str "a b")], 1, 0⟩ : Bucket).count 1 : ℚ)))) :=
  ⟨(C3_consensus_winner_acceptance.1
      [((("a", "b", (0 : Int)) : ConsKey), (⟨[("title", Val.str "x")], 1, 0⟩ : Bucket)),
       ((("c", "d", (0 : Int)) : ConsKey), (⟨[("title", Val.str "y")], 2, 0⟩ : Bucket))]
      ((("c", "d", (0 : Int)) : ConsKey), (⟨[("title", Val.str "y")], 2, 0⟩ : Bucket))
      rfl).1,
   (C3_consensus_winner_acceptance.2 [.str "a b"] none "alpha beta" 5 0 0 1 0
      ("", "a b", 0) ⟨[("title", Val.str "a b")], 1, 0⟩ rfl).2.1⟩

theorem valSet_valSet_same (v : Val) (k : String) (x y : Val) :
    (v.set k x).set k y = v.set k y := by
  cases v <;> simp [Val.set, dset_dset_same]

theorem valSet_dget_eq (fs : List (String × Val)) (k : String) (x : Val)
    (h : dget fs k = some x) : (Val.dict fs).set k x = .dict fs := by
  simp [Val.set, dset_of_dget_eq fs k x h]

theorem dget_isSome_of_mem (l : List (String × Val)) (kv : String × Val)
    (h : kv ∈ l) : (dget l kv.1).isSome := by
  induction l with
  | nil => exact absurd h (List.not_mem_nil kv)
  | cons p rest ih =>
    obtain ⟨k0, v0⟩ := p
    rcases List.mem_cons.mp h with h1 | h1
    · subst h1
      simp [dget]
    · by_cases hk : k0 = kv.1
      · simp [dget, hk]
      · simp only [dget, hk, if_false]
        exact ih h1

theorem dget_append_left (l l2 : List (String × Val)) (k : String)
    (h : (dget l k).isSome) : dget (l ++ l2) k = dget l k := by
  induction l with
  | nil => simp [dget] at h
  | cons p rest ih =>
    obtain ⟨k0, v0⟩ := p
    by_cases hk : k0 = k
    · simp [dget, hk]
    · simp only [dget, hk, if_false] at h ⊢
      exact ih h

theorem dget_append_singleton_self (ex : List (String × Val)) (kv : String × Val) :
    (dget (ex ++ [kv]) kv.1).isSome := by
  induction ex with
  | nil => simp [dget]
  | cons p r ih =>
    obtain ⟨k0, v0⟩ := p
    by_cases hk : k0 = kv.1
    · simp [dget, hk]
    · simp only [List.cons_append, dget, hk, if_false]
      exact ih

theorem mergeAbsent_mono (d : List (String × Val)) :
    ∀ (ex : List (String × Val)) (k : String), (dget ex k).isSome →
      (dget (mergeAbsent ex d) k).isSome := by
  induction d with
  | nil => intro ex k h; exact h
  | cons kv rest ih =>
    intro ex k h
    simp only [mergeAbsent, List.foldl_cons]
    by_cases hs : (dget ex kv.1).isSome
    · rw [if_pos hs]
      exact ih ex k h
    · rw [if_neg hs]
      refine ih _ k ?_
      rw [dget_append_left ex _ k h]
      exact h

theorem mergeAbsent_keys (d : List (String × Val)) :
    ∀ (ex : List (String × Val)) (kv : String × Val), kv ∈ d →
      (dget (mergeAbsent ex d) kv.1).isSome := by
  induction d with
  | nil => intro ex kv h; exact absurd h (List.not_mem_nil kv)
  | cons kv0 rest ih =>
    intro ex kv h
    simp only [mergeAbsent, List.foldl_cons]
    rcases List.mem_cons.mp h with h1 | h1
    · subst h1
      by_cases hs : (dget ex kv.1).isSome
      · rw [if_pos hs]
        exact mergeAbsent_mono rest ex kv.1 hs
      · rw [if_neg hs]
        exact mergeAbsent_mono rest _ kv.1 (dget_append_singleton_self ex kv)
    · exact ih _ kv h1

theorem mergeAbsent_of_all_present (d : List (String × Val)) :
    ∀ (ex : List (String × Val)), (∀ kv ∈ d, (dget ex kv.1).isSome) →
      mergeAbsent ex d = ex := by
  induction d with
  | nil => intro ex _; rfl
  | cons kv rest ih =>
    intro ex h
    simp only [mergeAbsent, List.foldl_cons]
    rw [if_pos (h kv (List.mem_cons_self _ _))]
    exact ih ex (fun q hq => h q (List.mem_cons_of_mem _ hq))

theorem splitSeqFuel_ne_nil (sep : List Char) : ∀ (fuel : ℕ) (cs : List Char),
    splitSeqFuel sep fuel cs ≠ [] := by
  intro fuel
  cases fuel with
  | zero => intro cs; cases cs <;> simp [splitSeqFuel]
  | succ n =>
    intro cs
    cases cs with
    | nil => simp [splitSeqFuel]
    | cons c rest =>
      simp only [splitSeqFuel]
      split
      · simp
      · split
        · simp
        · simp

theorem pySplit_ne_nil (s sep : String) : pySplit s sep ≠ [] := by
  unfold pySplit
  split
  · simp
  · simp only [ne_eq, List.map_eq_nil_iff]
    exact splitSeqFuel_ne_nil _ _ _

theorem getPath_set_ne (v : Val) (k : String) (x : Val) (p : String)
    (h : pathRoot p ≠ k) : getPath (v.set k x) p = getPath v p := by
  cases v with
  | dict fs =>
    unfold getPath
    cases hsp : pySplit p "." with
    | nil => exact absurd hsp (pySplit_ne_nil p ".")
    | cons root rest =>
      have hroot : root ≠ k := by
        unfold pathRoot at h
        rw [hsp] at h
        simpa using h
      show getPathParts (.dict (dset fs k x)) (root :: rest) =
        getPathParts (.dict fs) (root :: rest)
      simp only [getPathParts, dget_dset_ne _ _ _ _ hroot]
  | null => rfl
  | bool b => rfl
  | int n => rfl
  | num q => rfl
  | str s => rfl
  | list xs => rfl

theorem filterMap_ext (f g : α → Option β) (l : List α)
    (h : ∀ a ∈ l, f a = g a) : l.filterMap f = l.filterMap g := by
  induction l with
  | nil => rfl
  | cons a rest ih =>
    simp only [List.filterMap_cons]
    rw [h a (List.mem_cons_self _ _), ih (fun b hb => h b (List.mem_cons_of_mem _ hb))]

theorem getCandidateText_set_ne (v : Val) (k : String) (x : Val) (fields : List String)
    (h : ∀ f ∈ fields, pathRoot f ≠ k) :
    getCandidateText (v.set k x) fields = getCandidateText v fields := by
  unfold getCandidateText
  rw [filterMap_ext _ _ fields (fun f hf => by rw [getPath_set_ne v k x f (h f hf)])]

theorem insertSorted_mem (le : α → α → Bool) (x z : α) (l : List α)
    (h : z ∈ insertSorted le x l) : z = x ∨ z ∈ l := by
  induction l with
  | nil => simpa [insertSorted] using h
  | cons y ys ih =>
    simp only [insertSorted] at h
    by_cases hc : le x y = true
    · rw [if_pos hc] at h
      rcases List.mem_cons.mp h with h1 | h1
      · exact Or.inl h1
      · exact Or.inr h1
    · rw [if_neg hc] at h
      rcases List.mem_cons.mp h with h1 | h1
      · exact Or.inr (h1 ▸ List.mem_cons_self _ _)
      · rcases ih h1 with h2 | h2
        · exact Or.inl h2
        · exact Or.inr (List.mem_cons_of_mem _ h2)

theorem pySort_mem (le : α → α → Bool) (z : α) (l : List α)
    (h : z ∈ pySort le l) : z ∈ l := by
  induction l with
  | nil => simpa [pySort] using h
  | cons x xs ih =>
    simp only [pySort] at h
    rcases insertSorted_mem le x z _ h with h1 | h1
    · exact h1 ▸ List.mem_cons_self _ _
    · exact List.mem_cons_of_mem _ (ih h1)

theorem insertSorted_pairwise (le : α → α → Bool)
    (htot : ∀ a b, le a b = true ∨ le b a = true)
    (htrans : ∀ a b c, le a b = true → le b c = true → le a c = true)
    (x : α) (l : List α) (h : List.Pairwise (fun a b => le a b = true) l) :
    List.Pairwise (fun a b => le a b = true) (insertSorted le x l) := by
  induction l with
  | nil => simp [insertSorted]
  | cons y ys ih =>
    simp only [insertSorted]
    rcases List.pairwise_cons.mp h with ⟨hy, hys⟩
    by_cases hc : le x y = true
    · rw [if_pos hc]
      refine List.pairwise_cons.mpr ⟨?_, h⟩
      intro z hz
      rcases List.mem_cons.mp hz with h1 | h1
      · exact h1 ▸ hc
      · exact htrans x y z hc (hy z h1)
    · rw [if_neg hc]
      refine List.pairwise_cons.mpr ⟨?_, ih hys⟩
      intro z hz
      rcases insertSorted_mem le x z ys hz with h1 | h1
      · rw [h1]
        rcases htot x y with h2 | h2
        · exact absurd h2 hc
        · exact h2
      · exact hy z h1

theorem pySort_pairwise (le : α → α → Bool)
    (htot : ∀ a b, le a b = true ∨ le b a = true)
    (htrans : ∀ a b c, le a b = true → le b c = true → le a c = true)
    (l : List α) : List.Pairwise (fun a b => le a b = true) (pySort le l) := by
  induction l with
  | nil => simp [pySort]
  | cons x xs ih =>
    simp only [pySort]
    exact insertSorted_pairwise le htot htrans x _ ih

theorem pySort_of_pairwise (le : α → α → Bool) (l : List α)
    (h : List.Pairwise (fun a b => le a b = true) l) : pySort le l = l := by
  induction l with
  | nil => rfl
  | cons x xs ih =>
    rcases List.pairwise_cons.mp h with ⟨hx, hxs⟩
    simp only [pySort, ih hxs]
    cases xs with
    | nil => rfl
    | cons y ys =>
      simp only [insertSorted, hx y (List.mem_cons_self _ _), if_true]

theorem listLexLe_total (a : List ℚ) : ∀ b, listLexLe a b = true ∨ listLexLe b a = true := by
  induction a with
  | nil => intro b; exact Or.inl rfl
  | cons x xs ih =>
    intro b
    cases b with
    | nil => exact Or.inr rfl
    | cons y ys =>
      simp only [listLexLe, Bool.or_eq_true, Bool.and_eq_true, decide_eq_true_eq,
        beq_iff_eq]
      rcases lt_trichotomy x y with h | h | h
      · exact Or.inl (Or.inl h)
      · subst h
        rcases ih ys with h2 | h2
        · exact Or.inl (Or.inr ⟨rfl, h2⟩)
        · exact Or.inr (Or.inr ⟨rfl, h2⟩)
      · exact Or.inr (Or.inl h)

theorem listLexLe_trans (a : List ℚ) :
    ∀ b c, listLexLe a b = true → listLexLe b c = true → listLexLe a c = true := by
  induction a with
  | nil => intro b c _ _; rfl
  | cons x xs ih =>
    intro b c hab hbc
    cases b with
    | nil => simp [listLexLe] at hab
    | cons y ys =>
      cases c with
      | nil => simp [listLexLe] at hbc
      | cons z zs =>
        simp only [listLexLe, Bool.or_eq_true, Bool.and_eq_true, decide_eq_true_eq,
          beq_iff_eq] at hab hbc ⊢
        rcases hab with h1 | ⟨e1, l1⟩ <;> rcases hbc with h2 | ⟨e2, l2⟩
        · exact Or.inl (lt_trans h1 h2)
        · exact Or.inl (e2 ▸ h1)
        · exact Or.inl (e1 ▸ h2)
        · exact Or.inr ⟨e1.trans e2, ih ys zs l1 l2⟩

theorem attachDerived_empty (v : Val) (d : List (String × Val)) (h : d.isEmpty = true) :
    attachDerived v d = v := by
  simp [attachDerived, h]

theorem foldl_ext' (f g : α → β → α) (init : α) (l : List β)
    (h : ∀ b ∈ l, ∀ a, f a b = g a b) : l.foldl f init = l.foldl g init := by
  induction l generalizing init with
  | nil => rfl
  | cons b rest ih =>
    simp only [List.foldl_cons]
    rw [h b (List.mem_cons_self _ _), ih _ (fun b2 hb2 a => h b2 (List.mem_cons_of_mem _ hb2) a)]

/-- `attachDerived` on a dict yields a dict; when the derived list is
non-empty, the result's `derived` entry is a dict holding every derived
key. -/
theorem attachDerived_dict_spec (cfs : List (String × Val)) (d : List (String × Val)) :
    ∃ afs, attachDerived (.dict cfs) d = .dict afs ∧
      (d.isEmpty = true ∨
        ∃ Dm, dget afs "derived" = some (.dict Dm) ∧ ∀ kv ∈ d, (dget Dm kv.1).isSome) := by
  cases hie : d.isEmpty with
  | true => exact ⟨cfs, attachDerived_empty _ _ hie, Or.inl rfl⟩
  | false =>
    unfold attachDerived
    rw [if_neg (by simp [hie])]
    cases hpg : (Val.dict cfs).pyGet "derived" with
    | dict existing =>
      refine ⟨dset cfs "derived" (.dict (mergeAbsent existing d)), rfl, Or.inr
        ⟨mergeAbsent existing d, ?_, fun kv hkv => mergeAbsent_keys d existing kv hkv⟩⟩
      exact dget_dset_self _ _ _
    | null =>
      exact ⟨dset cfs "derived" (.dict d), rfl, Or.inr
        ⟨d, dget_dset_self _ _ _, fun kv hkv => dget_isSome_of_mem d kv hkv⟩⟩
    | bool b =>
      exact ⟨dset cfs "derived" (.dict d), rfl, Or.inr
        ⟨d, dget_dset_self _ _ _, fun kv hkv => dget_isSome_of_mem d kv hkv⟩⟩
    | int n =>
      exact ⟨dset cfs "derived" (.dict d), rfl, Or.inr
        ⟨d, dget_dset_self _ _ _, fun kv hkv => dget_isSome_of_mem d kv hkv⟩⟩
    | num q =>
      exact ⟨dset cfs "derived" (.dict d), rfl, Or.inr
        ⟨d, dget_dset_self _ _ _, fun kv hkv => dget_isSome_of_mem d kv hkv⟩⟩
    | str s =>
      exact ⟨dset cfs "derived" (.dict d), rfl, Or.inr
        ⟨d, dget_dset_self _ _ _, fun kv hkv => dget_isSome_of_mem d kv hkv⟩⟩
    | list xs =>
      exact ⟨dset cfs "derived" (.dict d), rfl, Or.inr
        ⟨d, dget_dset_self _ _ _, fun kv hkv => dget_isSome_of_mem d kv hkv⟩⟩

/-- Re-attaching the same derived fields to an already-annotated candidate
changes nothing. -/
theorem attachDerived_absorb (afs : List (String × Val)) (R : Val)
    (d : List (String × Val))
    (hspec : d.isEmpty = true ∨
      ∃ Dm, dget afs "derived" = some (.dict Dm) ∧ ∀ kv ∈ d, (dget Dm kv.1).isSome) :
    attachDerived (.dict (dset afs "rank" R)) d = .dict (dset afs "rank" R) := by
  rcases hspec with hie | ⟨Dm, hdg, hpres⟩
  · exact attachDerived_empty _ _ hie
  · cases hie : d.isEmpty with
    | true => exact attachDerived_empty _ _ hie
    | false =>
      unfold attachDerived
      rw [if_neg (by simp [hie])]
      have hpg : (Val.dict (dset afs "rank" R)).pyGet "derived" = .dict Dm := by
        show ((dget (dset afs "rank" R) "derived").getD .null) = .dict Dm
        rw [dget_dset_ne _ _ _ _ (by decide), hdg]
        rfl
      rw [hpg]
      dsimp only
      rw [mergeAbsent_of_all_present d Dm hpres]
      exact valSet_dget_eq _ _ _ (by rw [dget_dset_ne _ _ _ _ (by decide)]; exact hdg)

/-- `getCandidateText` ignores keys outside the addressed roots. -/
theorem getCandidateText_dset_ne (afs : List (String × Val)) (k : String) (x : Val)
    (fields : List String) (h : ∀ f ∈ fields, pathRoot f ≠ k) :
    getCandidateText (.dict (dset afs k x)) fields = getCandidateText (.dict afs) fields :=
  getCandidateText_set_ne (.dict afs) k x fields h

/-- The candidate text does not see the `derived` attachment when no title
field addresses the `derived` root. -/
theorem getCandidateText_attachDerived (cfs : List (String × Val))
    (d : List (String × Val)) (fields : List String)
    (h : ∀ f ∈ fields, pathRoot f ≠ "derived") :
    getCandidateText (attachDerived (.dict cfs) d) fields =
      getCandidateText (.dict cfs) fields := by
  unfold attachDerived
  split
  · rfl
  · cases hpg : (Val.dict cfs).pyGet "derived" with
    | dict existing => exact getCandidateText_set_ne _ _ _ _ h
    | null => exact getCandidateText_set_ne _ _ _ _ h
    | bool b => exact getCandidateText_set_ne _ _ _ _ h
    | int n => exact getCandidateText_set_ne _ _ _ _ h
    | num q => exact getCandidateText_set_ne _ _ _ _ h
    | str s => exact getCandidateText_set_ne _ _ _ _ h
    | list xs => exact getCandidateText_set_ne _ _ _ _ h

/-- The release category reads only `title` and `redacted`, so a `rank`
write cannot change it. -/
theorem releaseCategory_set_rank (v : Val) (r : Val) (rtm : List (Int × String)) :
    releaseCategoryForCandidate (v.set "rank" r) rtm =
      releaseCategoryForCandidate v rtm := by
  unfold releaseCategoryForCandidate
  rw [valSet_pyGet_ne _ _ _ _ (by decide), valSet_pyGet_ne _ _ _ _ (by decide)]

/-- The score computation cannot see the `rank` annotation when no numeric
field addresses the `rank` root. -/
theorem computeScore_set_rank (rv : String → Bool) (rs : String → String → Bool)
    (rules : QualityRules) (rtm : List (Int × String)) (text : String) (v : Val) (r : Val)
    (hnum : ∀ e ∈ rules.numericFields, pathRoot e.path ≠ "rank") :
    computeScore rv rs rules rtm text (v.set "rank" r) =
      computeScore rv rs rules rtm text v := by
  unfold computeScore
  dsimp only
  rw [releaseCategory_set_rank v r rtm,
    valSet_pyGet_ne v "rank" "recommendation" r (by decide)]
  rw [foldl_ext'
    (fun (acc : ℚ × List String) entry =>
      if entry.path.isEmpty then acc
      else
        match pyFloat (getPath (v.set "rank" r) entry.path) with
        | none => acc
        | some v0 =>
          let v1 := if entry.scale ≠ 0 then v0 / entry.scale else v0
          let v2 := match entry.cap with
            | some c => if v1 > c then c else v1
            | none => v1
          (acc.1 + v2 * entry.weight,
            acc.2 ++ [if entry.label.isEmpty then
              entry.path ++ ":" ++ toString v2 ++ "*" ++ toString entry.weight
              else entry.label]))
    (fun (acc : ℚ × List String) entry =>
      if entry.path.isEmpty then acc
      else
        match pyFloat (getPath v entry.path) with
        | none => acc
        | some v0 =>
          let v1 := if entry.scale ≠ 0 then v0 / entry.scale else v0
          let v2 := match entry.cap with
            | some c => if v1 > c then c else v1
            | none => v1
          (acc.1 + v2 * entry.weight,
            acc.2 ++ [if entry.label.isEmpty then
              entry.path ++ ":" ++ toString v2 ++ "*" ++ toString entry.weight
              else entry.label]))
    _ rules.numericFields
    (fun e he acc => by
      dsimp only
      rw [getPath_set_ne v "rank" r e.path (hnum e he)])]

theorem computeScore_dset_rank (rv : String → Bool) (rs : String → String → Bool)
    (rules : QualityRules) (rtm : List (Int × String)) (text : String)
    (afs : List (String × Val)) (r : Val)
    (hnum : ∀ e ∈ rules.numericFields, pathRoot e.path ≠ "rank") :
    computeScore rv rs rules rtm text (.dict (dset afs "rank" r)) =
      computeScore rv rs rules rtm text (.dict afs) :=
  computeScore_set_rank rv rs rules rtm text (.dict afs) r hnum

/-- Scoring an already-scored candidate reproduces it exactly (fields,
`rank` annotation and rejected flag) when the rules read neither the `rank`
nor the `derived` annotation. -/
theorem scoreCandidate_stable (rv : String → Bool) (rs : String → String → Bool)
    (da : String → List (String × Val)) (rules : QualityRules)
    (rtm : List (Int × String)) (hrules : rulesAnnotationFree rules = true) (item : Val) :
    scoreCandidate rv rs da rules rtm (scoreCandidate rv rs da rules rtm item).1 =
      scoreCandidate rv rs da rules rtm item := by
  have hall : (∀ f ∈ rules.titleFields, pathRoot f ≠ "rank" ∧ pathRoot f ≠ "derived") ∧
      ∀ e ∈ rules.numericFields, pathRoot e.path ≠ "rank" ∧ pathRoot e.path ≠ "derived" := by
    unfold rulesAnnotationFree at hrules
    simp only [Bool.and_eq_true, List.all_eq_true, decide_eq_true_eq] at hrules
    exact hrules
  suffices key : ∀ cfs : List (String × Val),
      scoreCandidate rv rs da rules rtm (scoreCandidate rv rs da rules rtm (.dict cfs)).1 =
        scoreCandidate rv rs da rules rtm (.dict cfs) by
    cases item with
    | dict fs => exact key fs
    | null => exact key _
    | bool b => exact key _
    | int n => exact key _
    | num q => exact key _
    | str s => exact key _
    | list xs => exact key _
  intro cfs
  obtain ⟨afs, ha, hspec⟩ := attachDerived_dict_spec cfs
    (da (getCandidateText (.dict cfs) rules.titleFields))
  have hrun1 : scoreCandidate rv rs da rules rtm (.dict cfs) =
      (.dict (dset afs "rank" (.dict
        [("score", .num (computeScore rv rs rules rtm
            (getCandidateText (.dict cfs) rules.titleFields) (.dict afs)).1.1),
         ("rejected", .bool (computeScore rv rs rules rtm
            (getCandidateText (.dict cfs) rules.titleFields) (.dict afs)).2),
         ("reasons", .list ((computeScore rv rs rules rtm
            (getCandidateText (.dict cfs) rules.titleFields) (.dict afs)).1.2.map
            Val.str))])),
       (computeScore rv rs rules rtm
         (getCandidateText (.dict cfs) rules.titleFields) (.dict afs)).2) := by
    unfold scoreCandidate
    dsimp only
    rw [ha]
    rfl
  rw [hrun1]
  dsimp only
  unfold scoreCandidate
  dsimp only
  rw [getCandidateText_dset_ne afs "rank" _ rules.titleFields (fun f hf => (hall.1 f hf).1)]
  have htA : getCandidateText (.dict afs) rules.titleFields =
      getCandidateText (.dict cfs) rules.titleFields := by
    rw [← ha]
    exact getCandidateText_attachDerived cfs _ rules.titleFields
      (fun f hf => (hall.1 f hf).2)
  rw [htA]
  rw [attachDerived_absorb afs _ _ hspec]
  rw [computeScore_dset_rank rv rs rules rtm _ afs _ (fun e he => (hall.2 e he).1)]
  dsimp only [Val.set]
  rw [dset_dset_same]

theorem rankFilter_of_stable (g : Val → Val × Bool) (l : List Val)
    (h : ∀ c ∈ l, g c = (c, false)) :
    ((l.map g).filter (fun p => !p.2)).map Prod.fst = l ∧
    ((l.map g).filter (fun p => p.2)).map Prod.fst = [] := by
  induction l with
  | nil => exact ⟨rfl, rfl⟩
  | cons c rest ih =>
    obtain ⟨h1, h2⟩ := ih (fun x hx => h x (List.mem_cons_of_mem _ hx))
    have hc := h c (List.mem_cons_self _ _)
    simp only [List.map_cons, hc, List.filter_cons]
    constructor
    · simp only [Bool.not_false, if_true, List.map_cons, h1]
    · simp only [Bool.false_eq_true, if_false, h2]

/-- Every survivor returned by the ranking core is a fixed point of the
scorer with a false rejected flag. -/
theorem rankReleasesCore_out (rv : String → Bool) (rs : String → String → Bool)
    (da : String → List (String × Val)) (rules : QualityRules)
    (rtm : List (Int × String)) (hrules : rulesAnnotationFree rules = true) (l : List Val) :
    ∀ c ∈ (rankReleasesCore rv rs da rules rtm l).1,
      scoreCandidate rv rs da rules rtm c = (c, false) := by
  intro c hc
  unfold rankReleasesCore at hc
  dsimp only at hc
  have hc' : c ∈ (((l.map (scoreCandidate rv rs da rules rtm)).filter
      (fun p => !p.2)).map Prod.fst) := by
    split at hc
    · exact pySort_mem _ _ _ hc
    · exact pySort_mem _ _ _ hc
  rcases List.mem_map.mp hc' with ⟨p, hp, hpc⟩
  rcases List.mem_filter.mp hp with ⟨hpl, hpn⟩
  rcases List.mem_map.mp hpl with ⟨item, hitem, hpi⟩
  subst hpi
  subst hpc
  rw [scoreCandidate_stable rv rs da rules rtm hrules item]
  have h2 : (scoreCandidate rv rs da rules rtm item).2 = false := by
    simpa using hpn
  rw [← h2]

/-- Re-running the ranking core on its own survivor list reproduces the
list with no new rejects. -/
theorem rankReleasesCore_idem (rv : String → Bool) (rs : String → String → Bool)
    (da : String → List (String × Val)) (rules : QualityRules)
    (rtm : List (Int × String)) (hrules : rulesAnnotationFree rules = true) (l : List Val) :
    rankReleasesCore rv rs da rules rtm (rankReleasesCore rv rs da rules rtm l).1 =
      ((rankReleasesCore rv rs da rules rtm l).1, []) := by
  have hmem := rankReleasesCore_out rv rs da rules rtm hrules l
  have main : ∀ (key : Val → List ℚ) (L : List Val),
      (∀ c ∈ L, scoreCandidate rv rs da rules rtm c = (c, false)) →
      List.Pairwise (fun a b => listLexLe (key a) (key b) = true) L →
      pySort (fun a b => listLexLe (key a) (key b))
        (((L.map (scoreCandidate rv rs da rules rtm)).filter fun p => !p.2).map Prod.fst)
        = L ∧
      (((L.map (scoreCandidate rv rs da rules rtm)).filter fun p => p.2).map Prod.fst)
        = [] := by
    intro key L hst hpw
    obtain ⟨h1, h2⟩ := rankFilter_of_stable _ L hst
    exact ⟨by rw [h1]; exact pySort_of_pairwise _ _ hpw, h2⟩
  unfold rankReleasesCore at hmem ⊢
  dsimp only at hmem ⊢
  cases hsf : rules.sortFields.isEmpty with
  | true =>
    simp only [hsf, Bool.not_true, Bool.false_eq_true, if_false] at hmem ⊢
    obtain ⟨m1, m2⟩ := main defaultSortKey _ hmem
      (pySort_pairwise (fun a b => listLexLe (defaultSortKey a) (defaultSortKey b))
        (fun a b => listLexLe_total (defaultSortKey a) (defaultSortKey b))
        (fun a b c h1 h2 =>
          listLexLe_trans (defaultSortKey a) (defaultSortKey b) (defaultSortKey c) h1 h2) _)
    rw [m1, m2]
  | false =>
    simp only [hsf, Bool.not_false, if_true] at hmem ⊢
    obtain ⟨m1, m2⟩ := main (sortFieldsKey rules.sortFields) _ hmem
      (pySort_pairwise
        (fun a b => listLexLe (sortFieldsKey rules.sortFields a)
          (sortFieldsKey rules.sortFields b))
        (fun a b => listLexLe_total (sortFieldsKey rules.sortFields a)
          (sortFieldsKey rules.sortFields b))
        (fun a b c h1 h2 => listLexLe_trans (sortFieldsKey rules.sortFields a)
          (sortFieldsKey rules.sortFields b) (sortFieldsKey rules.sortFields c) h1 h2) _)
    rw [m1, m2]

/-- C5 (amended): `rank_releases` is idempotent on every document whenever
the resolved quality rules read neither the engine-written `rank` annotation
nor the `derived` annotation while scoring (`title_fields` and the
`numeric_fields` paths avoid the `rank`/`derived` roots): re-ranking the
already-ranked document reproduces the same candidate order, the same rank
scores and the same rejected set. -/
theorem C5_rank_idempotence_amended (rv : String → Bool) (rs : String → String → Bool)
    (da : String → List (String × Val)) (rules : QualityRules)
    (rtm : List (Int × String)) (hrules : rulesAnnotationFree rules = true) (data : Val) :
    rankReleasesStep rv rs da rules rtm (rankReleasesStep rv rs da rules rtm data) =
      rankReleasesStep rv rs da rules rtm data := by
  cases data with
  | dict fs =>
    cases hct : (pyOr (((Val.dict fs).getD "work" (.dict [])).getD "candidates"
        (.list [])) (.list [])).truthy with
    | false =>
      have h0 : rankReleasesStep rv rs da rules rtm (.dict fs) = .dict fs := by
        unfold rankReleasesStep
        dsimp only
        rw [if_pos (by rw [hct]; rfl)]
      rw [h0, h0]
    | true =>
      cases hW : ((Val.dict fs).getD "work" (.dict [])) with
      | dict wfs =>
        rw [hW] at hct
        have hrun1 : rankReleasesStep rv rs da rules rtm (.dict fs) =
            (Val.dict fs).set "work"
              ((if (rankReleasesCore rv rs da rules rtm
                    (pyOr ((Val.dict wfs).getD "candidates" (.list []))
                      (.list [])).items).2.isEmpty
                then (Val.dict wfs)
                else (Val.dict wfs).set "rejected_candidates"
                  (.list (rankReleasesCore rv rs da rules rtm
                    (pyOr ((Val.dict wfs).getD "candidates" (.list []))
                      (.list [])).items).2)).set "candidates"
                (.list (rankReleasesCore rv rs da rules rtm
                  (pyOr ((Val.dict wfs).getD "candidates" (.list []))
                    (.list [])).items).1)) := by
          unfold rankReleasesStep
          dsimp only
          rw [hW]
          rw [if_neg (by rw [hct]; simp)]
        obtain ⟨bfs, hB⟩ : ∃ bfs,
            (if (rankReleasesCore rv rs da rules rtm
                  (pyOr ((Val.dict wfs).getD "candidates" (.list []))
                    (.list [])).items).2.isEmpty = true
              then (Val.dict wfs)
              else (Val.dict wfs).set "rejected_candidates"
                (.list (rankReleasesCore rv rs da rules rtm
                  (pyOr ((Val.dict wfs).getD "candidates" (.list []))
                    (.list [])).items).2)) = .dict bfs := by
          split
          · exact ⟨wfs, rfl⟩
          · exact ⟨dset wfs "rejected_candidates" _, rfl⟩
        rw [hrun1, hB]
        cases hR : (rankReleasesCore rv rs da rules rtm
            (pyOr ((Val.dict wfs).getD "candidates" (.list [])) (.list [])).items).1 with
        | nil =>
          unfold rankReleasesStep
          dsimp only
          rw [if_pos (by simp [Val.set, Val.getD, dget_dset_self, pyOr, Val.truthy])]
        | cons x xs =>
          unfold rankReleasesStep
          dsimp only
          have hg1 : (((Val.dict fs).set "work"
              ((Val.dict bfs).set "candidates" (.list (x :: xs)))).getD "work"
              (.dict [])) = ((Val.dict bfs).set "candidates" (.list (x :: xs))) := by
            show ((dget (dset fs "work" _) "work").getD _) = _
            rw [dget_dset_self]
            rfl
          rw [hg1]
          have hg2 : (((Val.dict bfs).set "candidates" (.list (x :: xs))).getD
              "candidates" (.list [])) = .list (x :: xs) := by
            show ((dget (dset bfs "candidates" _) "candidates").getD _) = _
            rw [dget_dset_self]
            rfl
          rw [hg2]
          have hpo : pyOr (.list (x :: xs)) (.list []) = Val.list (x :: xs) := by
            simp [pyOr, Val.truthy]
          rw [hpo]
          rw [if_neg (by simp [Val.truthy])]
          have hidem := rankReleasesCore_idem rv rs da rules rtm hrules
            (pyOr ((Val.dict wfs).getD "candidates" (.list [])) (.list [])).items
          rw [hR] at hidem
          dsimp only [Val.items]
          rw [hidem]
          dsimp only
          rw [if_pos List.isEmpty_nil]
          rw [valSet_valSet_same]
          rw [valSet_valSet_same]
      | null => rw [hW] at hct; simp [Val.getD, pyOr, Val.truthy] at hct
      | bool b => rw [hW] at hct; simp [Val.getD, pyOr, Val.truthy] at hct
      | int n => rw [hW] at hct; simp [Val.getD, pyOr, Val.truthy] at hct
      | num q => rw [hW] at hct; simp [Val.getD, pyOr, Val.truthy] at hct
      | str s => rw [hW] at hct; simp [Val.getD, pyOr, Val.truthy] at hct
      | list xs => rw [hW] at hct; simp [Val.getD, pyOr, Val.truthy] at hct
  | null =>
    have h0 : rankReleasesStep rv rs da rules rtm .null = .null := rfl
    rw [h0, h0]
  | bool b =>
    have h0 : rankReleasesStep rv rs da rules rtm (.bool b) = .bool b := rfl
    rw [h0, h0]
  | int n =>
    have h0 : rankReleasesStep rv rs da rules rtm (.int n) = .int n := rfl
    rw [h0, h0]
  | num q =>
    have h0 : rankReleasesStep rv rs da rules rtm (.num q) = .num q := rfl
    rw [h0, h0]
  | str s =>
    have h0 : rankReleasesStep rv rs da rules rtm (.str s) = .str s := rfl
    rw [h0, h0]
  | list xs =>
    have h0 : rankReleasesStep rv rs da rules rtm (.list xs) = .list xs := rfl
    rw [h0, h0]

/-- C5: counterexample.  With a numeric-field rule addressing `rank.score`
(a path the engine itself writes), ranking twice under identical rules
yields a different score than ranking once: the second pass reads the score
the first pass wrote and adds it again (1 → 1 + 1·1), so `rank_releases` is
not idempotent for every fixed rule set. -/
theorem C5_rank_idempotence_counterexample :
    ((((((rankReleasesStep (fun _ => true) (fun _ _ => false) (fun _ => [])
        ⟨1, [], [], [⟨"rank.score", 0, none, 1, ""⟩], [], ["title"], [], 50⟩ []
        (rankReleasesStep (fun _ => true) (fun _ _ => false) (fun _ => [])
          ⟨1, [], [], [⟨"rank.score", 0, none, 1, ""⟩], [], ["title"], [], 50⟩ []
          (.dict [("work", .dict [("candidates",
            .list [.dict [("title", .str "a")]])])]))).pyGet "work").pyGet
        "candidates").items.headD .null).pyGet "rank").pyGet "score" =
      .num (1 + 1 * 1)) ∧
    ((((((rankReleasesStep (fun _ => true) (fun _ _ => false) (fun _ => [])
        ⟨1, [], [], [⟨"rank.score", 0, none, 1, ""⟩], [], ["title"], [], 50⟩ []
        (.dict [("work", .dict [("candidates",
          .list [.dict [("title", .str "a")]])])])).pyGet "work").pyGet
        "candidates").items.headD .null).pyGet "rank").pyGet "score" = .num 1) ∧
    rankReleasesStep (fun _ => true) (fun _ _ => false) (fun _ => [])
        ⟨1, [], [], [⟨"rank.score", 0, none, 1, ""⟩], [], ["title"], [], 50⟩ []
        (rankReleasesStep (fun _ => true) (fun _ _ => false) (fun _ => [])
          ⟨1, [], [], [⟨"rank.score", 0, none, 1, ""⟩], [], ["title"], [], 50⟩ []
          (.dict [("work", .dict [("candidates",
            .list [.dict [("title", .str "a")]])])])) ≠
      rankReleasesStep (fun _ => true) (fun _ _ => false) (fun _ => [])
        ⟨1, [], [], [⟨"rank.score", 0, none, 1, ""⟩], [], ["title"], [], 50⟩ []
        (.dict [("work", .dict [("candidates",
          .list [.dict [("title", .str "a")]])])]) := by
  refine ⟨rfl, rfl, ?_⟩
  intro h
  have h2 := congrArg (fun d : Val =>
    ((((d.pyGet "work").pyGet "candidates").items.headD .null).pyGet "rank").pyGet
      "score") h
  dsimp only at h2
  have h3 : Val.num (1 + 1 * 1) = Val.num 1 := by
    calc Val.num (1 + 1 * 1)
        = ((((((rankReleasesStep (fun _ => true) (fun _ _ => false) (fun _ => [])
            ⟨1, [], [], [⟨"rank.score", 0, none, 1, ""⟩], [], ["title"], [], 50⟩ []
            (rankReleasesStep (fun _ => true) (fun _ _ => false) (fun _ => [])
              ⟨1, [], [], [⟨"rank.score", 0, none, 1, ""⟩], [], ["title"], [], 50⟩ []
              (.dict [("work", .dict [("candidates",
                .list [.dict [("title", .str "a")]])])]))).pyGet "work").pyGet
            "candidates").items.headD .null).pyGet "rank").pyGet "score") := rfl
      _ = _ := h2
      _ = Val.num 1 := rfl
  have h4 := Val.num.inj h3
  norm_num at h4

/-- C5 witness: the amended idempotence at a concrete annotation-free rule
set and document. -/
theorem C5_rank_idempotence_amended_witness :
    rankReleasesStep (fun _ => true) (fun _ _ => false) (fun _ => [])
        ⟨1, [], [], [], [], ["title"], [], 50⟩ []
        (rankReleasesStep (fun _ => true) (fun _ _ => false) (fun _ => [])
          ⟨1, [], [], [], [], ["title"], [], 50⟩ []
          (.dict [("work", .dict [("candidates",
            .list [.dict [("title", .str "a")]])])])) =
      rankReleasesStep (fun _ => true) (fun _ _ => false) (fun _ => [])
        ⟨1, [], [], [], [], ["title"], [], 50⟩ []
        (.dict [("work", .dict [("candidates",
          .list [.dict [("title", .str "a")]])])]) :=
  C5_rank_idempotence_amended (fun _ => true) (fun _ _ => false) (fun _ => [])
    ⟨1, [], [], [], [], ["title"], [], 50⟩ [] (by decide)
    (.dict [("work", .dict [("candidates", .list [.dict [("title", .str "a")]])])])

end IWantIt
